import Mathlib

/-!
# Headlamp backend: OIDC mismatch detector, OIDC flow, refresh middleware, cluster router

A shallow embedding of `backend/pkg/auth/oidcmismatch.go` and of the OIDC,
cluster-routing, cluster-management and node-drain handlers of
`backend/cmd/headlamp.go`.

Conventions of the embedding.

* A Go `string` is a `List Char` (the runes of a well-formed UTF-8 string).
* Go `int` status codes are `Int`; a `time.Duration` is an `Int` of nanoseconds.
* Calls into collaborators whose code is outside the embedded files (the OAuth2
  library, the TTL cache, the identity-token verifier, the cookie helpers, the
  upstream proxy) appear as entries of an effect log, and their results are
  supplied by the caller of the model.
-/

namespace Headlamp

/-! ## Go standard library: `strings` and `unicode` -/

/-- Go string: the sequence of runes of a well-formed UTF-8 string. -/
abbrev GoString := List Char

/-- The ASCII branch of `unicode.ToLower`: `'A'..'Z'` are shifted by `'a' - 'A'`. -/
def asciiToLower (c : Char) : Char :=
  if 65 ≤ c.toNat ∧ c.toNat ≤ 90 then Char.ofNat (c.toNat + 32) else c

/-- Rune lowering `unicode.ToLower`: below `utf8.RuneSelf` (128) the ASCII rule,
above it the Unicode case table `tbl`, which is a parameter of the embedding. -/
def unicodeToLower (tbl : Char → Char) (c : Char) : Char :=
  if c.toNat < 128 then asciiToLower c else tbl c

/-- Lowering of a whole string, `strings.ToLower`: every rune is mapped by
`unicode.ToLower` (the all-ASCII fast path of the library computes the same
string). -/
def ToLower (tbl : Char → Char) (s : GoString) : GoString :=
  s.map (unicodeToLower tbl)

/-- White space as `unicode.IsSpace` defines it: the six ASCII ones, U+0085,
U+00A0 and the runes of category Z with the property Pattern_White_Space. -/
def isSpace (c : Char) : Bool :=
  let n := c.toNat
  n == 9 || n == 10 || n == 11 || n == 12 || n == 13 || n == 32 ||
  n == 0x85 || n == 0xA0 || n == 0x1680 || (0x2000 ≤ n && n ≤ 0x200A) ||
  n == 0x2028 || n == 0x2029 || n == 0x202F || n == 0x205F || n == 0x3000

/-- Left trim of `strings.TrimSpace`: drops the leading white space. -/
def trimLeftSpace (s : GoString) : GoString :=
  s.dropWhile isSpace

/-- Right trim of `strings.TrimSpace`: drops the trailing white space. -/
def trimRightSpace (s : GoString) : GoString :=
  (s.reverse.dropWhile isSpace).reverse

/-- White-space trimming `strings.TrimSpace`: leading white space is cut first,
then trailing white space. -/
def TrimSpace (s : GoString) : GoString :=
  trimRightSpace (trimLeftSpace s)

/-- Prefix test `strings.HasPrefix`:
`len(s) >= len(prefix) && s[:len(prefix)] == prefix`. -/
def HasPrefix (s pre : GoString) : Bool :=
  decide (pre.length ≤ s.length) && (s.take pre.length == pre)

/-! ## `pkg/auth/oidcmismatch.go` -/

/-- Status constant `http.StatusUnauthorized`. -/
def StatusUnauthorized : Int := 401

/-- Status constant `http.StatusForbidden`. -/
def StatusForbidden : Int := 403

/-- Detector record `OIDCMismatchDetector`. -/
structure OIDCMismatchDetector where
  isOIDCConfigured : Bool
  clusterName : GoString
deriving DecidableEq, Repr

/-- Constructor `NewOIDCMismatchDetector`. -/
def NewOIDCMismatchDetector (isOIDCConfigured : Bool) (clusterName : GoString) :
    OIDCMismatchDetector :=
  { isOIDCConfigured := isOIDCConfigured, clusterName := clusterName }

/-- Method `DetectMismatch`. -/
def OIDCMismatchDetector.DetectMismatch (o : OIDCMismatchDetector)
    (statusCode : Int) (hadBearerToken : Bool) : Bool :=
  o.isOIDCConfigured &&
    hadBearerToken &&
    (statusCode == StatusUnauthorized || statusCode == StatusForbidden)

/-- Function `HasBearerToken`. -/
def HasBearerToken (tbl : Char → Char) (authHeader : GoString) : Bool :=
  HasPrefix (TrimSpace (ToLower tbl authHeader)) "bearer ".toList

/-- The relation "`b` is `a` with the case of an ASCII letter possibly changed":
equal runes, or an upper-case ASCII letter and its lower-case form in either
order. -/
def caseFlip (a b : Char) : Bool :=
  a == b ||
  (decide (65 ≤ a.toNat ∧ a.toNat ≤ 90) && b.toNat == a.toNat + 32) ||
  (decide (65 ≤ b.toNat ∧ b.toNat ≤ 90) && a.toNat == b.toNat + 32)

/-- The string `h2` is obtained from `h1` by changing the case of ASCII letters. -/
def caseVariant : GoString → GoString → Bool
  | [], [] => true
  | a :: as, b :: bs => caseFlip a b && caseVariant as bs
  | _, _ => false

/-! ## JSON values and the mismatch response body -/

/-- JSON document, as far as the mismatch response needs it. -/
inductive JSON where
  | str (s : GoString)
  | num (n : Int)
  | obj (fields : List (GoString × JSON))

/-- Member of a JSON object by key. -/
def JSON.get (j : JSON) (key : GoString) : Option JSON :=
  match j with
  | JSON.obj fields => (fields.find? (fun kv => kv.1 == key)).map (fun kv => kv.2)
  | _ => none

/-- String value of a JSON node. -/
def JSON.asStr (j : JSON) : Option GoString :=
  match j with
  | JSON.str s => some s
  | _ => none

/-- Number value of a JSON node. -/
def JSON.asNum (j : JSON) : Option Int :=
  match j with
  | JSON.num n => some n
  | _ => none

/-- Struct `OIDCMismatchDetails`. -/
structure OIDCMismatchDetails where
  ErrorType : GoString
  SuggestedAction : GoString
  OriginalStatus : Int
deriving DecidableEq, Repr

/-- Struct `OIDCMismatchErrorResponse`; `Metadata` is always the empty map. -/
structure OIDCMismatchErrorResponse where
  Kind : GoString
  APIVersion : GoString
  Status : GoString
  Message : GoString
  Reason : GoString
  Details : OIDCMismatchDetails
  Code : Int
deriving DecidableEq, Repr

/-- Encoding of `OIDCMismatchDetails` under its `json` tags. -/
def OIDCMismatchDetails.toJSON (d : OIDCMismatchDetails) : JSON :=
  JSON.obj [("errorType".toList, JSON.str d.ErrorType),
            ("suggestedAction".toList, JSON.str d.SuggestedAction),
            ("originalStatus".toList, JSON.num d.OriginalStatus)]

/-- Encoding of `OIDCMismatchErrorResponse` under its `json` tags, in field order. -/
def OIDCMismatchErrorResponse.toJSON (e : OIDCMismatchErrorResponse) : JSON :=
  JSON.obj [("kind".toList, JSON.str e.Kind),
            ("apiVersion".toList, JSON.str e.APIVersion),
            ("metadata".toList, JSON.obj []),
            ("status".toList, JSON.str e.Status),
            ("message".toList, JSON.str e.Message),
            ("reason".toList, JSON.str e.Reason),
            ("details".toList, e.Details.toJSON),
            ("code".toList, JSON.num e.Code)]

/-! ## Requests and the effect log -/

/-- Header map `http.Header`, keyed by canonical header name. -/
abbrev Header := List (GoString × List GoString)

/-- Part of `url.URL` the handlers touch. -/
structure URL where
  Scheme : GoString
  Host : GoString
  Path : GoString
deriving DecidableEq, Repr

/-- Part of `http.Request` the handlers touch; `Vars` is `mux.Vars(r)`,
`Query` is `r.URL.Query()`, and `TLS` is true when `r.TLS` is not nil. -/
structure Request where
  Method : GoString
  Host : GoString
  URL : URL
  Header : Header
  Vars : List (GoString × GoString)
  Query : List (GoString × GoString)
  TLS : Bool := false
deriving DecidableEq, Repr

/-- Lookup in `mux.Vars(r)` or `url.Values.Get`: the value of the first entry
under the key, the empty string when there is none. -/
def valuesGet (m : List (GoString × GoString)) (key : GoString) : GoString :=
  match m.find? (fun kv => kv.1 == key) with
  | some kv => kv.2
  | none => []

/-- One call of the upstream proxy on the writer it was given. -/
inductive ProxyCall where
  /-- Call `w.Header().Set(key, value)`. -/
  | headerSet (key value : GoString)
  /-- Call `w.WriteHeader(code)`. -/
  | writeHeader (code : Int)
  /-- Call `w.Write(b)`. -/
  | write (b : GoString)
deriving DecidableEq, Repr

/-- One observable action of a handler: a call on the response writer `w` or a
call into a collaborator. The log lists them in program order. -/
inductive Effect where
  /-- Call `w.Header().Set(key, value)`. -/
  | headerSet (key value : GoString)
  /-- Call `w.WriteHeader(code)`. -/
  | writeHeader (code : Int)
  /-- Call `w.Write(b)`. -/
  | write (b : GoString)
  /-- Call `json.NewEncoder(w).Encode(v)`. -/
  | encode (v : OIDCMismatchErrorResponse)
  /-- Call `http.Error(w, msg, code)`. -/
  | httpError (msg : GoString) (code : Int)
  /-- Call `http.Redirect(w, r, url, code)`. -/
  | httpRedirect (url : GoString) (code : Int)
  /-- Call `auth.SetTokenCookie(w, r, cluster, token, baseURL)`. -/
  | setTokenCookie (cluster token baseURL : GoString)
  /-- Call `oauthConfig.Config.Exchange(ctx, code[, code_verifier])`. -/
  | exchange (code : GoString) (codeVerifier : Option GoString)
  /-- Call `config.Cache.Set(ctx, key, value)`. -/
  | cacheSet (key value : GoString)
  /-- Call `oauthConfig.Verifier.Verify(ctx, rawToken)`. -/
  | verify (rawToken : GoString)
  /-- Call `idToken.Claims(&resp.IDTokenClaims)`. -/
  | claims
  /-- Call `auth.RefreshAndCacheNewToken(ctx, cfg, cache, tokenType, token, issuer)`. -/
  | refreshAndCacheNewToken (tokenType token idpIssuerURL : GoString)
  /-- Call `next.ServeHTTP(w, r)`. -/
  | next
  /-- Call `plugins.HandlePluginReload(c.Cache, w)`. -/
  | handlePluginReload
  /-- Call `kContext.ProxyRequest(wrappedWriter, r)` with the rewritten request. -/
  | proxyRequest (r : Request)
  /-- A call of the upstream proxy on `wrappedWriter`, passed on to `w`. -/
  | upstream (call : ProxyCall)
deriving DecidableEq, Repr

/-- Status constant `http.StatusOK`. -/
def StatusOK : Int := 200

/-- Status constant `http.StatusFound`. -/
def StatusFound : Int := 302

/-- Status constant `http.StatusSeeOther`. -/
def StatusSeeOther : Int := 303

/-- Status constant `http.StatusBadRequest`. -/
def StatusBadRequest : Int := 400

/-- Status constant `http.StatusNotFound`. -/
def StatusNotFound : Int := 404

/-- Status constant `http.StatusInternalServerError`. -/
def StatusInternalServerError : Int := 500

/-- Method `WriteOIDCMismatchResponse`: the calls it makes on `w`, in order. The
returned `error` is the one of `Encode`, which belongs to the writer. -/
def OIDCMismatchDetector.WriteOIDCMismatchResponse (_o : OIDCMismatchDetector)
    (originalStatusCode : Int) : List Effect :=
  let errorResponse : OIDCMismatchErrorResponse :=
    { Kind := "Status".toList
      APIVersion := "v1".toList
      Status := "Failure".toList
      Message := "Kubernetes API server may not be configured for OIDC authentication".toList
      Reason := "OIDCConfigMismatch".toList
      Details :=
        { ErrorType := "oidc-mismatch".toList
          SuggestedAction := ("Verify that the Kubernetes API server is configured with " ++
            "the same OIDC provider and settings as Headlamp.").toList
          OriginalStatus := originalStatusCode }
      Code := originalStatusCode }
  [Effect.headerSet "Content-Type".toList "application/json".toList,
   Effect.writeHeader originalStatusCode,
   Effect.encode errorResponse]

/-! ## OIDC callback: `createHeadlampHandler`, route `/oidc-callback` -/

/-- Fields of `HeadlampConfig` the embedded handlers read. -/
structure HeadlampConfig where
  OidcUsePKCE : Bool
  OidcUseAccessToken : Bool
  DevMode : Bool
  BaseURL : GoString
  OidcIdpIssuerURL : GoString
  UseInCluster : Bool := false
  EnableDynamicClusters : Bool := false
  KubeConfigPath : GoString := []
  OidcCallbackURL : GoString := []
deriving DecidableEq, Repr

/-- Data of `oauth2.Config` built by the redirect step. -/
structure OAuth2Config where
  ClientID : GoString
  ClientSecret : GoString
  RedirectURL : GoString
  Scopes : List GoString
deriving DecidableEq, Repr

/-- Data of the `oidc.IDTokenVerifier` captured by the redirect step. -/
structure IDTokenVerifier where
  Issuer : GoString
  ClientID : GoString
deriving DecidableEq, Repr

/-- Struct `OauthConfig`, the flow state kept between redirect and callback
(the `Ctx` field carries no data of its own and is left out). -/
structure OauthConfig where
  Config : OAuth2Config
  Verifier : IDTokenVerifier
  CodeVerifier : GoString
  Cluster : GoString
deriving DecidableEq, Repr

/-- The map `oauthRequestMap` of `createHeadlampHandler`, as an association list
with at most one entry per key. -/
abbrev OauthMap := List (GoString × OauthConfig)

/-- Map read `oauthRequestMap[state]`. -/
def OauthMap.get (m : OauthMap) (state : GoString) : Option OauthConfig :=
  (m.find? (fun kv => kv.1 == state)).map (fun kv => kv.2)

/-- Map removal `delete(oauthRequestMap, state)`. -/
def OauthMap.delete (m : OauthMap) (state : GoString) : OauthMap :=
  m.filter (fun kv => !(kv.1 == state))

/-- Map write `oauthRequestMap[state] = entry`. -/
def OauthMap.put (m : OauthMap) (state : GoString) (entry : OauthConfig) : OauthMap :=
  (state, entry) :: m.filter (fun kv => !(kv.1 == state))

/-- Token `oauth2.Token`: `Extra` holds the string-valued fields of the token
response, so that `t.Extra(k).(string)` succeeds exactly on its keys. -/
structure OAuth2Token where
  Extra : List (GoString × GoString)
  RefreshToken : GoString
deriving DecidableEq, Repr

/-- Checked type assertion `t.Extra(key).(string)`: the string, or none when
the field is missing or not a string. -/
def OAuth2Token.extraString (t : OAuth2Token) (key : GoString) : Option GoString :=
  (t.Extra.find? (fun kv => kv.1 == key)).map (fun kv => kv.2)

/-- Verified token `oidc.IDToken`: `claimsErr` is the error of `Claims(&v)`,
none for nil. -/
structure IDToken where
  claimsErr : Option GoString
deriving DecidableEq, Repr

/-- Results of the collaborator calls of the callback. An error is carried as
its message; `CacheSet` returns none for a nil error. -/
structure CallbackEnv where
  Exchange : OAuth2Config → GoString → Option GoString → Except GoString OAuth2Token
  CacheSet : GoString → GoString → Option GoString
  Verify : IDTokenVerifier → GoString → Except GoString IDToken

/-- Cutset trim `strings.Trim(s, "/")`. -/
def trimSlash (s : GoString) : GoString :=
  ((s.dropWhile (fun c => c == '/')).reverse.dropWhile (fun c => c == '/')).reverse

/-- Formatting `fmt.Sprintf("%1s", s)`: a string shorter than one rune is padded
to width one with a blank. -/
def sprintfWidth1 (s : GoString) : GoString :=
  if s.length < 1 then " ".toList else s

/-- Post-login redirect target of the callback (lines 849-864). -/
def callbackRedirectURL (config : HeadlampConfig) (cluster : GoString) : GoString :=
  let redirectURL := if config.DevMode then "http://localhost:3000/".toList else "/".toList
  let baseURL := trimSlash config.BaseURL
  let redirectURL := if baseURL != [] then redirectURL ++ baseURL ++ "/".toList else redirectURL
  redirectURL ++ "auth?cluster=".toList ++ sprintfWidth1 cluster

/-- The callback after the flow state has been taken out of the map
(lines 781-866): token exchange, token selection, refresh-token caching,
verification, claims, cookie, redirect. -/
def oidcCallbackExchange (config : HeadlampConfig) (env : CallbackEnv)
    (oauthConfig : OauthConfig) (r : Request) : List Effect :=
  let code := valuesGet r.Query "code".toList
  let codeVerifier : Option GoString :=
    if config.OidcUsePKCE && oauthConfig.CodeVerifier != [] then some oauthConfig.CodeVerifier
    else none
  let e1 := Effect.exchange code codeVerifier
  match env.Exchange oauthConfig.Config code codeVerifier with
  | Except.error err =>
    [e1, Effect.httpError ("Failed to exchange token: ".toList ++ err) StatusInternalServerError]
  | Except.ok oauth2Token =>
    let tokenType := if config.OidcUseAccessToken then "access_token".toList else "id_token".toList
    match oauth2Token.extraString tokenType with
    | none =>
      [e1, Effect.httpError ("No ".toList ++ tokenType ++ " field in oauth2 token.".toList)
        StatusInternalServerError]
    | some rawUserToken =>
      let key := "oidc-token-".toList ++ rawUserToken
      let e2 := Effect.cacheSet key oauth2Token.RefreshToken
      match env.CacheSet key oauth2Token.RefreshToken with
      | some err =>
        [e1, e2, Effect.httpError ("Failed to cache refresh token: ".toList ++ err)
          StatusInternalServerError]
      | none =>
        let e3 := Effect.verify rawUserToken
        match env.Verify oauthConfig.Verifier rawUserToken with
        | Except.error err =>
          [e1, e2, e3, Effect.httpError ("Failed to verify ID Token: ".toList ++ err)
            StatusInternalServerError]
        | Except.ok idToken =>
          match idToken.claimsErr with
          | some err =>
            [e1, e2, e3, Effect.claims, Effect.httpError err StatusInternalServerError]
          | none =>
            [e1, e2, e3, Effect.claims,
             Effect.setTokenCookie oauthConfig.Cluster rawUserToken config.BaseURL,
             Effect.httpRedirect (callbackRedirectURL config oauthConfig.Cluster) StatusSeeOther]

/-- The `/oidc-callback` handler (lines 756-867): the state map after the
request and the effects of the request. -/
def oidcCallback (config : HeadlampConfig) (env : CallbackEnv)
    (oauthRequestMap : OauthMap) (r : Request) : OauthMap × List Effect :=
  let state := valuesGet r.Query "state".toList
  if state = [] then
    (oauthRequestMap,
      [Effect.httpError "invalid request state is empty".toList StatusBadRequest])
  else
    match oauthRequestMap.get state with
    | some oauthConfig =>
      (oauthRequestMap.delete state, oidcCallbackExchange config env oauthConfig r)
    | none =>
      (oauthRequestMap, [Effect.httpError "invalid request".toList StatusBadRequest])

/-- The write of the `/oidc` redirect handler to the state map (lines 744-747),
reached when the cluster, its OIDC configuration and its provider were found. -/
def oidcRedirectStore (oauthRequestMap : OauthMap) (state : GoString)
    (entry : OauthConfig) : OauthMap :=
  oauthRequestMap.put state entry

/-- One request to the OIDC routes, as far as the state map is concerned. -/
inductive FlowRequest where
  /-- A `/oidc` request that reached the store with this state and entry. -/
  | redirect (state : GoString) (entry : OauthConfig)
  /-- A `/oidc-callback` request, with the results of its collaborator calls. -/
  | callback (env : CallbackEnv) (r : Request)

/-- State map after one request. -/
def FlowRequest.apply (config : HeadlampConfig) (m : OauthMap) : FlowRequest → OauthMap
  | FlowRequest.redirect state entry => oidcRedirectStore m state entry
  | FlowRequest.callback env r => (oidcCallback config env m r).1

/-- State map after a sequence of requests, served one after the other. -/
def runFlow (config : HeadlampConfig) (m : OauthMap) (reqs : List FlowRequest) : OauthMap :=
  reqs.foldl (FlowRequest.apply config) m

/-- The request is a redirect that stores under the state `s`. -/
def FlowRequest.stores (s : GoString) : FlowRequest → Bool
  | FlowRequest.redirect state _ => state == s
  | FlowRequest.callback _ _ => false

/-- The effect is a token exchange. -/
def Effect.isExchange : Effect → Bool
  | Effect.exchange _ _ => true
  | _ => false

/-- The effect sets an auth cookie. -/
def Effect.isSetTokenCookie : Effect → Bool
  | Effect.setTokenCookie _ _ _ => true
  | _ => false

/-- The effect is a cache write under a key that starts with `oidc-token-`. -/
def Effect.isTokenCacheSet : Effect → Bool
  | Effect.cacheSet key _ => HasPrefix key "oidc-token-".toList
  | _ => false

/-- Status and message of the error response, when the effect is `http.Error`. -/
def Effect.errorStatus : Effect → Option Int
  | Effect.httpError _ code => some code
  | _ => none

/-! ## Token refresh: `refreshAndSetToken` and `OIDCTokenRefreshMiddleware` -/

/-- Struct `kubeconfig.OidcConfig`, the OIDC settings of a cluster. -/
structure OidcConfig where
  ClientID : GoString
  ClientSecret : GoString
  IdpIssuerURL : GoString
  Scopes : List GoString
deriving DecidableEq, Repr

/-- A `runtime.Object` held in an `Extensions` map of a kubeconfig: the raw
document of a `runtime.Unknown` read from a file, or the `kubeconfig.CustomObject`
that `customNameToExtenstions` stores. -/
inductive RuntimeObject where
  | unknown (raw : GoString)
  | customObject (CustomName : GoString)
deriving DecidableEq, Repr

/-- Fields of `api.Context` (client-go) the handlers read; `Extensions` is a map. -/
structure ApiContext where
  Cluster : GoString
  Namespace : GoString
  Extensions : List (GoString × RuntimeObject)
deriving DecidableEq, Repr

/-- Origin of a context, the values of `kubeconfig.Context.Source`. -/
inductive ContextSource where
  | KubeConfig
  | DynamicCluster
  | InCluster
deriving DecidableEq, Repr

/-- Fields of `kubeconfig.Context` the handlers read; `Server` is `Cluster.Server`. -/
structure Context where
  Name : GoString
  Server : GoString
  Error : GoString
  OidcConf : Option OidcConfig
  Internal : Bool
  KubeContext : Option ApiContext := none
  KubeConfigPath : GoString := []
  ClusterID : GoString := []
  Source : ContextSource := ContextSource.KubeConfig
deriving DecidableEq, Repr

/-- A handler run: its effects in program order, and whether it ended in a Go
run-time panic (after which nothing more of the handler is executed). -/
structure Run where
  log : List Effect
  panicked : Bool
deriving DecidableEq, Repr

/-- Results of the collaborator calls of the refresh middleware.
`RefreshAndCacheNewToken` returns the Go pair `(*oauth2.Token, error)`, each
component none for nil. -/
structure MiddlewareEnv where
  URLString : Request → GoString
  ParseClusterAndToken : Request → GoString × GoString
  GetContext : GoString → Except GoString Context
  OidcConfig : Context → Except GoString Headlamp.OidcConfig
  IsTokenAboutToExpire : GoString → Bool
  RefreshAndCacheNewToken :
    Headlamp.OidcConfig → GoString → GoString → GoString → Option OAuth2Token × Option GoString

/-- Method `refreshAndSetToken` (lines 908-949). The unchecked type assertion
`newToken.Extra(...).(string)` panics when the field is not a string. -/
def refreshAndSetToken (c : HeadlampConfig) (env : MiddlewareEnv)
    (oidcAuthConfig : OidcConfig) (token cluster : GoString) : Run :=
  let tokenType := if c.OidcUseAccessToken then "access_token".toList else "id_token".toList
  let idpIssuerURL :=
    if c.OidcIdpIssuerURL = [] then oidcAuthConfig.IdpIssuerURL else c.OidcIdpIssuerURL
  let call := Effect.refreshAndCacheNewToken tokenType token idpIssuerURL
  match env.RefreshAndCacheNewToken oidcAuthConfig tokenType token idpIssuerURL with
  | (_, some _) => { log := [call], panicked := false }
  | (none, none) => { log := [call], panicked := false }
  | (some newToken, none) =>
    let field := if c.OidcUseAccessToken then "access_token".toList else "id_token".toList
    match newToken.extraString field with
    | none => { log := [call], panicked := true }
    | some newTokenString =>
      { log := [call, Effect.setTokenCookie cluster newTokenString c.BaseURL],
        panicked := false }

/-- The handler returned by `OIDCTokenRefreshMiddleware(next)` (lines 1037-1095),
with the helpers `shouldSkipOIDCRefresh`, `shouldBypassOIDCRefresh`,
`handleGetContextError` and `handleOIDCAuthConfigError` in line. Telemetry and
logging calls are left out. -/
def OIDCTokenRefreshMiddleware (c : HeadlampConfig) (env : MiddlewareEnv)
    (r : Request) : Run :=
  if !HasPrefix (env.URLString r) "/clusters/".toList then
    { log := [Effect.next], panicked := false }
  else
    let ct := env.ParseClusterAndToken r
    let cluster := ct.1
    let token := ct.2
    if cluster = [] ∨ token = [] then
      { log := [Effect.next], panicked := false }
    else
      match env.GetContext cluster with
      | Except.error _ => { log := [Effect.next], panicked := false }
      | Except.ok kContext =>
        match env.OidcConfig kContext with
        | Except.error _ => { log := [Effect.next], panicked := false }
        | Except.ok oidcAuthConfig =>
          if !env.IsTokenAboutToExpire token then
            { log := [Effect.next], panicked := false }
          else
            let run := refreshAndSetToken c env oidcAuthConfig token cluster
            if run.panicked then run
            else { log := run.log ++ [Effect.next], panicked := false }

/-- Number of calls of `next.ServeHTTP` in a log. -/
def countNext (log : List Effect) : Nat :=
  log.count Effect.next

/-! ## `net/http` header map -/

/-- Token bytes of a header field name (`validHeaderFieldByte`): letters,
digits and the marks of RFC 7230. -/
def validHeaderFieldByte (c : Char) : Bool :=
  let n := c.toNat
  (48 ≤ n && n ≤ 57) || (65 ≤ n && n ≤ 90) || (97 ≤ n && n ≤ 122) ||
  n == 33 || n == 35 || n == 36 || n == 37 || n == 38 || n == 39 || n == 42 ||
  n == 43 || n == 45 || n == 46 || n == 94 || n == 95 || n == 96 || n == 124 || n == 126

/-- The casing loop of `canonicalMIMEHeaderKey`: upper case at the start and
after a hyphen, lower case elsewhere. -/
def canonicalLoop (upper : Bool) : GoString → GoString
  | [] => []
  | c :: cs =>
    let n := c.toNat
    let c2 :=
      if upper && (97 ≤ n && n ≤ 122) then Char.ofNat (n - 32)
      else if !upper && (65 ≤ n && n ≤ 90) then Char.ofNat (n + 32)
      else c
    c2 :: canonicalLoop (c2 == '-') cs

/-- Key normalisation `textproto.CanonicalMIMEHeaderKey`: a key with a blank or
with a byte that is not a token byte is returned unchanged. -/
def CanonicalMIMEHeaderKey (key : GoString) : GoString :=
  if key.all validHeaderFieldByte then canonicalLoop true key else key

/-- Method `Header.Get`: the first value under the canonical key, or "". -/
def Header.Get (h : Header) (key : GoString) : GoString :=
  match h.find? (fun kv => kv.1 == CanonicalMIMEHeaderKey key) with
  | some kv => kv.2.headD []
  | none => []

/-- Method `Header.Del`. -/
def Header.Del (h : Header) (key : GoString) : Header :=
  h.filter (fun kv => !(kv.1 == CanonicalMIMEHeaderKey key))

/-- Method `Header.Set`: the key now holds the single value. -/
def Header.Set (h : Header) (key value : GoString) : Header :=
  (CanonicalMIMEHeaderKey key, [value]) ::
    h.filter (fun kv => !(kv.1 == CanonicalMIMEHeaderKey key))

/-! ## Cluster request router: `clusterRequestHandler` -/

/-- Separator split `strings.Split(s, ",")`. -/
def splitComma : GoString → List GoString
  | [] => [[]]
  | c :: cs =>
    if c == ',' then [] :: splitComma cs
    else
      match splitComma cs with
      | [] => [[c]]
      | p :: ps => (c :: p) :: ps

/-- Joining `strings.Join(elems, ", ")`. -/
def joinCommaSpace : List GoString → GoString
  | [] => []
  | [p] => p
  | p :: ps => p ++ ", ".toList ++ joinCommaSpace ps

/-- Prefix removal `strings.TrimPrefix`. -/
def TrimPrefix (s pre : GoString) : GoString :=
  if HasPrefix s pre then s.drop pre.length else s

/-- The constant `bearerTokenPrefix` of `processWebSocketProtocolHeader`. -/
def bearerTokenPrefix : GoString := "base64url.bearer.authorization.k8s.io.".toList

/-- Results of the library and collaborator calls of the router. The decoders
are `base64.URLEncoding.DecodeString` and `base64.RawStdEncoding.DecodeString`
followed by `string(...)`, none on a decoding error; `ProxyRequest` returns the
calls the upstream proxy makes on the writer it is given, and its error. -/
structure RouterEnv where
  getContextKeyForRequest : Request → Except GoString GoString
  GetContext : GoString → Except GoString Context
  urlParse : GoString → Except GoString URL
  EqualFold : GoString → GoString → Bool
  GetTokenFromCookie : Request → GoString → Except GoString GoString
  decodeURLEncoding : GoString → Option GoString
  decodeRawStdEncoding : GoString → Option GoString
  ProxyRequest : Context → Request → List ProxyCall × Option GoString

/-- Function `processTokenProtocol` (lines 1600-1624). -/
def processTokenProtocol (env : RouterEnv) (r : Request)
    (protocol tokenPrefix : GoString) : Request :=
  if r.Header.Get "Authorization".toList != [] then r
  else
    let token := TrimPrefix protocol tokenPrefix
    if token = [] then r
    else
      let token :=
        match env.decodeURLEncoding token with
        | some decoded => decoded
        | none =>
          match env.decodeRawStdEncoding token with
          | some decoded => decoded
          | none => token
      { r with Header := r.Header.Set "Authorization".toList ("Bearer ".toList ++ token) }

/-- The loop of `processWebSocketProtocolHeader` over the split protocols: the
request after the token protocols were processed, and the protocols kept. -/
def processProtocols (env : RouterEnv) :
    Request → List GoString → List GoString → Request × List GoString
  | r, validProtocols, [] => (r, validProtocols)
  | r, validProtocols, protocol :: rest =>
    let protocol := TrimSpace protocol
    if HasPrefix protocol bearerTokenPrefix then
      processProtocols env (processTokenProtocol env r protocol bearerTokenPrefix)
        validProtocols rest
    else
      processProtocols env r (validProtocols ++ [protocol]) rest

/-- Function `processWebSocketProtocolHeader` (lines 1564-1596). -/
def processWebSocketProtocolHeader (env : RouterEnv) (r : Request) : Request :=
  let secWebSocketProtocol := r.Header.Get "Sec-Websocket-Protocol".toList
  if secWebSocketProtocol = [] then r
  else
    let protocols := splitComma secWebSocketProtocol
    let res := processProtocols env r [] protocols
    let r := res.1
    let validProtocols := res.2
    if validProtocols.length > 0 then
      { r with Header :=
          r.Header.Set "Sec-WebSocket-Protocol".toList (joinCommaSpace validProtocols) }
    else
      { r with Header := r.Header.Del "Sec-WebSocket-Protocol".toList }

/-- Struct `captureResponseWriter`, without the embedded writer. -/
structure captureResponseWriter where
  statusCode : Int
  hadBody : Bool
deriving DecidableEq, Repr

/-- What one call on the wrapped writer does to the wrapper: `WriteHeader`
records the code, `Write` records that a body was written, and every call is
passed on to the embedded writer. -/
def captureResponseWriter.record (w : captureResponseWriter) :
    ProxyCall → captureResponseWriter
  | ProxyCall.writeHeader code => { w with statusCode := code }
  | ProxyCall.write _ => { w with hadBody := true }
  | ProxyCall.headerSet _ _ => w

/-- The request rewrite of the router (lines 1484-1503): host, forwarded host,
user agent, URL, cookie credential, WebSocket protocols. -/
def rewriteRequest (env : RouterEnv) (clusterURL : URL) (r : Request) : Request :=
  let r := { r with Host := clusterURL.Host }
  let r := { r with Header := r.Header.Set "X-Forwarded-Host".toList r.Host }
  let r :=
    if env.EqualFold (r.Header.Get "Upgrade".toList) "websocket".toList then
      { r with Header := r.Header.Del "User-Agent".toList }
    else r
  let r := { r with URL := { r.URL with Host := clusterURL.Host } }
  let r := { r with URL := { r.URL with Path := valuesGet r.Vars "api".toList } }
  let r := { r with URL := { r.URL with Scheme := clusterURL.Scheme } }
  let r :=
    match env.GetTokenFromCookie r (valuesGet r.Vars "clusterName".toList) with
    | Except.ok token =>
      if token != [] then
        { r with Header := r.Header.Set "Authorization".toList ("Bearer ".toList ++ token) }
      else r
    | Except.error _ => r
  processWebSocketProtocolHeader env r

/-- Outcome of one request to the router: the effects on the client's writer
and the collaborators, the request handed to the upstream (when one was), and
the status the wrapper had recorded when the forward returned without error. -/
structure RouterResult where
  log : List Effect
  outbound : Option Request
  recorded : Option Int
deriving DecidableEq, Repr

/-- Method `handleError` (lines 1409-1416): `http.Error(w, err.Error(), status)`. -/
def handleError (err : GoString) (status : Int) : List Effect :=
  [Effect.httpError err status]

/-- The handler returned by `clusterRequestHandler` (lines 1437-1531).
Telemetry and logging calls are left out. -/
def clusterRequestHandler (env : RouterEnv) (r : Request) : RouterResult :=
  match env.getContextKeyForRequest r with
  | Except.error err =>
    { log := handleError err StatusBadRequest, outbound := none, recorded := none }
  | Except.ok contextKey =>
    match env.GetContext contextKey with
    | Except.error err =>
      { log := handleError err StatusNotFound, outbound := none, recorded := none }
    | Except.ok kContext =>
      if kContext.Error != [] then
        { log := handleError kContext.Error StatusBadRequest, outbound := none,
          recorded := none }
      else
        match env.urlParse kContext.Server with
        | Except.error err =>
          { log := handleError err StatusNotFound, outbound := none, recorded := none }
        | Except.ok clusterURL =>
          let r := rewriteRequest env clusterURL r
          let wrappedWriter : captureResponseWriter :=
            { statusCode := StatusOK, hadBody := false }
          let res := env.ProxyRequest kContext r
          let calls := res.1
          let wrappedWriter := calls.foldl captureResponseWriter.record wrappedWriter
          let log :=
            [Effect.handlePluginReload, Effect.proxyRequest r] ++ calls.map Effect.upstream
          match res.2 with
          | some err =>
            { log := log ++ handleError err StatusInternalServerError,
              outbound := some r, recorded := none }
          | none =>
            if kContext.OidcConf.isSome &&
                (wrappedWriter.statusCode == StatusUnauthorized ||
                  wrappedWriter.statusCode == StatusForbidden) then
              { log := log ++
                  [Effect.headerSet "X-Headlamp-Error".toList "OIDC_CONFIG_MISMATCH".toList],
                outbound := some r, recorded := some wrappedWriter.statusCode }
            else
              { log := log, outbound := some r, recorded := some wrappedWriter.statusCode }

/-- The diagnostic header call of the router. -/
def mismatchHeader : Effect :=
  Effect.headerSet "X-Headlamp-Error".toList "OIDC_CONFIG_MISMATCH".toList

/-- A cluster context with an OIDC configuration and no setup error. -/
def sampleOidcContext : Context :=
  { Name := "prod".toList, Server := "https://k8s.example:6443".toList, Error := [],
    OidcConf := some { ClientID := "headlamp".toList, ClientSecret := [],
                       IdpIssuerURL := "https://idp.example".toList, Scopes := [] },
    Internal := false }

/-- The simple case folding of `strings.EqualFold`, as far as it reaches ASCII:
the ASCII letters fold by case, the Kelvin sign U+212A folds to `k` and the long
s U+017F folds to `s`; no other rune folds to an ASCII rune. -/
def foldRune (c : Char) : Char :=
  if c.toNat = 0x212A then 'k'
  else if c.toNat = 0x017F then 's'
  else asciiToLower c

/-- A router environment: the context `sampleOidcContext` is found, the request
carries no auth cookie, and the upstream answers with the given status. Its
`EqualFold` compares the strings rune by rune under `foldRune`, which is
`strings.EqualFold` whenever one of the strings is ASCII, as `websocket` is. -/
def sampleRouterEnv (status : Int) : RouterEnv :=
  { getContextKeyForRequest := fun _ => Except.ok "prod".toList
    GetContext := fun _ => Except.ok sampleOidcContext
    urlParse := fun _ =>
      Except.ok { Scheme := "https".toList, Host := "k8s.example:6443".toList, Path := [] }
    EqualFold := fun a b => a.map foldRune == b.map foldRune
    GetTokenFromCookie := fun _ _ => Except.error "http: named cookie not present".toList
    decodeURLEncoding := fun _ => none
    decodeRawStdEncoding := fun _ => none
    ProxyRequest := fun _ _ =>
      ([ProxyCall.writeHeader status, ProxyCall.write "Unauthorized".toList], none) }

/-- A request `GET /clusters/prod/api/v1/pods` without any header. -/
def sampleRequest : Request :=
  { Method := "GET".toList, Host := "headlamp.example".toList,
    URL := { Scheme := [], Host := [], Path := "/clusters/prod/api/v1/pods".toList },
    Header := [],
    Vars := [("clusterName".toList, "prod".toList), ("api".toList, "api/v1/pods".toList)],
    Query := [] }

/-- Keys the cache has taken: the `Cache.Set` calls of the log that returned a
nil error. -/
def cacheWrites (env : CallbackEnv) : List Effect → List GoString
  | [] => []
  | Effect.cacheSet key value :: rest =>
    if (env.CacheSet key value).isNone then key :: cacheWrites env rest
    else cacheWrites env rest
  | _ :: rest => cacheWrites env rest

/-- The effect is a call of the identity-token verifier. -/
def Effect.isVerify : Effect → Bool
  | Effect.verify _ => true
  | _ => false

/-- Some step of the callback fails, the steps taken in program order: the
token exchange, the extraction of the `id_token` or `access_token` field, the
caching of the refresh token, the verification, the claims extraction. -/
def callbackStepFails (config : HeadlampConfig) (env : CallbackEnv)
    (oauthConfig : OauthConfig) (r : Request) : Bool :=
  let code := valuesGet r.Query "code".toList
  let codeVerifier : Option GoString :=
    if config.OidcUsePKCE && oauthConfig.CodeVerifier != [] then some oauthConfig.CodeVerifier
    else none
  match env.Exchange oauthConfig.Config code codeVerifier with
  | Except.error _ => true
  | Except.ok oauth2Token =>
    match oauth2Token.extraString
        (if config.OidcUseAccessToken then "access_token".toList else "id_token".toList) with
    | none => true
    | some rawUserToken =>
      match env.CacheSet ("oidc-token-".toList ++ rawUserToken) oauth2Token.RefreshToken with
      | some _ => true
      | none =>
        match env.Verify oauthConfig.Verifier rawUserToken with
        | Except.error _ => true
        | Except.ok idToken => idToken.claimsErr.isSome

/-- A flow-state entry for the cluster `prod`. -/
def sampleOauthConfig : OauthConfig :=
  { Config := { ClientID := "headlamp".toList, ClientSecret := [],
                RedirectURL := "https://headlamp.example/oidc-callback".toList,
                Scopes := ["openid".toList] },
    Verifier := { Issuer := "https://idp.example".toList, ClientID := "headlamp".toList },
    CodeVerifier := [],
    Cluster := "prod".toList }

/-- A server configuration: no PKCE, identity token, production mode. -/
def sampleConfig : HeadlampConfig :=
  { OidcUsePKCE := false, OidcUseAccessToken := false, DevMode := false,
    BaseURL := [], OidcIdpIssuerURL := [] }

/-- A callback environment in which the exchange yields the identity token
`tok` and the refresh token `ref`, the cache takes the entry, and the
verifier answers as given. -/
def sampleCallbackEnv (verify : Except GoString IDToken) : CallbackEnv :=
  { Exchange := fun _ _ _ =>
      Except.ok { Extra := [("id_token".toList, "tok".toList)], RefreshToken := "ref".toList }
    CacheSet := fun _ _ => none
    Verify := fun _ _ => verify }

/-- A callback request `GET /oidc-callback?state=...&code=abc`. -/
def sampleCallback (state : GoString) : Request :=
  { Method := "GET".toList, Host := "headlamp.example".toList,
    URL := { Scheme := [], Host := [], Path := "/oidc-callback".toList },
    Header := [], Vars := [],
    Query := [("state".toList, state), ("code".toList, "abc".toList)] }

/-- A middleware environment for a cluster request with a token that is about
to expire, in which the refresh answers as given. -/
def sampleMiddlewareEnv (refresh : Option OAuth2Token × Option GoString) : MiddlewareEnv :=
  { URLString := fun r => r.URL.Path
    ParseClusterAndToken := fun _ => ("prod".toList, "old".toList)
    GetContext := fun _ => Except.ok sampleOidcContext
    OidcConfig := fun k =>
      match k.OidcConf with
      | some conf => Except.ok conf
      | none => Except.error "authProvider is nil".toList
    IsTokenAboutToExpire := fun _ => true
    RefreshAndCacheNewToken := fun _ _ _ _ => refresh }

/-! ## The refresh decision of the middleware -/

/-- The effect is a call of `auth.RefreshAndCacheNewToken`. -/
def Effect.isRefresh : Effect → Bool
  | Effect.refreshAndCacheNewToken _ _ _ => true
  | _ => false

/-- The effect is a call on the cache made by the handlers themselves. -/
def Effect.isCacheSet : Effect → Bool
  | Effect.cacheSet _ _ => true
  | _ => false

/-- The five conditions under which the middleware goes on to the refresh: a
cluster URL, a cluster and a token, a context in the store, an OIDC
configuration of the context, a token about to expire. -/
def refreshConditions (env : MiddlewareEnv) (r : Request) : Prop :=
  HasPrefix (env.URLString r) "/clusters/".toList = true ∧
  (env.ParseClusterAndToken r).1 ≠ [] ∧ (env.ParseClusterAndToken r).2 ≠ [] ∧
  ∃ kContext, env.GetContext (env.ParseClusterAndToken r).1 = Except.ok kContext ∧
    ∃ oidcAuthConfig, env.OidcConfig kContext = Except.ok oidcAuthConfig ∧
      env.IsTokenAboutToExpire (env.ParseClusterAndToken r).2 = true

/-! ## Backend token check: `checkHeadlampBackendToken` -/

/-- Method `checkHeadlampBackendToken` (lines 1208-1222): the calls on `w` and
the returned error, none for nil. `backendTokenEnv` is
`os.Getenv("HEADLAMP_BACKEND_TOKEN")`. -/
def checkHeadlampBackendToken (c : HeadlampConfig) (backendTokenEnv : GoString)
    (r : Request) : List Effect × Option GoString :=
  if c.UseInCluster then ([], none)
  else
    let backendToken := r.Header.Get "X-HEADLAMP_BACKEND-TOKEN".toList
    if backendToken != backendTokenEnv || backendTokenEnv == [] then
      ([Effect.httpError "access denied".toList StatusForbidden],
        some "X-HEADLAMP_BACKEND-TOKEN does not match HEADLAMP_BACKEND_TOKEN".toList)
    else ([], none)

/-! ## Cluster management: types, store interface, effects -/

/-- Fields of `api.Cluster` (client-go) that `processManualConfig` fills. -/
structure ApiCluster where
  Server : GoString
  InsecureSkipTLSVerify : Bool
  CertificateAuthorityData : List Nat
deriving DecidableEq, Repr

/-- Fields of `api.Config` (client-go) the handlers touch; both are maps. -/
structure ApiConfig where
  Clusters : List (GoString × ApiCluster)
  Contexts : List (GoString × ApiContext)
deriving DecidableEq, Repr

/-- Struct `kubeconfig.CustomObject`, as far as it is read: the custom name. -/
structure CustomObject where
  CustomName : GoString
deriving DecidableEq, Repr

/-- Struct `ClusterReq`, the body of `POST /cluster`; a nil pointer is none. -/
structure ClusterReq where
  Name : Option GoString
  Server : Option GoString
  InsecureSkipTLSVerify : Bool
  CertificateAuthorityData : List Nat
  KubeConfig : Option GoString
deriving DecidableEq, Repr

/-- Struct `RenameClusterRequest`, the body of `PUT /cluster/{name}`. -/
structure RenameClusterRequest where
  NewClusterName : GoString
  Source : GoString
  Stateless : Bool
deriving DecidableEq, Repr

/-- The `Metadata` map that `getClusters` builds for a usable context. -/
structure ClusterMetadata where
  Source : GoString
  Namespace : GoString
  Extensions : List (GoString × RuntimeObject)
  OriginKubeconfig : GoString
  OriginalName : GoString
  ClusterID : GoString
deriving DecidableEq, Repr

/-- Struct `Cluster`, one entry of the cluster list of `GET /config`. -/
structure Cluster where
  Name : GoString
  Server : GoString := []
  AuthType : GoString := []
  Metadata : Option ClusterMetadata := none
  Error : GoString := []
deriving DecidableEq, Repr

/-- Interface `kubeconfig.ContextStore` as the handlers use it. The store is a
value of `σ`; a mutating call returns the store after the call and its error,
none for nil. -/
structure StoreOps (σ : Type) where
  GetContext : σ → GoString → Except GoString Context
  GetContexts : σ → Except GoString (List Context)
  AddContext : σ → Context → σ × Option GoString
  RemoveContext : σ → GoString → σ × Option GoString

/-- One observable action of a cluster-management handler, in program order. -/
inductive AdminEffect where
  /-- A call on the response writer `w`. -/
  | w (e : Effect)
  /-- Call `json.NewEncoder(w).Encode(&clientConfig)` of `getConfig`. -/
  | encodeConfig (Clusters : List Cluster) (IsDynamicClusterEnabled : Bool)
  /-- Call `c.KubeConfigStore.AddContext(&context)`. -/
  | addContext (context : Context)
  /-- Call `c.KubeConfigStore.RemoveContext(name)`. -/
  | removeContext (name : GoString)
  /-- Call `cfg.MakeHeadlampKubeConfigsDir()`. -/
  | makeKubeConfigsDir
  /-- Call `kubeconfig.WriteToFile(config, dir)` of `writeKubeConfig`. -/
  | kubeconfigWriteToFile (config : ApiConfig) (dir : GoString)
  /-- Call `clientcmd.WriteToFile(config, path)` of `customNameToExtenstions`. -/
  | clientcmdWriteToFile (config : ApiConfig) (path : GoString)
  /-- Call `kubeconfig.RemoveContextFromFile(name, path)`. -/
  | removeContextFromFile (name path : GoString)
deriving DecidableEq, Repr

/-- The action writes to a kubeconfig file on disk. -/
def AdminEffect.isFileWrite : AdminEffect → Bool
  | AdminEffect.kubeconfigWriteToFile _ _ => true
  | AdminEffect.clientcmdWriteToFile _ _ => true
  | AdminEffect.removeContextFromFile _ _ => true
  | _ => false

/-- The action is a mutating call on the context store. -/
def AdminEffect.isStoreWrite : AdminEffect → Bool
  | AdminEffect.addContext _ => true
  | AdminEffect.removeContext _ => true
  | _ => false

/-- Results of the library and collaborator calls of the cluster-management
handlers. An error is carried as its message, none for nil. The JSON decoders
read the request body; the two `Load...` functions are those of
`pkg/kubeconfig`, a `ContextLoadError` being carried as the message of its
`Error` field. -/
structure AdminEnv where
  backendTokenEnv : GoString
  MarshalCustomObject : RuntimeObject → GoString → CustomObject × Option GoString
  AuthType : Context → GoString
  SourceStr : Context → GoString
  decodeClusterReq : Request → Except GoString ClusterReq
  decodeRenameReq : Request → Except GoString RenameClusterRequest
  LoadContextsFromBase64String : GoString → List Context × List GoString × Option GoString
  LoadContextsFromAPIConfig : ApiConfig → List Context × List GoString
  StdDecodeString : GoString → Except GoString (List Nat)
  clientcmdLoad : List Nat → Except GoString ApiConfig
  MakeHeadlampKubeConfigsDir : Except GoString GoString
  kubeconfigWriteToFile : ApiConfig → GoString → Option GoString
  RemoveContextFromFile : GoString → GoString → Option GoString
  defaultHeadlampKubeConfigFile : Except GoString GoString
  LoadFromFile : GoString → Except GoString ApiConfig
  clientcmdWriteToFile : ApiConfig → GoString → Option GoString

/-- A run of a cluster-management handler: the store after it, its actions,
and whether it ended in a Go run-time panic. -/
structure AdminRun (σ : Type) where
  store : σ
  log : List AdminEffect
  panicked : Bool

/-- Map read `m[key]` of a Go map kept as an association list. -/
def mapGet {α : Type} (m : List (GoString × α)) (key : GoString) : Option α :=
  (m.find? (fun kv => kv.1 == key)).map (fun kv => kv.2)

/-- Map write `m[key] = v` of a Go map kept as an association list: the entry
under the key is replaced where it stands, a new key is added at the end. -/
def mapSet {α : Type} (m : List (GoString × α)) (key : GoString) (v : α) :
    List (GoString × α) :=
  if m.any (fun kv => kv.1 == key) then
    m.map (fun kv => if kv.1 == key then (kv.1, v) else kv)
  else m ++ [(key, v)]

/-! ## Cluster list: `getClusters`, `getConfig` -/

/-- The loop of `getClusters` (lines 1645-1688) over the contexts of the store,
`clusters` being the list built so far. -/
def getClustersLoop (env : AdminEnv) : List Context → List Cluster → List Cluster
  | [], clusters => clusters
  | context :: rest, clusters =>
    if context.Error != [] then
      getClustersLoop env rest (clusters ++ [{ Name := context.Name, Error := context.Error }])
    else if context.Internal then
      getClustersLoop env rest clusters
    else
      match context.KubeContext with
      | none => getClustersLoop env rest clusters
      | some kubeContext =>
        getClustersLoop env rest (clusters ++ [
          { Name := context.Name
            Server := context.Server
            AuthType := env.AuthType context
            Metadata := some
              { Source := env.SourceStr context
                Namespace := kubeContext.Namespace
                Extensions := kubeContext.Extensions
                OriginKubeconfig := context.KubeConfigPath
                OriginalName := context.Name
                ClusterID := context.ClusterID } }])

/-- Method `getClusters` (lines 1635-1691). -/
def getClusters {σ : Type} (K : StoreOps σ) (env : AdminEnv) (store : σ) : List Cluster :=
  match K.GetContexts store with
  | Except.error _ => []
  | Except.ok contexts => getClustersLoop env contexts []

/-- Method `getConfig` (lines 1780-1788), the handler of `GET /config`. -/
def getConfig {σ : Type} (K : StoreOps σ) (c : HeadlampConfig) (env : AdminEnv)
    (store : σ) : List AdminEffect :=
  [AdminEffect.w (Effect.headerSet "Content-Type".toList "application/json".toList),
   AdminEffect.encodeConfig (getClusters K env store) c.EnableDynamicClusters]

/-! ## Name uniqueness: `CheckUniqueName` -/

/-- The second loop of `CheckUniqueName` (lines 2323-2337): the custom names
are appended to `contextNames`. -/
def appendCustomNames (env : AdminEnv) (currentName : GoString) :
    List (GoString × ApiContext) → List GoString → List GoString
  | [], contextNames => contextNames
  | y :: rest, contextNames =>
    match mapGet y.2.Extensions "headlamp_info".toList with
    | some info =>
      let customObj := (env.MarshalCustomObject info currentName).1
      if customObj.CustomName != [] then
        appendCustomNames env currentName rest (contextNames ++ [customObj.CustomName])
      else appendCustomNames env currentName rest contextNames
    | none => appendCustomNames env currentName rest contextNames

/-- Function `CheckUniqueName` (lines 2313-2346). The contexts are visited in
the order of the list; the result does not depend on the order. -/
def CheckUniqueName (env : AdminEnv) (contexts : List (GoString × ApiContext))
    (currentName newName : GoString) : Bool :=
  let contextNames := contexts.map (fun kv => kv.1)
  let contextNames := appendCustomNames env currentName contexts contextNames
  contextNames.all (fun current => !(current == newName))

/-! ## Adding a cluster: `addCluster` -/

/-- Function `decodeClusterRequest` (lines 1856-1868): the JSON decoding of the
body, then the check that a kubeconfig or a name and a server are given. -/
def decodeClusterRequest (env : AdminEnv) (r : Request) : Except GoString ClusterReq :=
  match env.decodeClusterReq r with
  | Except.error err => Except.error ("decoding cluster info: ".toList ++ err)
  | Except.ok clusterReq =>
    if clusterReq.KubeConfig.isNone && (clusterReq.Name.isNone || clusterReq.Server.isNone) then
      Except.error "please provide a 'name' and 'server' fields at least".toList
    else Except.ok clusterReq

/-- Method `handleLoadErrors` (lines 1943-1955). -/
def handleLoadErrors (err : Option GoString) (contextLoadErrors : List GoString) :
    List GoString :=
  let setupErrors : List GoString :=
    match err with
    | some e => [e]
    | none => []
  setupErrors ++ contextLoadErrors

/-- Method `writeKubeConfig` (lines 1958-1975): its actions and its error. -/
def writeKubeConfig (env : AdminEnv) (kubeConfigBase64 : GoString) :
    List AdminEffect × Option GoString :=
  match env.StdDecodeString kubeConfigBase64 with
  | Except.error err => ([], some ("decoding kubeconfig: ".toList ++ err))
  | Except.ok kubeConfigByte =>
    match env.clientcmdLoad kubeConfigByte with
    | Except.error err => ([], some ("loading kubeconfig: ".toList ++ err))
    | Except.ok config =>
      match env.MakeHeadlampKubeConfigsDir with
      | Except.error err =>
        ([AdminEffect.makeKubeConfigsDir],
          some ("getting default kubeconfig persistence dir: ".toList ++ err))
      | Except.ok kubeConfigPersistenceDir =>
        ([AdminEffect.makeKubeConfigsDir,
          AdminEffect.kubeconfigWriteToFile config kubeConfigPersistenceDir],
          env.kubeconfigWriteToFile config kubeConfigPersistenceDir)

/-- Method `processKubeConfig` (lines 1906-1920): the contexts, the setup
errors and the actions. -/
def processKubeConfig (env : AdminEnv) (kubeConfig : GoString) :
    List Context × List GoString × List AdminEffect :=
  let loaded := env.LoadContextsFromBase64String kubeConfig
  let contexts := loaded.1
  let contextLoadErrors := loaded.2.1
  let err := loaded.2.2
  let setupErrors := handleLoadErrors err contextLoadErrors
  if contextLoadErrors.length = 0 then
    let written := writeKubeConfig env kubeConfig
    match written.2 with
    | some e => (contexts, setupErrors ++ [e], written.1)
    | none => (contexts, setupErrors, written.1)
  else (contexts, setupErrors, [])

/-- Method `processManualConfig` (lines 1923-1940); `decodeClusterRequest` has
made sure that `Name` and `Server` are not nil on this path. -/
def processManualConfig (env : AdminEnv) (clusterReq : ClusterReq) :
    List Context × List GoString × List AdminEffect :=
  let name := clusterReq.Name.getD []
  let conf : ApiConfig :=
    { Clusters := [(name,
        { Server := clusterReq.Server.getD []
          InsecureSkipTLSVerify := clusterReq.InsecureSkipTLSVerify
          CertificateAuthorityData := clusterReq.CertificateAuthorityData })]
      Contexts := [(name, { Cluster := name, Namespace := [], Extensions := [] })] }
  let loaded := env.LoadContextsFromAPIConfig conf
  (loaded.1, loaded.2, [])

/-- Method `processClusterRequest` (lines 1897-1903). -/
def processClusterRequest (env : AdminEnv) (clusterReq : ClusterReq) :
    List Context × List GoString × List AdminEffect :=
  match clusterReq.KubeConfig with
  | some kubeConfig => processKubeConfig env kubeConfig
  | none => processManualConfig env clusterReq

/-- Method `addContextsToStore` (lines 1978-1987): the store, the setup errors
and the actions after the loop over the contexts. -/
def addContextsToStore {σ : Type} (K : StoreOps σ) :
    List Context → σ → List GoString → List AdminEffect → σ × List GoString × List AdminEffect
  | [], store, setupErrors, log => (store, setupErrors, log)
  | context :: rest, store, setupErrors, log =>
    let context := { context with Source := ContextSource.DynamicCluster }
    let res := K.AddContext store context
    match res.2 with
    | some err =>
      addContextsToStore K rest res.1 (setupErrors ++ [err]) (log ++ [AdminEffect.addContext context])
    | none =>
      addContextsToStore K rest res.1 setupErrors (log ++ [AdminEffect.addContext context])

/-- Status constant `http.StatusCreated`. -/
def StatusCreated : Int := 201

/-- Method `addCluster` (lines 1791-1853), the handler of `POST /cluster`, with
`handleSetupErrors` in line. Telemetry and logging calls are left out. -/
def addCluster {σ : Type} (K : StoreOps σ) (c : HeadlampConfig) (env : AdminEnv)
    (store : σ) (r : Request) : AdminRun σ :=
  match checkHeadlampBackendToken c env.backendTokenEnv r with
  | (log, some _) => { store := store, log := log.map AdminEffect.w, panicked := false }
  | (_, none) =>
    match decodeClusterRequest env r with
    | Except.error err =>
      { store := store, log := [AdminEffect.w (Effect.httpError err StatusBadRequest)],
        panicked := false }
    | Except.ok clusterReq =>
      let processed := processClusterRequest env clusterReq
      let contexts := processed.1
      if contexts.length = 0 then
        { store := store,
          log := processed.2.2 ++
            [AdminEffect.w (Effect.httpError "getting contexts from kubeconfig".toList
              StatusBadRequest)],
          panicked := false }
      else
        let added := addContextsToStore K contexts store processed.2.1 []
        let setupErrors := added.2.1
        if setupErrors.length > 0 then
          { store := added.1,
            log := processed.2.2 ++ added.2.2 ++
              [AdminEffect.w (Effect.httpError "setting up contexts from kubeconfig".toList
                StatusBadRequest)],
            panicked := false }
        else
          { store := added.1,
            log := processed.2.2 ++ added.2.2 ++
              [AdminEffect.w (Effect.writeHeader StatusCreated)] ++ getConfig K c env added.1,
            panicked := false }

/-! ## Deleting a cluster: `deleteCluster` -/

/-- Method `handleRemoveKubeConfig` (lines 2049-2071). -/
def handleRemoveKubeConfig (env : AdminEnv) (r : Request) (name : GoString) :
    List AdminEffect :=
  let configPath := valuesGet r.Query "configPath".toList
  let originalName := valuesGet r.Query "originalName".toList
  let clusterID := valuesGet r.Query "clusterID".toList
  let configName := if originalName != [] && clusterID != [] then originalName else name
  match env.RemoveContextFromFile configName configPath with
  | some err =>
    [AdminEffect.removeContextFromFile configName configPath,
     AdminEffect.w (Effect.httpError err StatusInternalServerError)]
  | none => [AdminEffect.removeContextFromFile configName configPath]

/-- Method `handleDeleteCluster` (lines 2031-2046). -/
def handleDeleteCluster (env : AdminEnv) (r : Request) (name : GoString) : List AdminEffect :=
  let removeKubeConfig := valuesGet r.Query "removeKubeConfig".toList == "true".toList
  if removeKubeConfig then handleRemoveKubeConfig env r name else []

/-- Method `deleteCluster` (lines 1990-2028), the handler of
`DELETE /cluster/{name}`. -/
def deleteCluster {σ : Type} (K : StoreOps σ) (c : HeadlampConfig) (env : AdminEnv)
    (store : σ) (r : Request) : AdminRun σ :=
  let name := valuesGet r.Vars "name".toList
  match checkHeadlampBackendToken c env.backendTokenEnv r with
  | (log, some _) => { store := store, log := log.map AdminEffect.w, panicked := false }
  | (_, none) =>
    let res := K.RemoveContext store name
    match res.2 with
    | some err =>
      { store := res.1,
        log := [AdminEffect.removeContext name,
                AdminEffect.w (Effect.httpError err StatusInternalServerError)],
        panicked := false }
    | none =>
      { store := res.1,
        log := [AdminEffect.removeContext name] ++ handleDeleteCluster env r name ++
          getConfig K c env res.1,
        panicked := false }

/-! ## Renaming a cluster: `renameCluster` -/

/-- The constant `kubeConfigSource`. -/
def kubeConfigSource : GoString := "kubeconfig".toList

/-- Method `getKubeConfigPath` (lines 2074-2080). -/
def getKubeConfigPath (c : HeadlampConfig) (env : AdminEnv) (source : GoString) :
    Except GoString GoString :=
  if source = kubeConfigSource then Except.ok c.KubeConfigPath
  else env.defaultHeadlampKubeConfigFile

/-- Method `getPathAndLoadKubeconfig` (lines 2181-2201). -/
def getPathAndLoadKubeconfig (c : HeadlampConfig) (env : AdminEnv) (source : GoString) :
    Except GoString (GoString × ApiConfig) :=
  match getKubeConfigPath c env source with
  | Except.error err => Except.error err
  | Except.ok path =>
    match env.LoadFromFile path with
    | Except.error err => Except.error err
    | Except.ok config => Except.ok (path, config)

/-- The loop of `findMatchingContextName` (lines 2287-2301) over the contexts
of the kubeconfig, in the order of the list. -/
def findMatchingLoop (env : AdminEnv) (clusterName : GoString) :
    List (GoString × ApiContext) → GoString → GoString
  | [], contextName => contextName
  | kv :: rest, contextName =>
    match mapGet kv.2.Extensions "headlamp_info".toList with
    | some info =>
      let res := env.MarshalCustomObject info contextName
      match res.2 with
      | some _ => findMatchingLoop env clusterName rest contextName
      | none =>
        if res.1.CustomName != [] && res.1.CustomName == clusterName then
          findMatchingLoop env clusterName rest kv.1
        else findMatchingLoop env clusterName rest contextName
    | none => findMatchingLoop env clusterName rest contextName

/-- Function `findMatchingContextName` (lines 2284-2304). -/
def findMatchingContextName (env : AdminEnv) (config : ApiConfig) (clusterName : GoString) :
    GoString :=
  findMatchingLoop env clusterName config.Contexts clusterName

/-- Function `customNameToExtenstions` (lines 2117-2147): the kubeconfig after
the call, the actions, and the returned error. When the context is not in the
kubeconfig the function returns its variable `err`, which was never assigned,
that is nil. -/
def customNameToExtenstions (env : AdminEnv) (config : ApiConfig)
    (contextName newClusterName path : GoString) :
    ApiConfig × List AdminEffect × Option GoString :=
  match mapGet config.Contexts contextName with
  | none => (config, [], none)
  | some contextConfig =>
    let customObj := RuntimeObject.customObject newClusterName
    let contextConfig :=
      { contextConfig with
        Extensions := mapSet contextConfig.Extensions "headlamp_info".toList customObj }
    let config := { config with Contexts := mapSet config.Contexts contextName contextConfig }
    (config, [AdminEffect.clientcmdWriteToFile config path],
      env.clientcmdWriteToFile config path)

/-- The loop of `updateCustomContextToCache` (lines 2159-2171). -/
def updateCustomLoop {σ : Type} (K : StoreOps σ) (clusterName : GoString) :
    List Context → σ → List GoString → List AdminEffect → σ × List GoString × List AdminEffect
  | [], store, errs, log => (store, errs, log)
  | context :: rest, store, errs, log =>
    let removed := K.RemoveContext store clusterName
    let errs :=
      match removed.2 with
      | some err => errs ++ [err]
      | none => errs
    let added := K.AddContext removed.1 context
    let errs :=
      match added.2 with
      | some err => errs ++ [err]
      | none => errs
    updateCustomLoop K clusterName rest added.1 errs
      (log ++ [AdminEffect.removeContext clusterName, AdminEffect.addContext context])

/-- Method `updateCustomContextToCache` (lines 2150-2178): the store, the
errors and the actions. -/
def updateCustomContextToCache {σ : Type} (K : StoreOps σ) (env : AdminEnv) (store : σ)
    (config : ApiConfig) (clusterName : GoString) : σ × List GoString × List AdminEffect :=
  let loaded := env.LoadContextsFromAPIConfig config
  let contexts := loaded.1
  let errs := loaded.2
  if contexts.length = 0 then
    (store, errs ++ ["no contexts found in kubeconfig".toList], [])
  else updateCustomLoop K clusterName contexts store errs []

/-- Method `handleError` on an `error` value that may be nil: with nil,
`err.Error()` is a nil dereference, a run-time panic. The result is the calls
on `w` and whether the call panicked. -/
def handleErrorValue (err : Option GoString) (status : Int) : List Effect × Bool :=
  match err with
  | some e => (handleError e status, false)
  | none => ([], true)

/-- Outcome of `handleClusterRename`: the run and the returned error. -/
structure RenameResult (σ : Type) where
  run : AdminRun σ
  err : Option GoString

/-- Method `handleClusterRename` (lines 2245-2280). The variable `err` of the
function is nil from the second step on. -/
def handleClusterRename {σ : Type} (K : StoreOps σ) (c : HeadlampConfig) (env : AdminEnv)
    (store : σ) (clusterName : GoString) (reqBody : RenameClusterRequest) : RenameResult σ :=
  match getPathAndLoadKubeconfig c env reqBody.Source with
  | Except.error e =>
    { run := { store := store,
               log := (handleError e StatusInternalServerError).map AdminEffect.w,
               panicked := false },
      err := some e }
  | Except.ok (path, config) =>
    let err : Option GoString := none
    let isUnique := CheckUniqueName env config.Contexts clusterName reqBody.NewClusterName
    if !isUnique then
      { run := { store := store,
                 log := [AdminEffect.w (Effect.httpError "custom name already in use".toList
                   StatusBadRequest)],
                 panicked := false },
        err := err }
    else
      let contextName := findMatchingContextName env config clusterName
      let written := customNameToExtenstions env config contextName reqBody.NewClusterName path
      match written.2.2 with
      | some e =>
        { run := { store := store,
                   log := written.2.1 ++
                     (handleError e StatusInternalServerError).map AdminEffect.w,
                   panicked := false },
          err := some e }
      | none =>
        let updated := updateCustomContextToCache K env store written.1 clusterName
        if updated.2.1.length > 0 then
          let handled := handleErrorValue err StatusInternalServerError
          { run := { store := updated.1,
                     log := written.2.1 ++ updated.2.2 ++ handled.1.map AdminEffect.w,
                     panicked := handled.2 },
            err := some "failed to update context cache".toList }
        else
          { run := { store := updated.1,
                     log := written.2.1 ++ updated.2.2 ++
                       [AdminEffect.w (Effect.writeHeader StatusCreated)] ++
                       getConfig K c env updated.1,
                     panicked := false },
            err := none }

/-- Method `handleStatelessClusterRename` (lines 2083-2114). -/
def handleStatelessClusterRename {σ : Type} (K : StoreOps σ) (c : HeadlampConfig)
    (env : AdminEnv) (store : σ) (clusterName : GoString) : AdminRun σ :=
  let res := K.RemoveContext store clusterName
  match res.2 with
  | some err =>
    { store := res.1,
      log := [AdminEffect.removeContext clusterName,
              AdminEffect.w (Effect.httpError err StatusBadRequest)],
      panicked := false }
  | none =>
    { store := res.1,
      log := [AdminEffect.removeContext clusterName,
              AdminEffect.w (Effect.writeHeader StatusCreated)] ++ getConfig K c env res.1,
      panicked := false }

/-- Method `renameCluster` (lines 2204-2243), the handler of
`PUT /cluster/{name}`. -/
def renameCluster {σ : Type} (K : StoreOps σ) (c : HeadlampConfig) (env : AdminEnv)
    (store : σ) (r : Request) : AdminRun σ :=
  let clusterName := valuesGet r.Vars "name".toList
  match env.decodeRenameReq r with
  | Except.error err =>
    { store := store,
      log := (handleError err StatusBadRequest).map AdminEffect.w,
      panicked := false }
  | Except.ok reqBody =>
    if reqBody.Stateless then handleStatelessClusterRename K c env store clusterName
    else (handleClusterRename K c env store clusterName reqBody).run

/-! ## A context store after the spec, and sample inputs -/

/-- Modelled from the spec: the Context Store of `pkg/kubeconfig`, whose code
is not among the embedded files. After section 4.1: `add(ctx)` is an error if
the name collides with a non-internal context, `remove(name)` is an error if the
name is absent, `get(name)` is the context or a not-found error, `list()` is
the collection. The store is the list of its contexts, one per name. -/
def specStore : StoreOps (List Context) :=
  { GetContext := fun store name =>
      match store.find? (fun k => k.Name == name) with
      | some k => Except.ok k
      | none => Except.error "context not found".toList
    GetContexts := fun store => Except.ok store
    AddContext := fun store ctx =>
      if store.any (fun k => k.Name == ctx.Name && !k.Internal) then
        (store, some "context already exists".toList)
      else (store.filter (fun k => !(k.Name == ctx.Name)) ++ [ctx], none)
    RemoveContext := fun store name =>
      if store.any (fun k => k.Name == name) then
        (store.filter (fun k => !(k.Name == name)), none)
      else (store, some "context not found".toList) }

/-- A kubeconfig with the one context `prod`. -/
def sampleApiConfig : ApiConfig :=
  { Clusters := [("prod".toList,
      { Server := "https://k8s.example:6443".toList, InsecureSkipTLSVerify := false,
        CertificateAuthorityData := [] })]
    Contexts := [("prod".toList,
      { Cluster := "prod".toList, Namespace := [], Extensions := [] })] }

/-- An environment of the cluster-management handlers: the server secret is
`s3cret`; every kubeconfig, submitted or on disk, is `sampleApiConfig` and loads
as the context `sampleOidcContext`; every file operation succeeds; the rename
body asks for the given new name, source and mode. -/
def sampleAdminEnv (rename : RenameClusterRequest) : AdminEnv :=
  { backendTokenEnv := "s3cret".toList
    MarshalCustomObject := fun info _ =>
      match info with
      | RuntimeObject.customObject name => ({ CustomName := name }, none)
      | RuntimeObject.unknown raw => ({ CustomName := raw }, none)
    AuthType := fun k => if k.OidcConf.isSome then "oidc".toList else []
    SourceStr := fun _ => "kubeconfig".toList
    decodeClusterReq := fun _ =>
      Except.ok { Name := none, Server := none, InsecureSkipTLSVerify := false,
                  CertificateAuthorityData := [], KubeConfig := some "a3ViZWNvbmZpZw==".toList }
    decodeRenameReq := fun _ => Except.ok rename
    LoadContextsFromBase64String := fun _ => ([sampleOidcContext], [], none)
    LoadContextsFromAPIConfig := fun _ => ([sampleOidcContext], [])
    StdDecodeString := fun _ => Except.ok []
    clientcmdLoad := fun _ => Except.ok sampleApiConfig
    MakeHeadlampKubeConfigsDir := Except.ok "/home/user/.config/Headlamp/kubeconfigs".toList
    kubeconfigWriteToFile := fun _ _ => none
    RemoveContextFromFile := fun _ _ => none
    defaultHeadlampKubeConfigFile :=
      Except.ok "/home/user/.config/Headlamp/kubeconfigs/config".toList
    LoadFromFile := fun _ => Except.ok sampleApiConfig
    clientcmdWriteToFile := fun _ _ => none }

/-- A request to the cluster-management routes for the cluster name given,
with the value given in the header `X-HEADLAMP_BACKEND-TOKEN`. -/
def sampleAdminRequest (method name backendToken : GoString) : Request :=
  { Method := method, Host := "headlamp.example".toList,
    URL := { Scheme := [], Host := [], Path := "/cluster".toList },
    Header := Header.Set [] "X-HEADLAMP_BACKEND-TOKEN".toList backendToken,
    Vars := [("name".toList, name)],
    Query := [] }

/-- The contexts of a kubeconfig in which `prod` carries the custom name `blue`. -/
def sampleCustomContexts : List (GoString × ApiContext) :=
  [("prod".toList,
    { Cluster := "prod".toList
      Namespace := []
      Extensions := [("headlamp_info".toList, RuntimeObject.customObject "blue".toList)] })]

/-- A context whose setup failed. -/
def sampleFailedContext : Context :=
  { Name := "broken".toList, Server := [], Error := "no such host".toList,
    OidcConf := none, Internal := false }

/-- A context `ghost` that the store holds but no kubeconfig file lists. -/
def sampleGhostContext : Context :=
  { Name := "ghost".toList, Server := "https://ghost.example".toList, Error := [],
    OidcConf := none, Internal := false }

/-! ## `encoding/base64` -/

/-- An `encoding/base64` encoding: the runes of the values 62 and 63, and
whether `=` padding is used. -/
structure Encoding where
  c62 : Char
  c63 : Char
  padded : Bool
deriving DecidableEq, Repr

/-- Encoding `base64.StdEncoding`. -/
def StdEncoding : Encoding := { c62 := '+', c63 := '/', padded := true }

/-- Encoding `base64.URLEncoding`. -/
def URLEncoding : Encoding := { c62 := '-', c63 := '_', padded := true }

/-- Encoding `base64.RawStdEncoding`. -/
def RawStdEncoding : Encoding := { c62 := '+', c63 := '/', padded := false }

/-- Encoding `base64.RawURLEncoding`. -/
def RawURLEncoding : Encoding := { c62 := '-', c63 := '_', padded := false }

/-- The rune of a six-bit value in the alphabet of the encoding. -/
def Encoding.char (e : Encoding) (i : Nat) : Char :=
  if i < 26 then Char.ofNat (65 + i)
  else if i < 52 then Char.ofNat (97 + (i - 26))
  else if i < 62 then Char.ofNat (48 + (i - 52))
  else if i = 62 then e.c62
  else e.c63

/-- The six-bit value of a rune, the `decodeMap` of the encoding; none for a
rune outside the alphabet. -/
def Encoding.val (e : Encoding) (c : Char) : Option Nat :=
  let n := c.toNat
  if 65 ≤ n ∧ n ≤ 90 then some (n - 65)
  else if 97 ≤ n ∧ n ≤ 122 then some (n - 97 + 26)
  else if 48 ≤ n ∧ n ≤ 57 then some (n - 48 + 52)
  else if c = e.c62 then some 62
  else if c = e.c63 then some 63
  else none

/-- Method `EncodeToString` on the bytes of the source. -/
def Encoding.EncodeToString (e : Encoding) : List Nat → GoString
  | [] => []
  | [a] =>
    [e.char (a / 4), e.char ((a % 4) * 16)] ++ (if e.padded then ['=', '='] else [])
  | [a, b] =>
    [e.char (a / 4), e.char ((a % 4) * 16 + b / 16), e.char ((b % 16) * 4)] ++
      (if e.padded then ['='] else [])
  | a :: b :: c :: rest =>
    e.char (a / 4) :: e.char ((a % 4) * 16 + b / 16) :: e.char ((b % 16) * 4 + c / 64) ::
      e.char (c % 64) :: e.EncodeToString rest

/-- The quanta of the decoder, on a source without line breaks: four runes give
three bytes; at the end, two or three runes give one or two bytes, followed by
the padding in a padded encoding and by nothing in a raw one. The decoder is not
strict, so the unused low bits of the last rune are dropped. Every other source
is corrupt. -/
def Encoding.decodeQuanta (e : Encoding) : List Char → Option (List Nat)
  | [] => some []
  | [_] => none
  | [c0, c1] =>
    if e.padded then none
    else
      match e.val c0, e.val c1 with
      | some v0, some v1 => some [v0 * 4 + v1 / 16]
      | _, _ => none
  | [c0, c1, c2] =>
    if e.padded then none
    else
      match e.val c0, e.val c1, e.val c2 with
      | some v0, some v1, some v2 => some [v0 * 4 + v1 / 16, (v1 % 16) * 16 + v2 / 4]
      | _, _, _ => none
  | c0 :: c1 :: c2 :: c3 :: rest =>
    match e.val c0, e.val c1 with
    | some v0, some v1 =>
      match e.val c2 with
      | some v2 =>
        match e.val c3 with
        | some v3 =>
          (e.decodeQuanta rest).map (fun bs =>
            (v0 * 4 + v1 / 16) :: ((v1 % 16) * 16 + v2 / 4) :: ((v2 % 4) * 64 + v3) :: bs)
        | none =>
          if e.padded && c3 == '=' && rest.isEmpty then
            some [v0 * 4 + v1 / 16, (v1 % 16) * 16 + v2 / 4]
          else none
      | none =>
        if e.padded && c2 == '=' && c3 == '=' && rest.isEmpty then some [v0 * 4 + v1 / 16]
        else none
    | _, _ => none

/-- Method `DecodeString`: the bytes, or none for a corrupt source. Carriage
returns and line feeds of the source are skipped. -/
def Encoding.DecodeString (e : Encoding) (s : GoString) : Option (List Nat) :=
  e.decodeQuanta (s.filter (fun c => !(c == '\r' || c == '\n')))

/-- The conversion `string(b)` of ASCII bytes. -/
def asciiString (b : List Nat) : GoString :=
  b.map Char.ofNat

/-- A router environment whose decoders are those of `encoding/base64`,
followed by the conversion `toStr` of the decoded bytes to a string. -/
def base64RouterEnv (toStr : List Nat → GoString) : RouterEnv :=
  { sampleRouterEnv 200 with
    decodeURLEncoding := fun s => (URLEncoding.DecodeString s).map toStr
    decodeRawStdEncoding := fun s => (RawStdEncoding.DecodeString s).map toStr }

/-! ## The steps of the request rewrite -/

/-- The rewrite of the target (lines 1484-1495): host, forwarded host, user
agent, URL. -/
def rewriteTarget (env : RouterEnv) (clusterURL : URL) (r : Request) : Request :=
  let r := { r with Host := clusterURL.Host }
  let r := { r with Header := r.Header.Set "X-Forwarded-Host".toList r.Host }
  let r :=
    if env.EqualFold (r.Header.Get "Upgrade".toList) "websocket".toList then
      { r with Header := r.Header.Del "User-Agent".toList }
    else r
  let r := { r with URL := { r.URL with Host := clusterURL.Host } }
  let r := { r with URL := { r.URL with Path := valuesGet r.Vars "api".toList } }
  { r with URL := { r.URL with Scheme := clusterURL.Scheme } }

/-- The credential from the auth cookie (lines 1497-1500). -/
def setCookieCredential (env : RouterEnv) (r : Request) : Request :=
  match env.GetTokenFromCookie r (valuesGet r.Vars "clusterName".toList) with
  | Except.ok token =>
    if token != [] then
      { r with Header := r.Header.Set "Authorization".toList ("Bearer ".toList ++ token) }
    else r
  | Except.error _ => r

/-- The sub-protocols that `processWebSocketProtocolHeader` keeps: the parts of
the comma-separated value, trimmed, that do not start with the token prefix. -/
def keptProtocols (value : GoString) : List GoString :=
  ((splitComma value).map TrimSpace).filter (fun p => !HasPrefix p bearerTokenPrefix)

/-- A WebSocket upgrade request that offers the channel protocol and a token
protocol carrying `dG9r`, the base64 text of `tok`. -/
def sampleWebSocketRequest : Request :=
  { sampleRequest with
    Header := Header.Set (Header.Set [] "Upgrade".toList "websocket".toList)
      "Sec-WebSocket-Protocol".toList
      "v4.channel.k8s.io, base64url.bearer.authorization.k8s.io.dG9r".toList }

/-- An internal context whose setup failed. -/
def sampleInternalFailedContext : Context :=
  { Name := "private".toList, Server := [], Error := "no such host".toList,
    OidcConf := none, Internal := true }

/-- A router environment in which the context key cannot be derived from the
request. -/
def sampleNoKeyRouterEnv : RouterEnv :=
  { sampleRouterEnv 200 with
    getContextKeyForRequest := fun _ => Except.error "cluster name is missing".toList }

/-! ## The state of the `/oidc` redirect -/

/-- The state generator of the `/oidc` handler (lines 719-726), on the 32 bytes
`b` that `rand.Read` wrote: `base64.RawURLEncoding.EncodeToString(b)`. -/
def oidcState (b : List Nat) : GoString :=
  RawURLEncoding.EncodeToString b

/-- The rune is one of `A-Z`, `a-z`, `0-9`, `-` and `_`. -/
def isBase64URLRune (c : Char) : Bool :=
  (65 ≤ c.toNat && c.toNat ≤ 90) || (97 ≤ c.toNat && c.toNat ≤ 122) ||
    (48 ≤ c.toNat && c.toNat ≤ 57) || c == '-' || c == '_'

/-! ## The callback URL of the OIDC flow -/

/-- Function `getOidcCallbackURL` (lines 190-221); the format
`"%s://%s/oidc-callback"` is the concatenation of its parts. -/
def getOidcCallbackURL (r : Request) (config : HeadlampConfig) : GoString :=
  if config.OidcCallbackURL != [] then config.OidcCallbackURL
  else
    let urlScheme := r.URL.Scheme
    let urlScheme :=
      if urlScheme == [] then
        let fwdProto := r.Header.Get "X-Forwarded-Proto".toList
        if fwdProto != [] then fwdProto
        else if HasPrefix r.Host "localhost:".toList || !r.TLS then "http".toList
        else "https".toList
      else urlScheme
    let hostWithBaseURL := trimSlash r.Host
    let baseURL := trimSlash config.BaseURL
    let hostWithBaseURL :=
      if baseURL != [] then hostWithBaseURL ++ "/".toList ++ baseURL else hostWithBaseURL
    urlScheme ++ "://".toList ++ hostWithBaseURL ++ "/oidc-callback".toList

/-- The scheme of the callback URL as the specification words it: the scheme of
the request URL if set, else the `X-Forwarded-Proto` header if set, else `http`
for a host that starts with `localhost:` or a request without TLS, else
`https`. -/
def callbackSchemeSpec (r : Request) : GoString :=
  if r.URL.Scheme ≠ [] then r.URL.Scheme
  else if r.Header.Get "X-Forwarded-Proto".toList ≠ [] then
    r.Header.Get "X-Forwarded-Proto".toList
  else if HasPrefix r.Host "localhost:".toList = true ∨ r.TLS = false then "http".toList
  else "https".toList

/-- The callback URL as the specification words it, for the host `host` and the
base `base` that are left of the request host and of the configured base URL
once their leading and trailing `/` are removed. -/
def callbackURLSpec (r : Request) (config : HeadlampConfig) (host base : GoString) :
    GoString :=
  if config.OidcCallbackURL ≠ [] then config.OidcCallbackURL
  else
    callbackSchemeSpec r ++ "://".toList ++ host ++
      (if base = [] then [] else "/".toList ++ base) ++ "/oidc-callback".toList

/-- The string `t` is the string `s` with its leading and trailing `/` removed:
`s` is `t` between two runs of `/`, and `t` neither starts nor ends with `/`. -/
def slashesRemoved (s t : GoString) : Prop :=
  (∃ pre suf : GoString, s = pre ++ t ++ suf ∧ (∀ c ∈ pre, c = '/') ∧ (∀ c ∈ suf, c = '/')) ∧
    t.head? ≠ some '/' ∧ t.getLast? ≠ some '/'

/-! ## Node drain: `drainNode` -/

/-- Duration `time.Duration`: a number of nanoseconds. -/
abbrev Duration := Int

/-- Constant `time.Second`. -/
def Second : Duration := 1000000000

/-- Constant `time.Minute`. -/
def Minute : Duration := 60 * Second

/-- Constant `DrainNodeCacheTTL` (line 78), an untyped 20 that its comment
reads as seconds. -/
def DrainNodeCacheTTL : Int := 20

/-- Part of a pod that `drainNode` reads. -/
structure Pod where
  Namespace : GoString
  Name : GoString
  Labels : List (GoString × GoString)
deriving DecidableEq, Repr

/-- Calls of `drainNode` on the cluster and on the cache. -/
inductive DrainEffect where
  /-- Call `nodeClient.Get(ctx, nodeName, ...)`. -/
  | nodeGet (nodeName : GoString)
  /-- Call `nodeClient.Update(ctx, node, ...)` of the cordoned node. -/
  | nodeUpdate (nodeName : GoString)
  /-- Call `Pods("").List` with this field selector. -/
  | podList (fieldSelector : GoString)
  /-- Call `Pods(namespace).Delete` with this grace period. -/
  | podDelete (ns name : GoString) (gracePeriod : Int)
  /-- Call `c.Cache.SetWithTTL(ctx, key, value, ttl)`. -/
  | setWithTTL (key value : GoString) (ttl : Duration)
deriving DecidableEq, Repr

/-- The duration of a `SetWithTTL` call, none for another call. -/
def DrainEffect.ttl : DrainEffect → Option Duration
  | DrainEffect.setWithTTL _ _ ttl => some ttl
  | _ => none

/-- Results of the collaborator calls of `drainNode`: `cacheKey` is
`uuid.NewSHA1(uuid.Nil, b).String()`; an error is carried as its message. -/
structure DrainEnv where
  cacheKey : GoString → GoString
  nodeGet : GoString → Option GoString
  nodeUpdate : GoString → Option GoString
  podList : GoString → Except GoString (List Pod)

/-- The body of the goroutine of `drainNode` (lines 2432-2475): the calls it
makes, in order. -/
def drainNode (env : DrainEnv) (nodeName cluster : GoString) : List DrainEffect :=
  let cacheKey := env.cacheKey (nodeName ++ cluster)
  let cacheItemTTL : Duration := DrainNodeCacheTTL * Minute
  match env.nodeGet nodeName with
  | some err =>
    [DrainEffect.nodeGet nodeName,
     DrainEffect.setWithTTL cacheKey ("error: ".toList ++ err) cacheItemTTL]
  | none =>
    match env.nodeUpdate nodeName with
    | some err =>
      [DrainEffect.nodeGet nodeName, DrainEffect.nodeUpdate nodeName,
       DrainEffect.setWithTTL cacheKey ("error: ".toList ++ err) cacheItemTTL]
    | none =>
      let selector := "spec.nodeName=".toList ++ nodeName
      match env.podList selector with
      | Except.error err =>
        [DrainEffect.nodeGet nodeName, DrainEffect.nodeUpdate nodeName,
         DrainEffect.podList selector,
         DrainEffect.setWithTTL cacheKey ("error: ".toList ++ err) cacheItemTTL]
      | Except.ok pods =>
        let gracePeriod : Int := 0
        [DrainEffect.nodeGet nodeName, DrainEffect.nodeUpdate nodeName,
         DrainEffect.podList selector] ++
        ((pods.filter (fun pod =>
            !(valuesGet pod.Labels "kubernetes.io/created-by".toList ==
              "daemonset-controller".toList))).map
          (fun pod => DrainEffect.podDelete pod.Namespace pod.Name gracePeriod)) ++
        [DrainEffect.setWithTTL cacheKey "success".toList cacheItemTTL]

/-- A cluster that answers every call of `drainNode` without error and lists
one pod on the node. -/
def sampleDrainEnv : DrainEnv :=
  { cacheKey := fun b => "key-".toList ++ b
    nodeGet := fun _ => none
    nodeUpdate := fun _ => none
    podList := fun _ =>
      Except.ok [{ Namespace := "default".toList, Name := "web".toList, Labels := [] }] }

/-! ## The store calls of a rename -/

/-- One `RemoveContext(clusterName)` call followed by one `AddContext` call for
each context of the list, in order. -/
def removeAddCalls (clusterName : GoString) : List Context → List AdminEffect
  | [] => []
  | context :: rest =>
    AdminEffect.removeContext clusterName :: AdminEffect.addContext context ::
      removeAddCalls clusterName rest

/-- A context `old`, the entry of the store that a rename replaces. -/
def sampleOldContext : Context :=
  { Name := "old".toList, Server := "https://k8s.example:6443".toList, Error := [],
    OidcConf := none, Internal := false }

/-- The environment `sampleAdminEnv` with a kubeconfig that loads as the two
contexts `prod` and `ghost`. -/
def sampleTwoContextsEnv (rename : RenameClusterRequest) : AdminEnv :=
  { sampleAdminEnv rename with
    LoadContextsFromAPIConfig := fun _ => ([sampleOidcContext, sampleGhostContext], []) }

/-! ## A rename in a kubeconfig of two contexts -/

/-- A kubeconfig with the two contexts `prod` and `ghost`. -/
def sampleTwoApiConfig : ApiConfig :=
  { Clusters := [("prod".toList,
      { Server := "https://k8s.example:6443".toList, InsecureSkipTLSVerify := false,
        CertificateAuthorityData := [] })]
    Contexts := [("prod".toList,
      { Cluster := "prod".toList, Namespace := [], Extensions := [] }),
      ("ghost".toList,
      { Cluster := "prod".toList, Namespace := [], Extensions := [] })] }

/-- The context `prod` as it loads once it carries the custom name `blue`. -/
def sampleBlueContext : Context :=
  { sampleOidcContext with Name := "blue".toList }

/-- The environment `sampleAdminEnv` with the kubeconfig `sampleTwoApiConfig` on
disk, which loads as the two contexts `blue` and `ghost`. -/
def sampleRenameEnv (rename : RenameClusterRequest) : AdminEnv :=
  { sampleAdminEnv rename with
    LoadFromFile := fun _ => Except.ok sampleTwoApiConfig
    LoadContextsFromAPIConfig := fun _ => ([sampleBlueContext, sampleGhostContext], []) }

/-- The rename body of `prod` to `blue` in the kubeconfig of the server. -/
def sampleRename : RenameClusterRequest :=
  { NewClusterName := "blue".toList, Source := "kubeconfig".toList, Stateless := false }

/-- The action is a call on the response writer. -/
def AdminEffect.isResponse : AdminEffect → Bool
  | AdminEffect.w _ => true
  | _ => false

/-! ## The response as `net/http` sends it -/

/-- The response on the writer `w` as `net/http` keeps it: the header map behind
`w.Header()`, and, once the status line has gone out, the status and the header
that went out with it. -/
structure ResponseState where
  header : Header
  sent : Option (Int × Header)
deriving DecidableEq, Repr

/-- Method `WriteHeader` of the `net/http` response writer: an informational
code (1xx) leaves the response open; any other code sends the status line with
the header map as it stands; once that has happened a further call is
superfluous and changes nothing. -/
def ResponseState.WriteHeader (s : ResponseState) (code : Int) : ResponseState :=
  match s.sent with
  | some _ => s
  | none =>
    if 100 ≤ code ∧ code ≤ 199 then s else { s with sent := some (code, s.header) }

/-- Method `Write` of the `net/http` response writer: when no status line has
gone out it sends the one of `WriteHeader(http.StatusOK)` first. -/
def ResponseState.Write (s : ResponseState) : ResponseState :=
  s.WriteHeader StatusOK

/-- Function `http.Error`: it deletes `Content-Length`, sets `Content-Type` and
`X-Content-Type-Options`, calls `WriteHeader(code)` and writes the message. -/
def ResponseState.Error (s : ResponseState) (code : Int) : ResponseState :=
  let h := s.header.Del "Content-Length".toList
  let h := h.Set "Content-Type".toList "text/plain; charset=utf-8".toList
  let h := h.Set "X-Content-Type-Options".toList "nosniff".toList
  (({ s with header := h } : ResponseState).WriteHeader code).Write

/-- What one effect of the router does to the response. A call of the upstream
on `wrappedWriter` reaches `w` through the embedded writer (lines 1427-1435).
The other effects of the router, `HandlePluginReload` and `ProxyRequest`
themselves, are calls into collaborators; the header `X-Reload` that
`HandlePluginReload` may set is left out. -/
def ResponseState.apply (s : ResponseState) : Effect → ResponseState
  | Effect.headerSet key value => { s with header := s.header.Set key value }
  | Effect.writeHeader code => s.WriteHeader code
  | Effect.write _ => s.Write
  | Effect.httpError _ code => s.Error code
  | Effect.upstream (ProxyCall.headerSet key value) =>
    { s with header := s.header.Set key value }
  | Effect.upstream (ProxyCall.writeHeader code) => s.WriteHeader code
  | Effect.upstream (ProxyCall.write _) => s.Write
  | _ => s

/-- The response after the effects of a log, from a fresh writer. -/
def responseOf (log : List Effect) : ResponseState :=
  log.foldl ResponseState.apply { header := [], sent := none }

/-- The status and the header that the client receives: those that went out
with the status line, or, when the handler returns without having sent one,
status 200 with the header map as the handler left it. -/
def ResponseState.delivered (s : ResponseState) : Int × Header :=
  match s.sent with
  | some x => x
  | none => (StatusOK, s.header)

/-- The sample request with the credential `Authorization: Bearer tok`. -/
def sampleBearerRequest : Request :=
  { sampleRequest with
    Header := Header.Set [] "Authorization".toList "Bearer tok".toList }

/-! ## Sample inputs of the name collisions and of the cluster list -/

/-- The environment `sampleAdminEnv` with a submitted kubeconfig that loads as
the two contexts `ghost` and `prod`. -/
def sampleTwoContextsAddEnv : AdminEnv :=
  { sampleAdminEnv { NewClusterName := [], Source := [], Stateless := false } with
    LoadContextsFromBase64String := fun _ => ([sampleGhostContext, sampleOidcContext], [], none) }

/-- The body of a stateless rename to the name `prod`. -/
def sampleStatelessRename : RenameClusterRequest :=
  { NewClusterName := "prod".toList, Source := "dynamic_cluster".toList, Stateless := true }

/-- A usable context `dev`: no setup error, not internal, with its kubeconfig
context. -/
def sampleUsableContext : Context :=
  { Name := "dev".toList, Server := "https://dev.example:6443".toList, Error := [],
    OidcConf := none, Internal := false,
    KubeContext := some { Cluster := "dev".toList, Namespace := "default".toList,
                          Extensions := [] } }

/-- An internal context `hidden` without setup error. -/
def sampleInternalContext : Context :=
  { Name := "hidden".toList, Server := "https://hidden.example:6443".toList, Error := [],
    OidcConf := none, Internal := true,
    KubeContext := some { Cluster := "hidden".toList, Namespace := "default".toList,
                          Extensions := [] } }

/-- The entry of `sampleUsableContext` in the cluster list under `sampleAdminEnv`. -/
def sampleUsableCluster : Cluster :=
  { Name := "dev".toList
    Server := "https://dev.example:6443".toList
    AuthType := []
    Metadata := some
      { Source := "kubeconfig".toList
        Namespace := "default".toList
        Extensions := []
        OriginKubeconfig := []
        OriginalName := "dev".toList
        ClusterID := [] } }

/-! # Theorems -/

/-! ## Library lemmas -/

theorem caseFlip_unicodeToLower (tbl : Char → Char) (a b : Char) (h : caseFlip a b = true) :
    unicodeToLower tbl a = unicodeToLower tbl b := by
  unfold caseFlip at h
  simp only [Bool.or_eq_true, Bool.and_eq_true, decide_eq_true_eq, beq_iff_eq] at h
  rcases h with (h | ⟨⟨h1, h2⟩, h3⟩) | ⟨⟨h1, h2⟩, h3⟩
  · rw [h]
  · have hb : ¬ (65 ≤ b.toNat ∧ b.toNat ≤ 90) := by omega
    have hbv : b = Char.ofNat (a.toNat + 32) := by
      rw [← h3]; exact (Char.ofNat_toNat b).symm
    have ha128 : a.toNat < 128 := by omega
    have hb128 : b.toNat < 128 := by omega
    have hau : 65 ≤ a.toNat ∧ a.toNat ≤ 90 := ⟨h1, h2⟩
    simp only [unicodeToLower, asciiToLower, if_pos ha128, if_pos hb128, if_pos hau, if_neg hb]
    exact hbv.symm
  · have ha : ¬ (65 ≤ a.toNat ∧ a.toNat ≤ 90) := by omega
    have hav : a = Char.ofNat (b.toNat + 32) := by
      rw [← h3]; exact (Char.ofNat_toNat a).symm
    have ha128 : a.toNat < 128 := by omega
    have hb128 : b.toNat < 128 := by omega
    have hbu : 65 ≤ b.toNat ∧ b.toNat ≤ 90 := ⟨h1, h2⟩
    simp only [unicodeToLower, asciiToLower, if_pos ha128, if_pos hb128, if_pos hbu, if_neg ha]
    exact hav

theorem caseVariant_ToLower (tbl : Char → Char) :
    ∀ (h1 h2 : GoString), caseVariant h1 h2 = true → ToLower tbl h2 = ToLower tbl h1
  | [], [], _ => rfl
  | [], _ :: _, h => by simp [caseVariant] at h
  | _ :: _, [], h => by simp [caseVariant] at h
  | a :: as, b :: bs, h => by
    simp only [caseVariant, Bool.and_eq_true] at h
    have ih := caseVariant_ToLower tbl as bs h.2
    have hc := caseFlip_unicodeToLower tbl a b h.1
    simp only [ToLower, List.map_cons] at ih ⊢
    rw [ih, hc]

theorem dropWhile_append_of_all (p : Char → Bool) :
    ∀ (ws x : GoString), ws.all p = true → (ws ++ x).dropWhile p = x.dropWhile p
  | [], _, _ => rfl
  | c :: cs, x, h => by
    simp only [List.all_cons, Bool.and_eq_true] at h
    simp only [List.cons_append, List.dropWhile_cons, h.1, if_true]
    exact dropWhile_append_of_all p cs x h.2

theorem TrimSpace_append_left (ws x : GoString) (h : ws.all isSpace = true) :
    TrimSpace (ws ++ x) = TrimSpace x := by
  simp only [TrimSpace, trimLeftSpace, dropWhile_append_of_all isSpace ws x h]

theorem unicodeToLower_isSpace (tbl : Char → Char)
    (htbl : ∀ c : Char, 128 ≤ c.toNat → isSpace c = true → isSpace (tbl c) = true)
    (c : Char) (h : isSpace c = true) : isSpace (unicodeToLower tbl c) = true := by
  unfold unicodeToLower
  by_cases hc : c.toNat < 128
  · rw [if_pos hc]
    have hna : ¬ (65 ≤ c.toNat ∧ c.toNat ≤ 90) := by
      intro hu
      simp only [isSpace, Bool.or_eq_true, Bool.and_eq_true, beq_iff_eq, decide_eq_true_eq] at h
      omega
    simp only [asciiToLower, if_neg hna, h]
  · rw [if_neg hc]
    exact htbl c (by omega) h

/-! ## The mismatch detector -/

/-- C1: `DetectMismatch` of a detector built by `NewOIDCMismatchDetector` is true
exactly when OIDC is configured, a bearer token was sent and the status is 401
or 403; and the cluster name does not enter the result. -/
theorem DetectMismatch_iff (isOIDCConfigured : Bool) (clusterName : GoString)
    (statusCode : Int) (hadBearerToken : Bool) :
    ((NewOIDCMismatchDetector isOIDCConfigured clusterName).DetectMismatch
        statusCode hadBearerToken = true ↔
      (isOIDCConfigured = true ∧ hadBearerToken = true ∧
        (statusCode = 401 ∨ statusCode = 403))) ∧
    (∀ otherName : GoString,
      (NewOIDCMismatchDetector isOIDCConfigured otherName).DetectMismatch
          statusCode hadBearerToken =
        (NewOIDCMismatchDetector isOIDCConfigured clusterName).DetectMismatch
          statusCode hadBearerToken) := by
  refine ⟨?_, fun _ => rfl⟩
  simp [OIDCMismatchDetector.DetectMismatch, NewOIDCMismatchDetector, StatusUnauthorized,
    StatusForbidden, and_assoc]

/-- C2: `HasBearerToken h` is true exactly when `h`, lower-cased and trimmed of
leading and trailing white space, begins with the seven runes `bearer ` ; the
listed headers evaluate as the tests expect, under every case table. -/
theorem HasBearerToken_iff_prefix (tbl : Char → Char) (h : GoString) :
    (HasBearerToken tbl h = true ↔
      (TrimSpace (ToLower tbl h)).take 7 = ['b', 'e', 'a', 'r', 'e', 'r', ' ']) ∧
    HasBearerToken tbl "Bearer x".toList = true ∧
    HasBearerToken tbl "  Bearer x".toList = true ∧
    HasBearerToken tbl "bearer x".toList = true ∧
    HasBearerToken tbl "BeArer x".toList = true ∧
    HasBearerToken tbl "".toList = false ∧
    HasBearerToken tbl "Basic x".toList = false ∧
    HasBearerToken tbl "x".toList = false ∧
    HasBearerToken tbl "eyJhbGciOiJSUzI1NiIsInR5cCI6IkpXVCJ9...".toList = false := by
  refine ⟨?_, ?_, ?_, ?_, ?_, ?_, ?_, ?_, ?_⟩
  · have hlen : "bearer ".toList.length = 7 := by decide
    have hlit : "bearer ".toList = ['b', 'e', 'a', 'r', 'e', 'r', ' '] := by decide
    unfold HasBearerToken HasPrefix
    rw [hlen, hlit]
    constructor
    · intro hp
      simp only [Bool.and_eq_true, decide_eq_true_eq, beq_iff_eq] at hp
      exact hp.2
    · intro ht
      have hl : 7 ≤ (TrimSpace (ToLower tbl h)).length := by
        by_contra hlt
        have h1 : ((TrimSpace (ToLower tbl h)).take 7).length = 7 := by rw [ht]; rfl
        rw [List.length_take] at h1
        omega
      simp only [Bool.and_eq_true, decide_eq_true_eq, beq_iff_eq]
      exact ⟨hl, ht⟩
  all_goals
    simp [HasBearerToken, ToLower, unicodeToLower, asciiToLower, TrimSpace, trimLeftSpace,
      trimRightSpace, HasPrefix, isSpace]

/-- C3: `HasBearerToken` does not see the case of ASCII letters nor leading white
space: when `h2` is `h1` with the case of ASCII letters changed and `ws` is made
of white space only, `HasBearerToken (ws ++ h2) = HasBearerToken h1`. The case
table of the non-ASCII runes is any table that keeps white space white space,
as the Unicode table does. -/
theorem HasBearerToken_case_space (tbl : Char → Char)
    (htbl : ∀ c : Char, 128 ≤ c.toNat → isSpace c = true → isSpace (tbl c) = true)
    (h1 h2 ws : GoString) (hcase : caseVariant h1 h2 = true)
    (hws : ws.all isSpace = true) :
    HasBearerToken tbl (ws ++ h2) = HasBearerToken tbl h1 := by
  have hlow : (ToLower tbl ws).all isSpace = true := by
    simp only [ToLower, List.all_eq_true, List.mem_map] at hws ⊢
    rintro x ⟨c, hc, rfl⟩
    exact unicodeToLower_isSpace tbl htbl c (hws c hc)
  have happ : ToLower tbl (ws ++ h2) = ToLower tbl ws ++ ToLower tbl h2 := by
    simp [ToLower]
  unfold HasBearerToken
  rw [happ, TrimSpace_append_left _ _ hlow, caseVariant_ToLower tbl h1 h2 hcase]

/-- Witness of C3: the header `bearer x`, its variant `BEARER x` and the white
space blank, blank, tab. -/
theorem HasBearerToken_case_space_witness :
    caseVariant "bearer x".toList "BEARER x".toList = true ∧
    HasBearerToken id ("  \t".toList ++ "BEARER x".toList) =
      HasBearerToken id "bearer x".toList :=
  ⟨by decide,
   HasBearerToken_case_space id (fun _ _ h => h) "bearer x".toList "BEARER x".toList
     "  \t".toList (by decide) (by decide)⟩

/-- C4: `WriteOIDCMismatchResponse` makes three calls on the writer, in this
order: it sets `Content-Type` to `application/json`, writes the status line with
`originalStatusCode`, and encodes a body whose `code` and
`details.originalStatus` are `originalStatusCode` and whose `kind`,
`apiVersion`, `status`, `reason` and `details.errorType` are the fixed texts. -/
theorem WriteOIDCMismatchResponse_calls (o : OIDCMismatchDetector) (originalStatusCode : Int) :
    ∃ body : OIDCMismatchErrorResponse,
      o.WriteOIDCMismatchResponse originalStatusCode =
        [Effect.headerSet "Content-Type".toList "application/json".toList,
         Effect.writeHeader originalStatusCode,
         Effect.encode body] ∧
      (body.toJSON.get "code".toList).bind JSON.asNum = some originalStatusCode ∧
      ((body.toJSON.get "details".toList).bind
        (fun d => (d.get "originalStatus".toList).bind JSON.asNum)) = some originalStatusCode ∧
      (body.toJSON.get "kind".toList).bind JSON.asStr = some "Status".toList ∧
      (body.toJSON.get "apiVersion".toList).bind JSON.asStr = some "v1".toList ∧
      (body.toJSON.get "status".toList).bind JSON.asStr = some "Failure".toList ∧
      (body.toJSON.get "reason".toList).bind JSON.asStr = some "OIDCConfigMismatch".toList ∧
      ((body.toJSON.get "details".toList).bind
        (fun d => (d.get "errorType".toList).bind JSON.asStr)) = some "oidc-mismatch".toList := by
  refine ⟨_, rfl, ?_, ?_, ?_, ?_, ?_, ?_, ?_⟩ <;> rfl

/-! ## The router's mismatch mark -/

/-- The mark of the router after a forward without error: the diagnostic header
is set exactly when the context has an OIDC configuration and the recorded
status is 401 or 403. -/
theorem clusterRequestHandler_mark (env : RouterEnv) (r : Request) (key : GoString)
    (kContext : Context) (status : Int)
    (hkey : env.getContextKeyForRequest r = Except.ok key)
    (hctx : env.GetContext key = Except.ok kContext)
    (hrec : (clusterRequestHandler env r).recorded = some status) :
    (mismatchHeader ∈ (clusterRequestHandler env r).log ↔
      (kContext.OidcConf.isSome = true ∧ (status = 401 ∨ status = 403))) := by
  unfold clusterRequestHandler at hrec ⊢
  simp only [hkey, hctx] at hrec ⊢
  by_cases hE : (kContext.Error != []) = true
  · simp [hE] at hrec
  · simp only [hE] at hrec ⊢
    cases hU : env.urlParse kContext.Server with
    | error e => simp [hU] at hrec
    | ok clusterURL =>
      simp only [hU] at hrec ⊢
      generalize rewriteRequest env clusterURL r = r2 at hrec ⊢
      rcases hP : env.ProxyRequest kContext r2 with ⟨calls, err⟩
      simp only [hP] at hrec ⊢
      cases err with
      | some e => simp at hrec
      | none =>
        simp only [] at hrec ⊢
        generalize (List.foldl captureResponseWriter.record
          { statusCode := StatusOK, hadBody := false } calls).statusCode = sc at hrec ⊢
        by_cases hc : (kContext.OidcConf.isSome &&
            (sc == StatusUnauthorized || sc == StatusForbidden)) = true
        · simp only [hc, if_true, Bool.false_eq_true, if_false, Option.some.injEq] at hrec ⊢
          subst hrec
          simp only [Bool.and_eq_true, Bool.or_eq_true, beq_iff_eq, StatusUnauthorized,
            StatusForbidden] at hc
          simp [mismatchHeader, hc]
        · simp only [hc, if_false, Bool.false_eq_true, Option.some.injEq] at hrec ⊢
          subst hrec
          simp only [Bool.and_eq_true, Bool.or_eq_true, beq_iff_eq, StatusUnauthorized,
            StatusForbidden] at hc
          simp [mismatchHeader, hc]

/-- The header call and the detector: after a forward that returned no error,
the call `w.Header().Set("X-Headlamp-Error", "OIDC_CONFIG_MISMATCH")` is made
exactly when the context has an OIDC configuration and the recorded status is
401 or 403, that is when `DetectMismatch` holds with the bearer flag taken as
true; the outbound `Authorization` header is not consulted. -/
theorem clusterRequestHandler_mark_iff_DetectMismatch_true (env : RouterEnv) (r : Request)
    (key : GoString) (kContext : Context) (status : Int)
    (hkey : env.getContextKeyForRequest r = Except.ok key)
    (hctx : env.GetContext key = Except.ok kContext)
    (hrec : (clusterRequestHandler env r).recorded = some status) :
    (mismatchHeader ∈ (clusterRequestHandler env r).log ↔
      (NewOIDCMismatchDetector kContext.OidcConf.isSome kContext.Name).DetectMismatch
        status true = true) := by
  rw [clusterRequestHandler_mark env r key kContext status hkey hctx hrec]
  simp [OIDCMismatchDetector.DetectMismatch, NewOIDCMismatchDetector, StatusUnauthorized,
    StatusForbidden]

/-- The header call for the sample request, answered 403 by the upstream of an
OIDC cluster. -/
theorem clusterRequestHandler_mark_iff_DetectMismatch_true_witness :
    (clusterRequestHandler (sampleRouterEnv 403) sampleRequest).recorded = some 403 ∧
    (mismatchHeader ∈ (clusterRequestHandler (sampleRouterEnv 403) sampleRequest).log ↔
      (NewOIDCMismatchDetector sampleOidcContext.OidcConf.isSome
        sampleOidcContext.Name).DetectMismatch 403 true = true) :=
  ⟨by decide,
   clusterRequestHandler_mark_iff_DetectMismatch_true (sampleRouterEnv 403) sampleRequest
     "prod".toList sampleOidcContext 403 rfl rfl (by decide)⟩

/-- The header call without a credential: the sample request carries none, so
its outbound `Authorization` header is empty and `HasBearerToken` is false; the
upstream of the OIDC cluster answers 401 without error. The detector reports no
mismatch, and the router makes the header call all the same. -/
theorem clusterRequestHandler_mark_without_bearer :
    (clusterRequestHandler (sampleRouterEnv 401) sampleRequest).recorded = some 401 ∧
    mismatchHeader ∈ (clusterRequestHandler (sampleRouterEnv 401) sampleRequest).log ∧
    (∃ out : Request,
      (clusterRequestHandler (sampleRouterEnv 401) sampleRequest).outbound = some out ∧
      out.Header.Get "Authorization".toList = [] ∧
      (NewOIDCMismatchDetector sampleOidcContext.OidcConf.isSome
        sampleOidcContext.Name).DetectMismatch 401
          (HasBearerToken id (out.Header.Get "Authorization".toList)) = false) := by
  refine ⟨by decide, by decide, rewriteRequest (sampleRouterEnv 401)
    { Scheme := "https".toList, Host := "k8s.example:6443".toList, Path := [] } sampleRequest,
    by decide, by decide, by decide⟩

/-! ## The OAuth state map -/

theorem OauthMap_get_eq_none (m : OauthMap) (s : GoString) :
    m.get s = none ↔ ∀ kv ∈ m, (kv.1 == s) = false := by
  unfold OauthMap.get
  rw [Option.map_eq_none', List.find?_eq_none]
  constructor
  · intro h kv hkv
    simpa using h kv hkv
  · intro h kv hkv
    simpa using h kv hkv

theorem OauthMap_get_delete_self (m : OauthMap) (s : GoString) :
    (m.delete s).get s = none := by
  rw [OauthMap_get_eq_none]
  intro kv hkv
  unfold OauthMap.delete at hkv
  rw [List.mem_filter] at hkv
  simpa using hkv.2

theorem OauthMap_get_delete_of_none (m : OauthMap) (s k : GoString) (h : m.get s = none) :
    (m.delete k).get s = none := by
  rw [OauthMap_get_eq_none] at h ⊢
  intro kv hkv
  unfold OauthMap.delete at hkv
  rw [List.mem_filter] at hkv
  exact h kv hkv.1

theorem OauthMap_get_put_of_none (m : OauthMap) (s k : GoString) (e : OauthConfig)
    (hk : (k == s) = false) (h : m.get s = none) : (m.put k e).get s = none := by
  rw [OauthMap_get_eq_none] at h ⊢
  intro kv hkv
  unfold OauthMap.put at hkv
  rw [List.mem_cons, List.mem_filter] at hkv
  rcases hkv with rfl | hkv
  · exact hk
  · exact h kv hkv.1

theorem oidcCallback_map (config : HeadlampConfig) (env : CallbackEnv) (m : OauthMap)
    (r : Request) :
    (oidcCallback config env m r).1 = m ∨
      (oidcCallback config env m r).1 = m.delete (valuesGet r.Query "state".toList) := by
  unfold oidcCallback
  simp only []
  split
  · exact Or.inl rfl
  · split
    · exact Or.inr rfl
    · exact Or.inl rfl

theorem oidcCallback_rejects (config : HeadlampConfig) (env : CallbackEnv) (m : OauthMap)
    (r : Request) (h : m.get (valuesGet r.Query "state".toList) = none) :
    oidcCallback config env m r =
      (m, [Effect.httpError
            (if valuesGet r.Query "state".toList = [] then
              "invalid request state is empty".toList
             else "invalid request".toList) StatusBadRequest]) := by
  unfold oidcCallback
  simp only []
  by_cases hs : valuesGet r.Query "state".toList = []
  · simp only [hs, if_true]
  · simp only [hs, if_false, h]

theorem runFlow_get_none (config : HeadlampConfig) (s : GoString) :
    ∀ (reqs : List FlowRequest) (m : OauthMap), m.get s = none →
      (∀ q ∈ reqs, q.stores s = false) → (runFlow config m reqs).get s = none
  | [], _, h, _ => h
  | q :: qs, m, h, hq => by
    have hstep : (FlowRequest.apply config m q).get s = none := by
      cases q with
      | redirect state entry =>
        have hne : (state == s) = false := by
          simpa [FlowRequest.stores] using hq (FlowRequest.redirect state entry)
            (List.mem_cons_self _ _)
        exact OauthMap_get_put_of_none m s state entry hne h
      | callback env r =>
        simp only [FlowRequest.apply]
        rcases oidcCallback_map config env m r with h1 | h1
        · rw [h1]; exact h
        · rw [h1]; exact OauthMap_get_delete_of_none m s _ h
    have := runFlow_get_none config s qs (FlowRequest.apply config m q) hstep
      (fun q2 hq2 => hq q2 (List.mem_cons_of_mem _ hq2))
    simpa [runFlow] using this

theorem oidcCallback_get_state_none (config : HeadlampConfig) (env : CallbackEnv)
    (m : OauthMap) (r : Request) (hs : valuesGet r.Query "state".toList ≠ []) :
    ((oidcCallback config env m r).1).get (valuesGet r.Query "state".toList) = none := by
  unfold oidcCallback
  simp only [hs, if_false]
  split
  · exact OauthMap_get_delete_self m _
  · assumption

/-- C6: a callback whose state has no entry in the state map is answered with
400 and the message `invalid request` (`invalid request state is empty` when
the state is empty), leaves the map as it was and makes no token exchange; and
after a callback carrying the state `s`, every later callback carrying `s` is
rejected in this way, whatever requests were served in between, as long as no
redirect among them stored `s` again. -/
theorem oidcCallback_unknown_state_rejected (config : HeadlampConfig) :
    (∀ (env : CallbackEnv) (m : OauthMap) (r : Request),
      m.get (valuesGet r.Query "state".toList) = none →
        oidcCallback config env m r =
          (m, [Effect.httpError
                (if valuesGet r.Query "state".toList = [] then
                  "invalid request state is empty".toList
                 else "invalid request".toList) StatusBadRequest]) ∧
        (oidcCallback config env m r).2.any Effect.isExchange = false) ∧
    (∀ (env1 env2 : CallbackEnv) (m : OauthMap) (r1 r2 : Request) (reqs : List FlowRequest),
      valuesGet r1.Query "state".toList ≠ [] →
      valuesGet r2.Query "state".toList = valuesGet r1.Query "state".toList →
      (∀ q ∈ reqs, q.stores (valuesGet r1.Query "state".toList) = false) →
        oidcCallback config env2 (runFlow config (oidcCallback config env1 m r1).1 reqs) r2 =
          (runFlow config (oidcCallback config env1 m r1).1 reqs,
            [Effect.httpError "invalid request".toList StatusBadRequest])) := by
  constructor
  · intro env m r h
    have hr := oidcCallback_rejects config env m r h
    refine ⟨hr, ?_⟩
    rw [hr]
    rfl
  · intro env1 env2 m r1 r2 reqs hs h12 hreqs
    have h1 := oidcCallback_get_state_none config env1 m r1 hs
    have h2 := runFlow_get_none config _ reqs _ h1 hreqs
    rw [← h12] at h2
    have hr := oidcCallback_rejects config env2 _ r2 h2
    rw [hr, if_neg (by rw [h12]; exact hs)]

/-- Witness of C6: the state `s1` is stored and consumed by a callback that
succeeds; a redirect then stores `s2` and a callback consumes it; the callback
that replays `s1` is rejected. -/
theorem oidcCallback_unknown_state_rejected_witness :
    oidcCallback sampleConfig (sampleCallbackEnv (Except.ok { claimsErr := none }))
        (runFlow sampleConfig
          (oidcCallback sampleConfig (sampleCallbackEnv (Except.ok { claimsErr := none }))
            [("s1".toList, sampleOauthConfig)] (sampleCallback "s1".toList)).1
          [FlowRequest.redirect "s2".toList sampleOauthConfig,
           FlowRequest.callback (sampleCallbackEnv (Except.ok { claimsErr := none }))
             (sampleCallback "s2".toList)])
        (sampleCallback "s1".toList) =
      (runFlow sampleConfig
          (oidcCallback sampleConfig (sampleCallbackEnv (Except.ok { claimsErr := none }))
            [("s1".toList, sampleOauthConfig)] (sampleCallback "s1".toList)).1
          [FlowRequest.redirect "s2".toList sampleOauthConfig,
           FlowRequest.callback (sampleCallbackEnv (Except.ok { claimsErr := none }))
             (sampleCallback "s2".toList)],
        [Effect.httpError "invalid request".toList StatusBadRequest]) :=
  (oidcCallback_unknown_state_rejected sampleConfig).2
    (sampleCallbackEnv (Except.ok { claimsErr := none }))
    (sampleCallbackEnv (Except.ok { claimsErr := none }))
    [("s1".toList, sampleOauthConfig)] (sampleCallback "s1".toList) (sampleCallback "s1".toList)
    [FlowRequest.redirect "s2".toList sampleOauthConfig,
     FlowRequest.callback (sampleCallbackEnv (Except.ok { claimsErr := none }))
       (sampleCallback "s2".toList)]
    (by decide) rfl (by decide)

/-- C7: after a callback with a non-empty state the state map has no entry
under that state, whatever the collaborators answer in the later steps. -/
theorem oidcCallback_state_removed (config : HeadlampConfig) (env : CallbackEnv)
    (m : OauthMap) (r : Request) (hs : valuesGet r.Query "state".toList ≠ []) :
    ((oidcCallback config env m r).1).get (valuesGet r.Query "state".toList) = none := by
  unfold oidcCallback
  simp only [hs, if_false]
  cases hget : OauthMap.get m (valuesGet r.Query "state".toList) with
  | none => exact hget
  | some oauthConfig =>
    simp only []
    rw [OauthMap_get_eq_none]
    intro kv hkv
    unfold OauthMap.delete at hkv
    rw [List.mem_filter] at hkv
    simpa using hkv.2

/-- Witness of C7: the entry under `s1` is gone after a callback whose
verification fails. -/
theorem oidcCallback_state_removed_witness :
    OauthMap.get [("s1".toList, sampleOauthConfig)] "s1".toList = some sampleOauthConfig ∧
    ((oidcCallback sampleConfig (sampleCallbackEnv (Except.error "bad signature".toList))
        [("s1".toList, sampleOauthConfig)] (sampleCallback "s1".toList)).1).get
      (valuesGet (sampleCallback "s1".toList).Query "state".toList) = none :=
  ⟨by decide,
   oidcCallback_state_removed sampleConfig (sampleCallbackEnv (Except.error "bad signature".toList))
     [("s1".toList, sampleOauthConfig)] (sampleCallback "s1".toList) (by decide)⟩

/-! ## Failure and ordering in the callback and the refresh path -/

theorem oidcCallbackExchange_cases (config : HeadlampConfig) (env : CallbackEnv)
    (oauthConfig : OauthConfig) (r : Request) :
    (callbackStepFails config env oauthConfig r = true ∧
      ∃ code cv msg,
        (oidcCallbackExchange config env oauthConfig r =
          [Effect.exchange code cv, Effect.httpError msg StatusInternalServerError]) ∨
        (∃ key value, env.CacheSet key value ≠ none ∧
          oidcCallbackExchange config env oauthConfig r =
            [Effect.exchange code cv, Effect.cacheSet key value,
             Effect.httpError msg StatusInternalServerError]) ∨
        (∃ raw value, env.CacheSet ("oidc-token-".toList ++ raw) value = none ∧
          (oidcCallbackExchange config env oauthConfig r =
            [Effect.exchange code cv, Effect.cacheSet ("oidc-token-".toList ++ raw) value,
             Effect.verify raw, Effect.httpError msg StatusInternalServerError] ∨
           oidcCallbackExchange config env oauthConfig r =
            [Effect.exchange code cv, Effect.cacheSet ("oidc-token-".toList ++ raw) value,
             Effect.verify raw, Effect.claims,
             Effect.httpError msg StatusInternalServerError]))) ∨
    (callbackStepFails config env oauthConfig r = false ∧
      ∃ code cv raw value,
        env.CacheSet ("oidc-token-".toList ++ raw) value = none ∧
        oidcCallbackExchange config env oauthConfig r =
          [Effect.exchange code cv, Effect.cacheSet ("oidc-token-".toList ++ raw) value,
           Effect.verify raw, Effect.claims,
           Effect.setTokenCookie oauthConfig.Cluster raw config.BaseURL,
           Effect.httpRedirect (callbackRedirectURL config oauthConfig.Cluster)
             StatusSeeOther]) := by
  unfold callbackStepFails oidcCallbackExchange
  simp only []
  cases hx : env.Exchange oauthConfig.Config (valuesGet r.Query "code".toList)
      (if (config.OidcUsePKCE && oauthConfig.CodeVerifier != []) = true then
        some oauthConfig.CodeVerifier else none) with
  | error err => exact Or.inl ⟨rfl, _, _, _, Or.inl rfl⟩
  | ok tok =>
    simp only []
    cases hf : tok.extraString
        (if config.OidcUseAccessToken = true then "access_token".toList
          else "id_token".toList) with
    | none => exact Or.inl ⟨rfl, _, _, _, Or.inl rfl⟩
    | some raw =>
      simp only []
      cases hc : env.CacheSet ("oidc-token-".toList ++ raw) tok.RefreshToken with
      | some err =>
        exact Or.inl ⟨rfl, _, _, _, Or.inr (Or.inl ⟨_, _, by rw [hc]; simp, rfl⟩)⟩
      | none =>
        simp only []
        cases hv : env.Verify oauthConfig.Verifier raw with
        | error err =>
          exact Or.inl ⟨rfl, _, _, _, Or.inr (Or.inr ⟨raw, _, hc, Or.inl rfl⟩)⟩
        | ok idToken =>
          simp only []
          cases hcl : idToken.claimsErr with
          | some err =>
            exact Or.inl ⟨rfl, _, _, _, Or.inr (Or.inr ⟨raw, _, hc, Or.inr rfl⟩)⟩
          | none =>
            exact Or.inr ⟨rfl, _, _, raw, _, hc, rfl⟩

/-- C8, as the code has it: when a step of the callback fails, the flow-state
entry is removed, the handler answers 500 as its last action, and no auth cookie
is set; the cache holds no `oidc-token-` entry of this request exactly when the
verifier was not reached, that is when the exchange, the token field or the
caching itself failed. -/
theorem oidcCallback_failure_state (config : HeadlampConfig) (env : CallbackEnv)
    (m : OauthMap) (r : Request) (oauthConfig : OauthConfig)
    (hs : valuesGet r.Query "state".toList ≠ [])
    (hget : m.get (valuesGet r.Query "state".toList) = some oauthConfig)
    (hfail : callbackStepFails config env oauthConfig r = true) :
    (oidcCallback config env m r).1 = m.delete (valuesGet r.Query "state".toList) ∧
    (∃ msg, (oidcCallback config env m r).2.getLast? =
      some (Effect.httpError msg StatusInternalServerError)) ∧
    (oidcCallback config env m r).2.any Effect.isSetTokenCookie = false ∧
    (cacheWrites env (oidcCallback config env m r).2 = [] ↔
      (oidcCallback config env m r).2.any Effect.isVerify = false) := by
  have hrun : oidcCallback config env m r =
      (m.delete (valuesGet r.Query "state".toList),
        oidcCallbackExchange config env oauthConfig r) := by
    unfold oidcCallback
    simp only [hs, if_false, hget]
  rw [hrun]
  refine ⟨rfl, ?_⟩
  rcases oidcCallbackExchange_cases config env oauthConfig r with
    ⟨_, code, cv, msg, hlog⟩ | ⟨hok, _⟩
  · rcases hlog with hlog | ⟨key, value, hset, hlog⟩ | ⟨raw, value, hset, hlog | hlog⟩
    · simp only [hlog]
      refine ⟨⟨msg, rfl⟩, rfl, ?_⟩
      simp [cacheWrites, Effect.isVerify]
    · simp only [hlog]
      refine ⟨⟨msg, rfl⟩, rfl, ?_⟩
      have hnone : (env.CacheSet key value).isNone = false := by
        cases hcs : env.CacheSet key value with
        | none => exact absurd hcs hset
        | some _ => rfl
      simp [cacheWrites, Effect.isVerify, hnone]
    · generalize "oidc-token-".toList ++ raw = key at hset hlog
      simp only [hlog]
      refine ⟨⟨msg, rfl⟩, rfl, ?_⟩
      simp [cacheWrites, Effect.isVerify, hset]
    · generalize "oidc-token-".toList ++ raw = key at hset hlog
      simp only [hlog]
      refine ⟨⟨msg, rfl⟩, rfl, ?_⟩
      simp [cacheWrites, Effect.isVerify, hset]
  · rw [hok] at hfail
    exact absurd hfail (by decide)

/-- Witness of C8: the cache refuses the entry, so the callback fails at the
caching step. -/
theorem oidcCallback_failure_state_witness :
    callbackStepFails sampleConfig
      { sampleCallbackEnv (Except.ok { claimsErr := none }) with
        CacheSet := fun _ _ => some "cache is full".toList }
      sampleOauthConfig (sampleCallback "s1".toList) = true ∧
    cacheWrites
      { sampleCallbackEnv (Except.ok { claimsErr := none }) with
        CacheSet := fun _ _ => some "cache is full".toList }
      (oidcCallback sampleConfig
        { sampleCallbackEnv (Except.ok { claimsErr := none }) with
          CacheSet := fun _ _ => some "cache is full".toList }
        [("s1".toList, sampleOauthConfig)] (sampleCallback "s1".toList)).2 = [] :=
  ⟨by decide,
   (oidcCallback_failure_state sampleConfig
      { sampleCallbackEnv (Except.ok { claimsErr := none }) with
        CacheSet := fun _ _ => some "cache is full".toList }
      [("s1".toList, sampleOauthConfig)] (sampleCallback "s1".toList) sampleOauthConfig
      (by decide) (by decide) (by decide)).2.2.2.mpr (by decide)⟩

/-- Counterexample to C8 as stated: the exchange yields the identity token `tok`,
the cache takes the entry `oidc-token-tok`, and then the verifier rejects the
token. The handler answers 500, and the cache entry has been written. -/
theorem oidcCallback_verify_failure_leaves_cache_entry :
    callbackStepFails sampleConfig (sampleCallbackEnv (Except.error "bad signature".toList))
      sampleOauthConfig (sampleCallback "s1".toList) = true ∧
    (oidcCallback sampleConfig (sampleCallbackEnv (Except.error "bad signature".toList))
      [("s1".toList, sampleOauthConfig)] (sampleCallback "s1".toList)).2 =
      [Effect.exchange "abc".toList none,
       Effect.cacheSet "oidc-token-tok".toList "ref".toList,
       Effect.verify "tok".toList,
       Effect.httpError "Failed to verify ID Token: bad signature".toList
         StatusInternalServerError] ∧
    cacheWrites (sampleCallbackEnv (Except.error "bad signature".toList))
      (oidcCallback sampleConfig (sampleCallbackEnv (Except.error "bad signature".toList))
        [("s1".toList, sampleOauthConfig)] (sampleCallback "s1".toList)).2 =
      ["oidc-token-tok".toList] := by
  refine ⟨by decide, by decide, by decide⟩

theorem oidcCallback_log (config : HeadlampConfig) (env : CallbackEnv) (m : OauthMap)
    (r : Request) :
    (∃ msg, (oidcCallback config env m r).2 = [Effect.httpError msg StatusBadRequest]) ∨
    (∃ oauthConfig, (oidcCallback config env m r).2 =
      oidcCallbackExchange config env oauthConfig r) := by
  unfold oidcCallback
  simp only []
  split
  · exact Or.inl ⟨_, rfl⟩
  · split
    · exact Or.inr ⟨_, rfl⟩
    · exact Or.inl ⟨_, rfl⟩

theorem refreshAndSetToken_cases (c : HeadlampConfig) (env : MiddlewareEnv)
    (oidcAuthConfig : OidcConfig) (token cluster : GoString) :
    ∃ tokenType issuer,
      ((refreshAndSetToken c env oidcAuthConfig token cluster).log =
          [Effect.refreshAndCacheNewToken tokenType token issuer]) ∨
      (∃ newToken newTokenString,
        env.RefreshAndCacheNewToken oidcAuthConfig tokenType token issuer =
          (some newToken, none) ∧
        refreshAndSetToken c env oidcAuthConfig token cluster =
          { log := [Effect.refreshAndCacheNewToken tokenType token issuer,
                    Effect.setTokenCookie cluster newTokenString c.BaseURL],
            panicked := false }) := by
  unfold refreshAndSetToken
  simp only []
  refine ⟨if c.OidcUseAccessToken = true then "access_token".toList else "id_token".toList,
    if c.OidcIdpIssuerURL = [] then oidcAuthConfig.IdpIssuerURL else c.OidcIdpIssuerURL, ?_⟩
  rcases hres : env.RefreshAndCacheNewToken oidcAuthConfig
      (if c.OidcUseAccessToken = true then "access_token".toList else "id_token".toList) token
      (if c.OidcIdpIssuerURL = [] then oidcAuthConfig.IdpIssuerURL else c.OidcIdpIssuerURL)
    with ⟨tok, err⟩
  cases err with
  | some e =>
    cases tok with
    | none => exact Or.inl rfl
    | some _ => exact Or.inl rfl
  | none =>
    cases tok with
    | none => exact Or.inl rfl
    | some newToken =>
      simp only []
      cases hf : newToken.extraString
          (if c.OidcUseAccessToken = true then "access_token".toList
            else "id_token".toList) with
      | none => exact Or.inl rfl
      | some str => exact Or.inr ⟨newToken, str, rfl, rfl⟩

/-- C9: in the callback an auth cookie for a token is set only after
`Cache.Set` of the key `oidc-token-` followed by that token has been called and
has returned no error; in the refresh path a cookie is set only after
`RefreshAndCacheNewToken` has returned a token and no error; and when a
`Cache.Set` call of the callback returns an error, or the refresh returns an
error or no token, no cookie is set. -/
theorem setTokenCookie_only_after_cache (config : HeadlampConfig) (env : CallbackEnv)
    (m : OauthMap) (r : Request) (menv : MiddlewareEnv) (oidcAuthConfig : OidcConfig)
    (token cluster : GoString) :
    (∀ cl tk b, Effect.setTokenCookie cl tk b ∈ (oidcCallback config env m r).2 →
      ∃ refresh pre post,
        (oidcCallback config env m r).2 = pre ++ Effect.setTokenCookie cl tk b :: post ∧
        Effect.cacheSet ("oidc-token-".toList ++ tk) refresh ∈ pre ∧
        env.CacheSet ("oidc-token-".toList ++ tk) refresh = none) ∧
    (∀ cl tk b, Effect.setTokenCookie cl tk b ∈
        (refreshAndSetToken config menv oidcAuthConfig token cluster).log →
      ∃ newToken tokenType issuer,
        menv.RefreshAndCacheNewToken oidcAuthConfig tokenType token issuer =
          (some newToken, none) ∧
        (refreshAndSetToken config menv oidcAuthConfig token cluster).log =
          [Effect.refreshAndCacheNewToken tokenType token issuer,
           Effect.setTokenCookie cl tk b]) ∧
    (∀ key value, Effect.cacheSet key value ∈ (oidcCallback config env m r).2 →
      env.CacheSet key value ≠ none →
        (oidcCallback config env m r).2.any Effect.isSetTokenCookie = false) ∧
    (∀ tokenType issuer,
      Effect.refreshAndCacheNewToken tokenType token issuer ∈
        (refreshAndSetToken config menv oidcAuthConfig token cluster).log →
      ((menv.RefreshAndCacheNewToken oidcAuthConfig tokenType token issuer).2 ≠ none ∨
        (menv.RefreshAndCacheNewToken oidcAuthConfig tokenType token issuer).1 = none) →
        (refreshAndSetToken config menv oidcAuthConfig token cluster).log.any
          Effect.isSetTokenCookie = false) := by
  refine ⟨?_, ?_, ?_, ?_⟩
  · intro cl tk b hmem
    rcases oidcCallback_log config env m r with ⟨msg, hlog⟩ | ⟨oc, hlog⟩
    · rw [hlog] at hmem
      simp at hmem
    · rw [hlog] at hmem ⊢
      rcases oidcCallbackExchange_cases config env oc r with
        ⟨_, code, cv, msg, hx⟩ | ⟨_, code, cv, raw, value, hset, hx⟩
      · rcases hx with hx | ⟨key, value, _, hx⟩ | ⟨raw, value, _, hx | hx⟩ <;>
          · rw [hx] at hmem
            simp at hmem
      · rw [hx] at hmem ⊢
        simp only [List.mem_cons, List.mem_singleton, Effect.setTokenCookie.injEq,
          List.not_mem_nil, or_false, false_or, reduceCtorEq] at hmem
        obtain ⟨rfl, rfl, rfl⟩ := hmem
        exact ⟨value,
          [Effect.exchange code cv, Effect.cacheSet ("oidc-token-".toList ++ tk) value,
            Effect.verify tk, Effect.claims],
          [Effect.httpRedirect (callbackRedirectURL config oc.Cluster) StatusSeeOther],
          rfl, List.mem_cons_of_mem _ (List.mem_cons_self _ _), hset⟩
  · intro cl tk b hmem
    rcases refreshAndSetToken_cases config menv oidcAuthConfig token cluster with
      ⟨tokenType, issuer, hlog | ⟨newToken, str, hres, hrun⟩⟩
    · rw [hlog] at hmem
      simp at hmem
    · rw [hrun] at hmem ⊢
      simp only [List.mem_cons, List.mem_singleton, Effect.setTokenCookie.injEq,
        List.not_mem_nil, or_false, false_or, reduceCtorEq] at hmem
      obtain ⟨rfl, rfl, rfl⟩ := hmem
      exact ⟨newToken, tokenType, issuer, hres, rfl⟩
  · intro key value hmem herr
    rcases oidcCallback_log config env m r with ⟨msg, hlog⟩ | ⟨oc, hlog⟩
    · rw [hlog]; rfl
    · rw [hlog] at hmem ⊢
      rcases oidcCallbackExchange_cases config env oc r with
        ⟨_, code, cv, msg, hx⟩ | ⟨_, code, cv, raw, value2, hset, hx⟩
      · rcases hx with hx | ⟨key2, value2, _, hx⟩ | ⟨raw, value2, _, hx | hx⟩ <;>
          · rw [hx]; rfl
      · rw [hx] at hmem
        simp only [List.mem_cons, List.mem_singleton, Effect.cacheSet.injEq,
          List.not_mem_nil, or_false, false_or, reduceCtorEq] at hmem
        obtain ⟨rfl, rfl⟩ := hmem
        exact absurd hset herr
  · intro tokenType issuer hmem hbad
    rcases refreshAndSetToken_cases config menv oidcAuthConfig token cluster with
      ⟨tokenType2, issuer2, hlog | ⟨newToken, str, hres, hrun⟩⟩
    · rw [hlog]; rfl
    · rw [hrun] at hmem
      simp only [List.mem_cons, List.mem_singleton, Effect.refreshAndCacheNewToken.injEq,
        List.not_mem_nil, or_false, reduceCtorEq, true_and] at hmem
      obtain ⟨rfl, rfl⟩ := hmem
      rw [hres] at hbad
      simp at hbad

/-- Witness of C9: in the callback that succeeds for the state `s1`, the cookie
for `tok` comes after the accepted cache write of `oidc-token-tok`. -/
theorem setTokenCookie_only_after_cache_witness :
    ∃ refresh pre post,
      (oidcCallback sampleConfig (sampleCallbackEnv (Except.ok { claimsErr := none }))
          [("s1".toList, sampleOauthConfig)] (sampleCallback "s1".toList)).2 =
        pre ++ Effect.setTokenCookie "prod".toList "tok".toList [] :: post ∧
      Effect.cacheSet ("oidc-token-".toList ++ "tok".toList) refresh ∈ pre ∧
      (sampleCallbackEnv (Except.ok { claimsErr := none })).CacheSet
        ("oidc-token-".toList ++ "tok".toList) refresh = none :=
  (setTokenCookie_only_after_cache sampleConfig
      (sampleCallbackEnv (Except.ok { claimsErr := none }))
      [("s1".toList, sampleOauthConfig)] (sampleCallback "s1".toList)
      (sampleMiddlewareEnv (none, none))
      { ClientID := [], ClientSecret := [], IdpIssuerURL := [], Scopes := [] }
      "old".toList "prod".toList).1
    "prod".toList "tok".toList [] (by decide)

/-! ## The refresh middleware -/

theorem refreshAndSetToken_countNext (c : HeadlampConfig) (env : MiddlewareEnv)
    (oidcAuthConfig : OidcConfig) (token cluster : GoString) :
    countNext (refreshAndSetToken c env oidcAuthConfig token cluster).log = 0 := by
  rcases refreshAndSetToken_cases c env oidcAuthConfig token cluster with
    ⟨tokenType, issuer, hlog | ⟨newToken, str, _, hrun⟩⟩
  · rw [hlog]; rfl
  · rw [hrun]; rfl

theorem OIDCTokenRefreshMiddleware_cases (c : HeadlampConfig) (env : MiddlewareEnv)
    (r : Request) :
    OIDCTokenRefreshMiddleware c env r = { log := [Effect.next], panicked := false } ∨
    (∃ oidcAuthConfig token cluster,
      (refreshAndSetToken c env oidcAuthConfig token cluster).panicked = true ∧
      OIDCTokenRefreshMiddleware c env r =
        refreshAndSetToken c env oidcAuthConfig token cluster) ∨
    (∃ oidcAuthConfig token cluster,
      (refreshAndSetToken c env oidcAuthConfig token cluster).panicked = false ∧
      OIDCTokenRefreshMiddleware c env r =
        { log := (refreshAndSetToken c env oidcAuthConfig token cluster).log ++ [Effect.next],
          panicked := false }) := by
  unfold OIDCTokenRefreshMiddleware
  simp only []
  repeat' split
  all_goals first
    | exact Or.inl rfl
    | (refine Or.inr (Or.inl ⟨_, _, _, ?_, rfl⟩); assumption)
    | (refine Or.inr (Or.inr ⟨_, _, _, ?_, rfl⟩); exact Bool.eq_false_iff.mpr (by assumption))

theorem OIDCTokenRefreshMiddleware_next_count (c : HeadlampConfig) (env : MiddlewareEnv)
    (r : Request) :
    countNext (OIDCTokenRefreshMiddleware c env r).log =
      if (OIDCTokenRefreshMiddleware c env r).panicked then 0 else 1 := by
  rcases OIDCTokenRefreshMiddleware_cases c env r with
    h | ⟨oidcAuthConfig, token, cluster, hp, h⟩ | ⟨oidcAuthConfig, token, cluster, hp, h⟩
  · rw [h]; rfl
  · rw [h, hp, refreshAndSetToken_countNext]; rfl
  · rw [h]
    have h0 := refreshAndSetToken_countNext c env oidcAuthConfig token cluster
    simp only [countNext, List.count_append] at h0 ⊢
    rw [h0]
    rfl

/-- C10 fails on the code: the request is a cluster request whose token is about
to expire, and the refresh returns, without error, a token that has no string
field `id_token`. The unchecked type assertion of `refreshAndSetToken` panics,
and the handler ends without having called `next`. -/
theorem OIDCTokenRefreshMiddleware_panics_before_next :
    OIDCTokenRefreshMiddleware sampleConfig
        (sampleMiddlewareEnv
          (some { Extra := [("access_token".toList, "new".toList)],
                  RefreshToken := "ref2".toList }, none))
        sampleRequest =
      { log := [Effect.refreshAndCacheNewToken "id_token".toList "old".toList
                  "https://idp.example".toList],
        panicked := true } ∧
    countNext (OIDCTokenRefreshMiddleware sampleConfig
        (sampleMiddlewareEnv
          (some { Extra := [("access_token".toList, "new".toList)],
                  RefreshToken := "ref2".toList }, none))
        sampleRequest).log = 0 := by
  refine ⟨by decide, by decide⟩

theorem refreshAndSetToken_head (c : HeadlampConfig) (env : MiddlewareEnv)
    (oidcAuthConfig : OidcConfig) (token cluster : GoString) :
    (refreshAndSetToken c env oidcAuthConfig token cluster).log.any Effect.isRefresh = true := by
  rcases refreshAndSetToken_cases c env oidcAuthConfig token cluster with
    ⟨tokenType, issuer, hlog | ⟨newToken, str, _, hrun⟩⟩
  · rw [hlog]; rfl
  · rw [hrun]; rfl

theorem OIDCTokenRefreshMiddleware_decision (c : HeadlampConfig) (env : MiddlewareEnv)
    (r : Request) :
    (refreshConditions env r ∧
      (OIDCTokenRefreshMiddleware c env r).log.any Effect.isRefresh = true) ∨
    (¬ refreshConditions env r ∧
      OIDCTokenRefreshMiddleware c env r = { log := [Effect.next], panicked := false }) := by
  unfold OIDCTokenRefreshMiddleware refreshConditions
  simp only []
  by_cases h1 : HasPrefix (env.URLString r) "/clusters/".toList = true
  · simp only [h1, Bool.not_true, Bool.false_eq_true, if_false, true_and]
    by_cases h2 : (env.ParseClusterAndToken r).1 = [] ∨ (env.ParseClusterAndToken r).2 = []
    · simp only [h2, if_true]
      refine Or.inr ⟨?_, by first | rfl | trivial⟩
      rintro ⟨ha, hb, _⟩
      rcases h2 with h2 | h2
      · exact ha h2
      · exact hb h2
    · simp only [h2, if_false]
      have h2a : (env.ParseClusterAndToken r).1 ≠ [] := fun h => h2 (Or.inl h)
      have h2b : (env.ParseClusterAndToken r).2 ≠ [] := fun h => h2 (Or.inr h)
      cases hg : env.GetContext (env.ParseClusterAndToken r).1 with
      | error e =>
        refine Or.inr ⟨?_, rfl⟩
        rintro ⟨_, _, k, hk, _⟩
        cases hk
      | ok kContext =>
        simp only []
        cases ho : env.OidcConfig kContext with
        | error e =>
          refine Or.inr ⟨?_, rfl⟩
          rintro ⟨_, _, k, hk, o, ho2, _⟩
          cases hk
          rw [ho] at ho2
          cases ho2
        | ok oidcAuthConfig =>
          simp only []
          by_cases h3 : env.IsTokenAboutToExpire (env.ParseClusterAndToken r).2 = true
          · simp only [h3, Bool.not_true, Bool.false_eq_true, if_false]
            refine Or.inl ⟨⟨h2a, h2b, kContext, rfl, oidcAuthConfig, ho, by first | rfl | trivial⟩, ?_⟩
            have hh := refreshAndSetToken_head c env oidcAuthConfig
              (env.ParseClusterAndToken r).2 (env.ParseClusterAndToken r).1
            by_cases hp : (refreshAndSetToken c env oidcAuthConfig
                (env.ParseClusterAndToken r).2 (env.ParseClusterAndToken r).1).panicked = true
            · simp only [hp, if_true]
              exact hh
            · simp only [hp, if_false, Bool.false_eq_true, List.any_append, hh, Bool.true_or]
          · have h3f : env.IsTokenAboutToExpire (env.ParseClusterAndToken r).2 = false :=
              Bool.eq_false_iff.mpr h3
            simp only [h3f, Bool.not_false, if_true]
            refine Or.inr ⟨?_, by first | rfl | trivial⟩
            rintro ⟨_, _, k, hk, o, _, h5⟩
            cases h5
  · have h1f : HasPrefix (env.URLString r) "/clusters/".toList = false :=
      Bool.eq_false_iff.mpr h1
    simp only [h1f, Bool.not_false, if_true]
    refine Or.inr ⟨?_, by first | rfl | trivial⟩
    rintro ⟨h, _⟩
    cases h

/-- C11: the middleware calls `RefreshAndCacheNewToken` exactly when the URL
starts with `/clusters/`, cluster and token are non-empty, the store finds the
context, the context yields an OIDC configuration and the token is about to
expire; in every other case its only action is the call of `next`, so that no
cookie is set and the cache is not touched. -/
theorem OIDCTokenRefreshMiddleware_refresh_iff (c : HeadlampConfig) (env : MiddlewareEnv)
    (r : Request) :
    ((OIDCTokenRefreshMiddleware c env r).log.any Effect.isRefresh = true ↔
      refreshConditions env r) ∧
    (¬ refreshConditions env r →
      OIDCTokenRefreshMiddleware c env r = { log := [Effect.next], panicked := false } ∧
      (OIDCTokenRefreshMiddleware c env r).log.any Effect.isSetTokenCookie = false ∧
      (OIDCTokenRefreshMiddleware c env r).log.any Effect.isCacheSet = false) := by
  rcases OIDCTokenRefreshMiddleware_decision c env r with ⟨hc, hr⟩ | ⟨hc, hrun⟩
  · exact ⟨⟨fun _ => hc, fun _ => hr⟩, fun hn => absurd hc hn⟩
  · refine ⟨⟨fun h => ?_, fun h => absurd h hc⟩, fun _ => ?_⟩
    · rw [hrun] at h
      exact absurd h (by decide)
    · rw [hrun]
      exact ⟨rfl, rfl, rfl⟩

/-! ## The backend token -/

/-- C15: `checkHeadlampBackendToken` returns nil exactly when the server runs in
in-cluster mode, or the secret `HEADLAMP_BACKEND_TOKEN` is non-empty and equal to
the request header `X-HEADLAMP_BACKEND-TOKEN`; then it writes nothing. In every
other case, an empty or unset secret included, it writes 403 `access denied` and
returns an error. -/
theorem checkHeadlampBackendToken_nil_iff (c : HeadlampConfig) (backendTokenEnv : GoString)
    (r : Request) :
    ((checkHeadlampBackendToken c backendTokenEnv r).2 = none ↔
      (c.UseInCluster = true ∨
        (backendTokenEnv ≠ [] ∧
          r.Header.Get "X-HEADLAMP_BACKEND-TOKEN".toList = backendTokenEnv))) ∧
    ((checkHeadlampBackendToken c backendTokenEnv r).2 = none →
      (checkHeadlampBackendToken c backendTokenEnv r).1 = []) ∧
    ((checkHeadlampBackendToken c backendTokenEnv r).2 ≠ none →
      (checkHeadlampBackendToken c backendTokenEnv r).1 =
        [Effect.httpError "access denied".toList StatusForbidden]) ∧
    (c.UseInCluster = false → backendTokenEnv = [] →
      (checkHeadlampBackendToken c backendTokenEnv r).2 ≠ none) := by
  unfold checkHeadlampBackendToken
  simp only []
  by_cases hin : c.UseInCluster = true
  · simp [hin]
  · have hin2 : c.UseInCluster = false := Bool.eq_false_iff.mpr hin
    by_cases hbad : (r.Header.Get "X-HEADLAMP_BACKEND-TOKEN".toList != backendTokenEnv ||
        backendTokenEnv == []) = true
    · simp only [hin2, Bool.false_eq_true, if_false, hbad, if_true]
      refine ⟨?_, ?_, ?_, ?_⟩
      · simp only [reduceCtorEq, false_or, false_iff, not_and]
        intro hne heq
        simp only [Bool.or_eq_true, bne_iff_ne, ne_eq, beq_iff_eq] at hbad
        rcases hbad with h | h
        · exact h heq
        · exact hne h
      · intro h; cases h
      · intro _; trivial
      · intro _ _ h; cases h
    · simp only [hin2, Bool.false_eq_true, if_false, hbad]
      refine ⟨?_, ?_, ?_, ?_⟩
      · simp only [Bool.or_eq_true, bne_iff_ne, ne_eq, beq_iff_eq, not_or, not_not] at hbad
        simp only [false_or, true_iff]
        exact ⟨hbad.2, hbad.1⟩
      · intro _; trivial
      · intro h; exact absurd rfl h
      · intro _ he
        simp only [Bool.or_eq_true, bne_iff_ne, ne_eq, beq_iff_eq, not_or, not_not] at hbad
        exact absurd he hbad.2

/-! ## Cluster names and the cluster list -/

theorem appendCustomNames_mem (env : AdminEnv) (currentName x : GoString) :
    ∀ (contexts : List (GoString × ApiContext)) (contextNames : List GoString),
      x ∈ appendCustomNames env currentName contexts contextNames ↔
        (x ∈ contextNames ∨
          ∃ kv ∈ contexts, ∃ info,
            mapGet kv.2.Extensions "headlamp_info".toList = some info ∧
            (env.MarshalCustomObject info currentName).1.CustomName ≠ [] ∧
            (env.MarshalCustomObject info currentName).1.CustomName = x)
  | [], contextNames => by
    unfold appendCustomNames
    constructor
    · intro h
      exact Or.inl h
    · rintro (h | ⟨kv, hkv, _⟩)
      · exact h
      · cases hkv
  | y :: rest, contextNames => by
    unfold appendCustomNames
    cases hget : mapGet y.2.Extensions "headlamp_info".toList with
    | none =>
      simp only []
      rw [appendCustomNames_mem env currentName x rest contextNames]
      constructor
      · rintro (h | ⟨kv, hkv, info, h1, h2⟩)
        · exact Or.inl h
        · exact Or.inr ⟨kv, List.mem_cons_of_mem _ hkv, info, h1, h2⟩
      · rintro (h | ⟨kv, hkv, info, h1, h2⟩)
        · exact Or.inl h
        · rcases List.mem_cons.mp hkv with rfl | hkv
          · rw [hget] at h1; cases h1
          · exact Or.inr ⟨kv, hkv, info, h1, h2⟩
    | some info0 =>
      simp only []
      by_cases hne : ((env.MarshalCustomObject info0 currentName).1.CustomName != []) = true
      · simp only [hne, if_true]
        rw [appendCustomNames_mem env currentName x rest _]
        have hne2 : (env.MarshalCustomObject info0 currentName).1.CustomName ≠ [] := by
          simpa using hne
        constructor
        · rintro (h | ⟨kv, hkv, info, h1, h2⟩)
          · rcases List.mem_append.mp h with h | h
            · exact Or.inl h
            · rw [List.mem_singleton] at h
              exact Or.inr ⟨y, List.mem_cons_self _ _, info0, hget, hne2, h.symm⟩
          · exact Or.inr ⟨kv, List.mem_cons_of_mem _ hkv, info, h1, h2⟩
        · rintro (h | ⟨kv, hkv, info, h1, h2, h3⟩)
          · exact Or.inl (List.mem_append.mpr (Or.inl h))
          · rcases List.mem_cons.mp hkv with rfl | hkv
            · rw [hget] at h1
              cases h1
              exact Or.inl (List.mem_append.mpr (Or.inr (List.mem_singleton.mpr h3.symm)))
            · exact Or.inr ⟨kv, hkv, info, h1, h2, h3⟩
      · simp only [hne, if_false, Bool.false_eq_true]
        rw [appendCustomNames_mem env currentName x rest contextNames]
        have hne2 : (env.MarshalCustomObject info0 currentName).1.CustomName = [] := by
          simpa using hne
        constructor
        · rintro (h | ⟨kv, hkv, info, h1, h2⟩)
          · exact Or.inl h
          · exact Or.inr ⟨kv, List.mem_cons_of_mem _ hkv, info, h1, h2⟩
        · rintro (h | ⟨kv, hkv, info, h1, h2, h3⟩)
          · exact Or.inl h
          · rcases List.mem_cons.mp hkv with rfl | hkv
            · rw [hget] at h1
              cases h1
              exact absurd hne2 h2
            · exact Or.inr ⟨kv, hkv, info, h1, h2, h3⟩

theorem appendCustomNames_congr (env : AdminEnv) (n1 n2 : GoString)
    (hm : ∀ info, (env.MarshalCustomObject info n1).1 = (env.MarshalCustomObject info n2).1) :
    ∀ (contexts : List (GoString × ApiContext)) (contextNames : List GoString),
      appendCustomNames env n1 contexts contextNames =
        appendCustomNames env n2 contexts contextNames
  | [], _ => rfl
  | y :: rest, contextNames => by
    unfold appendCustomNames
    cases hget : mapGet y.2.Extensions "headlamp_info".toList with
    | none =>
      simp only []
      exact appendCustomNames_congr env n1 n2 hm rest contextNames
    | some info0 =>
      simp only [hm info0]
      split
      · exact appendCustomNames_congr env n1 n2 hm rest _
      · exact appendCustomNames_congr env n1 n2 hm rest _

/-- C17: `CheckUniqueName` returns false exactly when `newName` is the key of a
context or the non-empty `CustomName` that `MarshalCustomObject` reads from the
`headlamp_info` extension of a context, and true otherwise; and when
`MarshalCustomObject` gives the same object whatever context name it is handed,
`currentName` does not enter the result. -/
theorem CheckUniqueName_false_iff (env : AdminEnv) (contexts : List (GoString × ApiContext))
    (currentName newName : GoString) :
    (CheckUniqueName env contexts currentName newName = false ↔
      ((∃ kv ∈ contexts, kv.1 = newName) ∨
        ∃ kv ∈ contexts, ∃ info,
          mapGet kv.2.Extensions "headlamp_info".toList = some info ∧
          (env.MarshalCustomObject info currentName).1.CustomName ≠ [] ∧
          (env.MarshalCustomObject info currentName).1.CustomName = newName)) ∧
    ((∀ info n1 n2,
        (env.MarshalCustomObject info n1).1 = (env.MarshalCustomObject info n2).1) →
      ∀ otherName,
        CheckUniqueName env contexts otherName newName =
          CheckUniqueName env contexts currentName newName) := by
  constructor
  · unfold CheckUniqueName
    simp only []
    rw [Bool.eq_false_iff, ne_eq, List.all_eq_true]
    simp only [Bool.not_eq_true', beq_eq_false_iff_ne, ne_eq, not_forall, not_not,
      exists_prop]
    constructor
    · rintro ⟨x, hx, rfl⟩
      rcases (appendCustomNames_mem env currentName x contexts _).mp hx with h | h
      · rw [List.mem_map] at h
        obtain ⟨kv, hkv, rfl⟩ := h
        exact Or.inl ⟨kv, hkv, rfl⟩
      · exact Or.inr h
    · rintro (⟨kv, hkv, rfl⟩ | h)
      · exact ⟨kv.1, (appendCustomNames_mem env currentName kv.1 contexts _).mpr
          (Or.inl (List.mem_map.mpr ⟨kv, hkv, rfl⟩)), rfl⟩
      · exact ⟨newName, (appendCustomNames_mem env currentName newName contexts _).mpr
          (Or.inr h), rfl⟩
  · intro hm otherName
    unfold CheckUniqueName
    simp only []
    rw [appendCustomNames_congr env otherName currentName (fun info => hm info _ _)]

theorem getClustersLoop_acc (env : AdminEnv) (x : Cluster) :
    ∀ (contexts : List Context) (clusters : List Cluster),
      x ∈ clusters → x ∈ getClustersLoop env contexts clusters
  | [], _, h => h
  | context :: rest, clusters, h => by
    unfold getClustersLoop
    split
    · exact getClustersLoop_acc env x rest _ (List.mem_append.mpr (Or.inl h))
    · split
      · exact getClustersLoop_acc env x rest _ h
      · split
        · exact getClustersLoop_acc env x rest _ h
        · exact getClustersLoop_acc env x rest _ (List.mem_append.mpr (Or.inl h))

theorem getClustersLoop_failed (env : AdminEnv) (ctx : Context) (herr : ctx.Error ≠ []) :
    ∀ (contexts : List Context) (clusters : List Cluster), ctx ∈ contexts →
      ({ Name := ctx.Name, Error := ctx.Error } : Cluster) ∈
        getClustersLoop env contexts clusters
  | [], _, h => by cases h
  | context :: rest, clusters, h => by
    rcases List.mem_cons.mp h with rfl | h
    · unfold getClustersLoop
      have hb : (ctx.Error != []) = true := by simpa using herr
      simp only [hb, if_true]
      exact getClustersLoop_acc env _ rest _
        (List.mem_append.mpr (Or.inr (List.mem_singleton.mpr rfl)))
    · unfold getClustersLoop
      split
      · exact getClustersLoop_failed env ctx herr rest _ h
      · split
        · exact getClustersLoop_failed env ctx herr rest _ h
        · split
          · exact getClustersLoop_failed env ctx herr rest _ h
          · exact getClustersLoop_failed env ctx herr rest _ h

/-- C20: when the store returns its contexts without error, every context with
a non-empty `Error` has an entry with its `Name` and that `Error` in the result
of `getClusters`, and so in the cluster list that `getConfig` encodes. -/
theorem getClusters_lists_failed {σ : Type} (K : StoreOps σ) (c : HeadlampConfig)
    (env : AdminEnv) (store : σ) (contexts : List Context)
    (hget : K.GetContexts store = Except.ok contexts) (ctx : Context)
    (hmem : ctx ∈ contexts) (herr : ctx.Error ≠ []) :
    ({ Name := ctx.Name, Error := ctx.Error } : Cluster) ∈ getClusters K env store ∧
    ∃ clusters dyn, AdminEffect.encodeConfig clusters dyn ∈ getConfig K c env store ∧
      ({ Name := ctx.Name, Error := ctx.Error } : Cluster) ∈ clusters := by
  have h1 : ({ Name := ctx.Name, Error := ctx.Error } : Cluster) ∈ getClusters K env store := by
    unfold getClusters
    rw [hget]
    exact getClustersLoop_failed env ctx herr contexts [] hmem
  refine ⟨h1, getClusters K env store, c.EnableDynamicClusters, ?_, h1⟩
  unfold getConfig
  exact List.mem_cons_of_mem _ (List.mem_cons_self _ _)

theorem checkHeadlampBackendToken_log (c : HeadlampConfig) (backendTokenEnv : GoString)
    (r : Request) (hbad : (checkHeadlampBackendToken c backendTokenEnv r).2 ≠ none) :
    (checkHeadlampBackendToken c backendTokenEnv r).1 =
      [Effect.httpError "access denied".toList StatusForbidden] := by
  unfold checkHeadlampBackendToken at hbad ⊢
  simp only [] at hbad ⊢
  split at hbad
  · exact absurd rfl hbad
  · split at hbad
    · rename_i h1 h2
      simp only [h1, if_false, h2, if_true, Bool.false_eq_true]
    · exact absurd rfl hbad

/-- Witness of C17: in a kubeconfig whose context `prod` carries the custom name
`blue`, the name `blue` is taken, whatever the current name. -/
theorem CheckUniqueName_false_iff_witness :
    CheckUniqueName
      (sampleAdminEnv { NewClusterName := [], Source := [], Stateless := false })
      sampleCustomContexts
      "other".toList "blue".toList = false ∧
    CheckUniqueName
      (sampleAdminEnv { NewClusterName := [], Source := [], Stateless := false })
      sampleCustomContexts
      "other".toList "blue".toList =
    CheckUniqueName
      (sampleAdminEnv { NewClusterName := [], Source := [], Stateless := false })
      sampleCustomContexts
      "prod".toList "blue".toList :=
  ⟨by decide,
   (CheckUniqueName_false_iff
      (sampleAdminEnv { NewClusterName := [], Source := [], Stateless := false })
      sampleCustomContexts
      "prod".toList "blue".toList).2 (fun _ _ _ => rfl) "other".toList⟩

/-- Witness of C20: the store holds a usable context and one whose setup failed;
the failed one is listed with its error. -/
theorem getClusters_lists_failed_witness :
    ({ Name := "broken".toList, Error := "no such host".toList } : Cluster) ∈
      getClusters specStore
        (sampleAdminEnv { NewClusterName := [], Source := [], Stateless := false })
        [sampleOidcContext, sampleFailedContext] :=
  (getClusters_lists_failed specStore sampleConfig
    (sampleAdminEnv { NewClusterName := [], Source := [], Stateless := false })
    [sampleOidcContext, sampleFailedContext] [sampleOidcContext, sampleFailedContext] rfl
    sampleFailedContext (by decide) (by decide)).1

/-! ## The backend token in the cluster-management handlers -/

theorem addCluster_rejected {σ : Type} (K : StoreOps σ) (c : HeadlampConfig) (env : AdminEnv)
    (store : σ) (r : Request)
    (hbad : (checkHeadlampBackendToken c env.backendTokenEnv r).2 ≠ none) :
    (addCluster K c env store r).store = store ∧
    (addCluster K c env store r).log =
      [AdminEffect.w (Effect.httpError "access denied".toList StatusForbidden)] := by
  have hlog := (checkHeadlampBackendToken_log c env.backendTokenEnv r hbad)
  unfold addCluster
  rcases hchk : checkHeadlampBackendToken c env.backendTokenEnv r with ⟨log, err⟩
  rw [hchk] at hbad hlog
  cases err with
  | none => exact absurd rfl hbad
  | some e =>
    simp only [] at hlog ⊢
    rw [hlog]
    exact ⟨trivial, rfl⟩

theorem deleteCluster_rejected {σ : Type} (K : StoreOps σ) (c : HeadlampConfig)
    (env : AdminEnv) (store : σ) (r : Request)
    (hbad : (checkHeadlampBackendToken c env.backendTokenEnv r).2 ≠ none) :
    (deleteCluster K c env store r).store = store ∧
    (deleteCluster K c env store r).log =
      [AdminEffect.w (Effect.httpError "access denied".toList StatusForbidden)] := by
  have hlog := (checkHeadlampBackendToken_log c env.backendTokenEnv r hbad)
  unfold deleteCluster
  rcases hchk : checkHeadlampBackendToken c env.backendTokenEnv r with ⟨log, err⟩
  rw [hchk] at hbad hlog
  cases err with
  | none => exact absurd rfl hbad
  | some e =>
    simp only [] at hlog ⊢
    rw [hlog]
    exact ⟨trivial, rfl⟩

/-- C16 fails on the code for rename: the server is outside in-cluster mode with
the secret `s3cret`, the store holds the context `prod`, and a stateless rename
of `prod` arrives with the header value `wrong`. The token check rejects this
header, but `renameCluster` never runs the check: it removes `prod` from the
store and answers 201. -/
theorem renameCluster_ignores_backend_token :
    (checkHeadlampBackendToken sampleConfig "s3cret".toList
      (sampleAdminRequest "PUT".toList "prod".toList "wrong".toList)).2 ≠ none ∧
    (renameCluster specStore sampleConfig
      (sampleAdminEnv { NewClusterName := "blue".toList, Source := [], Stateless := true })
      [sampleOidcContext]
      (sampleAdminRequest "PUT".toList "prod".toList "wrong".toList)).store = [] ∧
    (renameCluster specStore sampleConfig
      (sampleAdminEnv { NewClusterName := "blue".toList, Source := [], Stateless := true })
      [sampleOidcContext]
      (sampleAdminRequest "PUT".toList "prod".toList "wrong".toList)).log =
      [AdminEffect.removeContext "prod".toList,
       AdminEffect.w (Effect.writeHeader StatusCreated),
       AdminEffect.w (Effect.headerSet "Content-Type".toList "application/json".toList),
       AdminEffect.encodeConfig [] false] := by
  refine ⟨by decide, by decide, by decide⟩

/-! ## Name collisions and the persistence step -/

/-- Name collisions in `handleClusterRename` and `addCluster`. Rename through
`handleClusterRename`: when the new name is not unique, the
handler answers 400 `custom name already in use` and does nothing else, so no
file is written and the store is as before. Add with a base64 kubeconfig: when
the store rejects a loaded context the handler answers 400, as its last action,
after the actions of `processKubeConfig` and the calls on the store; and
`processKubeConfig` has written the submitted kubeconfig to disk whenever it
loaded without context load errors and the file steps went through. -/
theorem name_collision_responses {σ : Type} (K : StoreOps σ) (c : HeadlampConfig)
    (env : AdminEnv) (store : σ) :
    (∀ (clusterName : GoString) (reqBody : RenameClusterRequest) (path : GoString)
        (config : ApiConfig),
      getPathAndLoadKubeconfig c env reqBody.Source = Except.ok (path, config) →
      CheckUniqueName env config.Contexts clusterName reqBody.NewClusterName = false →
        (handleClusterRename K c env store clusterName reqBody).run.store = store ∧
        (handleClusterRename K c env store clusterName reqBody).run.log =
          [AdminEffect.w (Effect.httpError "custom name already in use".toList
            StatusBadRequest)]) ∧
    (∀ (r : Request) (clusterReq : ClusterReq) (kubeConfig : GoString),
      (checkHeadlampBackendToken c env.backendTokenEnv r).2 = none →
      decodeClusterRequest env r = Except.ok clusterReq →
      clusterReq.KubeConfig = some kubeConfig →
      (processKubeConfig env kubeConfig).1 ≠ [] →
      (addContextsToStore K (processKubeConfig env kubeConfig).1 store
        (processKubeConfig env kubeConfig).2.1 []).2.1 ≠ [] →
        (addCluster K c env store r).log =
          (processKubeConfig env kubeConfig).2.2 ++
            (addContextsToStore K (processKubeConfig env kubeConfig).1 store
              (processKubeConfig env kubeConfig).2.1 []).2.2 ++
            [AdminEffect.w (Effect.httpError "setting up contexts from kubeconfig".toList
              StatusBadRequest)] ∧
        (addCluster K c env store r).store =
          (addContextsToStore K (processKubeConfig env kubeConfig).1 store
            (processKubeConfig env kubeConfig).2.1 []).1) ∧
    (∀ (kubeConfig : GoString) (bytes : List Nat) (config : ApiConfig) (dir : GoString),
      (env.LoadContextsFromBase64String kubeConfig).2.1 = [] →
      env.StdDecodeString kubeConfig = Except.ok bytes →
      env.clientcmdLoad bytes = Except.ok config →
      env.MakeHeadlampKubeConfigsDir = Except.ok dir →
        (processKubeConfig env kubeConfig).2.2 =
          [AdminEffect.makeKubeConfigsDir, AdminEffect.kubeconfigWriteToFile config dir]) := by
  refine ⟨?_, ?_, ?_⟩
  · intro clusterName reqBody path config hload huniq
    unfold handleClusterRename
    simp only [hload, huniq, Bool.not_false, if_true]
    exact ⟨trivial, trivial⟩
  · intro r clusterReq kubeConfig hchk hdec hkc hne herr
    unfold addCluster
    rcases hc : checkHeadlampBackendToken c env.backendTokenEnv r with ⟨log, err⟩
    rw [hc] at hchk
    simp only [] at hchk
    subst hchk
    simp only [hdec]
    have hproc : processClusterRequest env clusterReq = processKubeConfig env kubeConfig := by
      unfold processClusterRequest
      rw [hkc]
    rw [hproc]
    have hlen : ¬ (processKubeConfig env kubeConfig).1.length = 0 := by
      intro h
      exact hne (List.length_eq_zero.mp h)
    have hpos : (addContextsToStore K (processKubeConfig env kubeConfig).1 store
        (processKubeConfig env kubeConfig).2.1 []).2.1.length > 0 := by
      exact List.length_pos.mpr herr
    simp only [hlen, if_false, hpos, if_true]
    exact ⟨trivial, trivial⟩
  · intro kubeConfig bytes config dir hnoerr hdec hload hdir
    unfold processKubeConfig writeKubeConfig
    simp only [hnoerr, List.length_nil, if_true, hdec, hload, hdir]
    cases env.kubeconfigWriteToFile config dir <;> rfl

/-- A rename of `other` to `prod`, a name that is a key of the kubeconfig,
through `handleClusterRename`. -/
theorem name_collision_responses_witness :
    (handleClusterRename specStore sampleConfig
      (sampleAdminEnv { NewClusterName := "prod".toList, Source := "kubeconfig".toList,
                        Stateless := false })
      [sampleOidcContext] "other".toList
      { NewClusterName := "prod".toList, Source := "kubeconfig".toList,
        Stateless := false }).run.store = [sampleOidcContext] ∧
    (handleClusterRename specStore sampleConfig
      (sampleAdminEnv { NewClusterName := "prod".toList, Source := "kubeconfig".toList,
                        Stateless := false })
      [sampleOidcContext] "other".toList
      { NewClusterName := "prod".toList, Source := "kubeconfig".toList,
        Stateless := false }).run.log =
      [AdminEffect.w (Effect.httpError "custom name already in use".toList StatusBadRequest)] :=
  (name_collision_responses specStore sampleConfig
    (sampleAdminEnv { NewClusterName := "prod".toList, Source := "kubeconfig".toList,
                      Stateless := false })
    [sampleOidcContext]).1 "other".toList
    { NewClusterName := "prod".toList, Source := "kubeconfig".toList, Stateless := false }
    [] sampleApiConfig rfl (by decide)

/-- C18 fails on the code, in three runs. Add: the store holds `prod`, and a
kubeconfig with a context `prod` is submitted with the right backend token; the
store rejects the context and the answer is 400, but the kubeconfig file has
been written before the store was asked. Add with two contexts: the kubeconfig
loads as `ghost` and `prod`; the file is written, `ghost` is added to the store,
`prod` is rejected, and the answer is 400 with the store changed. Stateless
rename: the store holds `prod` and `ghost`, and `ghost` is renamed to `prod`, a
name in use; the name is never checked, `ghost` is removed from the store and
the answer is 201. -/
theorem name_collision_partial_writes :
    ((addCluster specStore sampleConfig
      (sampleAdminEnv { NewClusterName := [], Source := [], Stateless := false })
      [sampleOidcContext]
      (sampleAdminRequest "POST".toList [] "s3cret".toList)).log =
      [AdminEffect.makeKubeConfigsDir,
       AdminEffect.kubeconfigWriteToFile sampleApiConfig
         "/home/user/.config/Headlamp/kubeconfigs".toList,
       AdminEffect.addContext { sampleOidcContext with Source := ContextSource.DynamicCluster },
       AdminEffect.w (Effect.httpError "setting up contexts from kubeconfig".toList
         StatusBadRequest)] ∧
     (specStore.AddContext [sampleOidcContext]
       { sampleOidcContext with Source := ContextSource.DynamicCluster }).2 =
       some "context already exists".toList) ∧
    ((addCluster specStore sampleConfig sampleTwoContextsAddEnv [sampleOidcContext]
      (sampleAdminRequest "POST".toList [] "s3cret".toList)).log =
      [AdminEffect.makeKubeConfigsDir,
       AdminEffect.kubeconfigWriteToFile sampleApiConfig
         "/home/user/.config/Headlamp/kubeconfigs".toList,
       AdminEffect.addContext { sampleGhostContext with Source := ContextSource.DynamicCluster },
       AdminEffect.addContext { sampleOidcContext with Source := ContextSource.DynamicCluster },
       AdminEffect.w (Effect.httpError "setting up contexts from kubeconfig".toList
         StatusBadRequest)] ∧
     (addCluster specStore sampleConfig sampleTwoContextsAddEnv [sampleOidcContext]
      (sampleAdminRequest "POST".toList [] "s3cret".toList)).store =
      [sampleOidcContext,
       { sampleGhostContext with Source := ContextSource.DynamicCluster }]) ∧
    (CheckUniqueName (sampleAdminEnv sampleStatelessRename) sampleApiConfig.Contexts
      "ghost".toList sampleStatelessRename.NewClusterName = false ∧
     (renameCluster specStore sampleConfig (sampleAdminEnv sampleStatelessRename)
      [sampleOidcContext, sampleGhostContext]
      (sampleAdminRequest "PUT".toList "ghost".toList "s3cret".toList)).store =
      [sampleOidcContext] ∧
     (renameCluster specStore sampleConfig (sampleAdminEnv sampleStatelessRename)
      [sampleOidcContext, sampleGhostContext]
      (sampleAdminRequest "PUT".toList "ghost".toList "s3cret".toList)).log =
      [AdminEffect.removeContext "ghost".toList,
       AdminEffect.w (Effect.writeHeader StatusCreated),
       AdminEffect.w (Effect.headerSet "Content-Type".toList "application/json".toList),
       AdminEffect.encodeConfig (getClusters specStore (sampleAdminEnv sampleStatelessRename)
         [sampleOidcContext]) false]) := by
  refine ⟨⟨by decide, by decide⟩, ⟨by decide, by decide⟩, by decide, by decide, by decide⟩

theorem handleClusterRename_write_fails {σ : Type} (K : StoreOps σ) (c : HeadlampConfig)
    (env : AdminEnv) (store : σ) (clusterName : GoString) (reqBody : RenameClusterRequest)
    (path : GoString) (config : ApiConfig) (e : GoString)
    (hload : getPathAndLoadKubeconfig c env reqBody.Source = Except.ok (path, config))
    (huniq : CheckUniqueName env config.Contexts clusterName reqBody.NewClusterName = true)
    (hwrite : (customNameToExtenstions env config
      (findMatchingContextName env config clusterName) reqBody.NewClusterName path).2.2 =
        some e) :
    (handleClusterRename K c env store clusterName reqBody).run.store = store ∧
    (handleClusterRename K c env store clusterName reqBody).run.log.any
      AdminEffect.isStoreWrite = false ∧
    (handleClusterRename K c env store clusterName reqBody).run.log.getLast? =
      some (AdminEffect.w (Effect.httpError e StatusInternalServerError)) ∧
    (handleClusterRename K c env store clusterName reqBody).err = some e := by
  unfold handleClusterRename
  simp only [hload, huniq, Bool.not_true, Bool.false_eq_true, if_false, hwrite]
  refine ⟨trivial, ?_, ?_, trivial⟩
  · unfold customNameToExtenstions
    split <;> simp [handleError, AdminEffect.isStoreWrite]
  · simp [handleError]

/-- C19 fails on the code when the context is not in the kubeconfig: the store
holds `ghost`, the kubeconfig file lists only `prod`, and `ghost` is renamed to
`blue`. `customNameToExtenstions` finds no context `ghost`, writes nothing and
returns nil, so `handleClusterRename` goes on: it removes `ghost` from the
store, adds the contexts of the file and answers 201. -/
theorem handleClusterRename_context_missing_goes_on :
    customNameToExtenstions
      (sampleAdminEnv { NewClusterName := "blue".toList, Source := "kubeconfig".toList,
                        Stateless := false })
      sampleApiConfig "ghost".toList "blue".toList [] = (sampleApiConfig, [], none) ∧
    (handleClusterRename specStore sampleConfig
      (sampleAdminEnv { NewClusterName := "blue".toList, Source := "kubeconfig".toList,
                        Stateless := false })
      [sampleGhostContext] "ghost".toList
      { NewClusterName := "blue".toList, Source := "kubeconfig".toList,
        Stateless := false }).run.store = [sampleOidcContext] ∧
    (handleClusterRename specStore sampleConfig
      (sampleAdminEnv { NewClusterName := "blue".toList, Source := "kubeconfig".toList,
                        Stateless := false })
      [sampleGhostContext] "ghost".toList
      { NewClusterName := "blue".toList, Source := "kubeconfig".toList,
        Stateless := false }).run.log =
      [AdminEffect.removeContext "ghost".toList,
       AdminEffect.addContext sampleOidcContext,
       AdminEffect.w (Effect.writeHeader StatusCreated),
       AdminEffect.w (Effect.headerSet "Content-Type".toList "application/json".toList),
       AdminEffect.encodeConfig (getClusters specStore
         (sampleAdminEnv { NewClusterName := "blue".toList, Source := "kubeconfig".toList,
                           Stateless := false }) [sampleOidcContext]) false] ∧
    (handleClusterRename specStore sampleConfig
      (sampleAdminEnv { NewClusterName := "blue".toList, Source := "kubeconfig".toList,
                        Stateless := false })
      [sampleGhostContext] "ghost".toList
      { NewClusterName := "blue".toList, Source := "kubeconfig".toList,
        Stateless := false }).err = none := by
  refine ⟨by decide, by decide, by decide, by decide⟩

/-! ## Header map lemmas -/

theorem find?_filter_of_imp {α : Type} (p q : α → Bool)
    (h : ∀ x, q x = true → p x = true) :
    ∀ l : List α, (l.filter p).find? q = l.find? q
  | [] => rfl
  | x :: xs => by
    by_cases hp : p x = true
    · rw [List.filter_cons_of_pos hp]
      by_cases hq : q x = true
      · rw [List.find?_cons_of_pos _ hq, List.find?_cons_of_pos _ hq]
      · rw [List.find?_cons_of_neg _ hq, List.find?_cons_of_neg _ hq]
        exact find?_filter_of_imp p q h xs
    · rw [List.filter_cons_of_neg hp]
      have hq : ¬ q x = true := fun hq => hp (h x hq)
      rw [List.find?_cons_of_neg _ hq]
      exact find?_filter_of_imp p q h xs

theorem Header_Get_canon (h : Header) (k1 k2 : GoString)
    (hk : CanonicalMIMEHeaderKey k1 = CanonicalMIMEHeaderKey k2) : h.Get k1 = h.Get k2 := by
  unfold Header.Get
  rw [hk]

theorem Header_find_Set (h : Header) (k1 k2 value : GoString)
    (hk : CanonicalMIMEHeaderKey k1 = CanonicalMIMEHeaderKey k2) :
    (h.Set k1 value).find? (fun kv => kv.1 == CanonicalMIMEHeaderKey k2) =
      some (CanonicalMIMEHeaderKey k1, [value]) := by
  unfold Header.Set
  rw [List.find?_cons_of_pos]
  simp [hk]

theorem Header_Get_Set (h : Header) (k1 k2 value : GoString)
    (hk : CanonicalMIMEHeaderKey k1 = CanonicalMIMEHeaderKey k2) :
    (h.Set k1 value).Get k2 = value := by
  unfold Header.Get
  rw [Header_find_Set h k1 k2 value hk]
  rfl

theorem Header_find_Set_ne (h : Header) (k1 k2 value : GoString)
    (hk : CanonicalMIMEHeaderKey k1 ≠ CanonicalMIMEHeaderKey k2) :
    (h.Set k1 value).find? (fun kv => kv.1 == CanonicalMIMEHeaderKey k2) =
      h.find? (fun kv => kv.1 == CanonicalMIMEHeaderKey k2) := by
  unfold Header.Set
  rw [List.find?_cons_of_neg]
  · apply find?_filter_of_imp
    intro x hx
    have hx2 : x.1 = CanonicalMIMEHeaderKey k2 := by simpa using hx
    simp only [Bool.not_eq_true', beq_eq_false_iff_ne, ne_eq]
    intro h1
    exact hk (h1.symm.trans hx2)
  · simpa using hk

theorem Header_Get_Set_ne (h : Header) (k1 k2 value : GoString)
    (hk : CanonicalMIMEHeaderKey k1 ≠ CanonicalMIMEHeaderKey k2) :
    (h.Set k1 value).Get k2 = h.Get k2 := by
  unfold Header.Get
  rw [Header_find_Set_ne h k1 k2 value hk]

theorem Header_find_Del (h : Header) (k1 k2 : GoString)
    (hk : CanonicalMIMEHeaderKey k1 = CanonicalMIMEHeaderKey k2) :
    (h.Del k1).find? (fun kv => kv.1 == CanonicalMIMEHeaderKey k2) = none := by
  unfold Header.Del
  rw [List.find?_eq_none]
  intro x hx
  rw [List.mem_filter] at hx
  rw [← hk]
  simpa using hx.2

theorem Header_Get_Del (h : Header) (k1 k2 : GoString)
    (hk : CanonicalMIMEHeaderKey k1 = CanonicalMIMEHeaderKey k2) :
    (h.Del k1).Get k2 = [] := by
  unfold Header.Get
  rw [Header_find_Del h k1 k2 hk]

theorem Header_Get_Del_ne (h : Header) (k1 k2 : GoString)
    (hk : CanonicalMIMEHeaderKey k1 ≠ CanonicalMIMEHeaderKey k2) :
    (h.Del k1).Get k2 = h.Get k2 := by
  unfold Header.Get Header.Del
  rw [find?_filter_of_imp]
  intro x hx
  have hx2 : x.1 = CanonicalMIMEHeaderKey k2 := by simpa using hx
  simp only [Bool.not_eq_true', beq_eq_false_iff_ne, ne_eq]
  intro h1
  exact hk (h1.symm.trans hx2)

/-! ## WebSocket sub-protocols -/

theorem processProtocols_snd (env : RouterEnv) :
    ∀ (protocols : List GoString) (r : Request) (validProtocols : List GoString),
      (processProtocols env r validProtocols protocols).2 =
        validProtocols ++
          (protocols.map TrimSpace).filter (fun p => !HasPrefix p bearerTokenPrefix)
  | [], r, validProtocols => by simp [processProtocols]
  | protocol :: rest, r, validProtocols => by
    unfold processProtocols
    simp only []
    by_cases hp : HasPrefix (TrimSpace protocol) bearerTokenPrefix = true
    · simp only [hp, if_true]
      rw [processProtocols_snd env rest]
      simp [hp]
    · have hp2 : HasPrefix (TrimSpace protocol) bearerTokenPrefix = false :=
        Bool.eq_false_iff.mpr hp
      simp only [hp2, Bool.false_eq_true, if_false]
      rw [processProtocols_snd env rest]
      simp [hp2]

/-- C12: when the value of `Sec-WebSocket-Protocol` is non-empty, the header
after `processWebSocketProtocolHeader` holds the single value made of the
comma-separated, trimmed sub-protocols that do not start with the token prefix,
in their order and joined by comma and blank; none of them has the prefix; and
when none is left the header has no entry at all. -/
theorem processWebSocketProtocolHeader_keeps (env : RouterEnv) (r : Request)
    (hv : r.Header.Get "Sec-WebSocket-Protocol".toList ≠ []) :
    (∀ p ∈ keptProtocols (r.Header.Get "Sec-WebSocket-Protocol".toList),
      HasPrefix p bearerTokenPrefix = false) ∧
    (keptProtocols (r.Header.Get "Sec-WebSocket-Protocol".toList) ≠ [] →
      (processWebSocketProtocolHeader env r).Header.find?
          (fun kv => kv.1 == CanonicalMIMEHeaderKey "Sec-WebSocket-Protocol".toList) =
        some (CanonicalMIMEHeaderKey "Sec-WebSocket-Protocol".toList,
          [joinCommaSpace (keptProtocols (r.Header.Get "Sec-WebSocket-Protocol".toList))]) ∧
      (processWebSocketProtocolHeader env r).Header.Get "Sec-WebSocket-Protocol".toList =
        joinCommaSpace (keptProtocols (r.Header.Get "Sec-WebSocket-Protocol".toList))) ∧
    (keptProtocols (r.Header.Get "Sec-WebSocket-Protocol".toList) = [] →
      (processWebSocketProtocolHeader env r).Header.find?
          (fun kv => kv.1 == CanonicalMIMEHeaderKey "Sec-WebSocket-Protocol".toList) = none ∧
      (processWebSocketProtocolHeader env r).Header.Get "Sec-WebSocket-Protocol".toList =
        []) := by
  have hcanon : CanonicalMIMEHeaderKey "Sec-Websocket-Protocol".toList =
      CanonicalMIMEHeaderKey "Sec-WebSocket-Protocol".toList := by decide
  have hget : r.Header.Get "Sec-Websocket-Protocol".toList =
      r.Header.Get "Sec-WebSocket-Protocol".toList := Header_Get_canon _ _ _ hcanon
  generalize hval : r.Header.Get "Sec-WebSocket-Protocol".toList = value at hv hget
  have hsnd := processProtocols_snd env (splitComma value) r []
  rw [List.nil_append] at hsnd
  refine ⟨?_, ?_, ?_⟩
  · intro p hp
    unfold keptProtocols at hp
    rw [List.mem_filter] at hp
    simpa using hp.2
  · intro hkept
    have hlen : (keptProtocols value).length > 0 := List.length_pos.mpr hkept
    unfold processWebSocketProtocolHeader
    simp only [hget, hv, if_false, hsnd]
    unfold keptProtocols at hlen hkept ⊢
    simp only [hlen, if_true]
    exact ⟨Header_find_Set _ _ _ _ rfl, Header_Get_Set _ _ _ _ rfl⟩
  · intro hkept
    unfold processWebSocketProtocolHeader
    simp only [hget, hv, if_false, hsnd]
    unfold keptProtocols at hkept
    simp only [hkept, List.length_nil, gt_iff_lt, lt_self_iff_false, if_false]
    exact ⟨Header_find_Del _ _ _ rfl, Header_Get_Del _ _ _ rfl⟩

/-- Witness of C12: of the channel protocol and the token protocol, the channel
protocol is kept. -/
theorem processWebSocketProtocolHeader_keeps_witness :
    keptProtocols (sampleWebSocketRequest.Header.Get "Sec-WebSocket-Protocol".toList) =
      ["v4.channel.k8s.io".toList] ∧
    (processWebSocketProtocolHeader (base64RouterEnv asciiString)
        sampleWebSocketRequest).Header.Get "Sec-WebSocket-Protocol".toList =
      joinCommaSpace
        (keptProtocols (sampleWebSocketRequest.Header.Get "Sec-WebSocket-Protocol".toList)) :=
  ⟨by decide,
   ((processWebSocketProtocolHeader_keeps (base64RouterEnv asciiString) sampleWebSocketRequest
      (by decide)).2.1 (by decide)).2⟩

/-! ## Credential precedence -/

theorem processTokenProtocol_of_auth (env : RouterEnv) (r : Request)
    (protocol tokenPrefix : GoString) (h : r.Header.Get "Authorization".toList ≠ []) :
    processTokenProtocol env r protocol tokenPrefix = r := by
  unfold processTokenProtocol
  have hb : (r.Header.Get "Authorization".toList != []) = true := by simpa using h
  simp only [hb, if_true]

theorem processProtocols_fst_of_auth (env : RouterEnv) :
    ∀ (protocols : List GoString) (r : Request) (validProtocols : List GoString),
      r.Header.Get "Authorization".toList ≠ [] →
        (processProtocols env r validProtocols protocols).1 = r
  | [], _, _, _ => rfl
  | protocol :: rest, r, validProtocols, h => by
    unfold processProtocols
    simp only []
    split
    · rw [processTokenProtocol_of_auth env r _ _ h]
      exact processProtocols_fst_of_auth env rest r validProtocols h
    · exact processProtocols_fst_of_auth env rest r _ h

theorem processWebSocketProtocolHeader_auth (env : RouterEnv) (r : Request)
    (h : r.Header.Get "Authorization".toList ≠ []) :
    (processWebSocketProtocolHeader env r).Header.Get "Authorization".toList =
      r.Header.Get "Authorization".toList := by
  have hne : CanonicalMIMEHeaderKey "Sec-WebSocket-Protocol".toList ≠
      CanonicalMIMEHeaderKey "Authorization".toList := by decide
  unfold processWebSocketProtocolHeader
  simp only []
  split
  · rfl
  · rw [processProtocols_fst_of_auth env _ r [] h]
    split
    · exact Header_Get_Set_ne _ _ _ _ hne
    · exact Header_Get_Del_ne _ _ _ hne

theorem rewriteTarget_auth (env : RouterEnv) (clusterURL : URL) (r : Request) :
    (rewriteTarget env clusterURL r).Header.Get "Authorization".toList =
      r.Header.Get "Authorization".toList := by
  have h1 : CanonicalMIMEHeaderKey "X-Forwarded-Host".toList ≠
      CanonicalMIMEHeaderKey "Authorization".toList := by decide
  have h2 : CanonicalMIMEHeaderKey "User-Agent".toList ≠
      CanonicalMIMEHeaderKey "Authorization".toList := by decide
  unfold rewriteTarget
  simp only []
  split
  · simp only []
    rw [Header_Get_Del_ne _ _ _ h2, Header_Get_Set_ne _ _ _ _ h1]
  · simp only []
    rw [Header_Get_Set_ne _ _ _ _ h1]

theorem rewriteRequest_steps (env : RouterEnv) (clusterURL : URL) (r : Request) :
    rewriteRequest env clusterURL r =
      processWebSocketProtocolHeader env
        (setCookieCredential env (rewriteTarget env clusterURL r)) := rfl

/-- C14: the outbound `Authorization` header after the credential resolution
of the router. With a non-empty token from the auth cookie it is `Bearer ` and
that token, whatever came in. Without one, a non-empty inbound header is kept.
And `processTokenProtocol` leaves the request alone whenever `Authorization` is
already set, so the whole WebSocket step keeps an `Authorization` that is set. -/
theorem credential_precedence (env : RouterEnv) (clusterURL : URL) (r : Request) :
    (∀ token,
      env.GetTokenFromCookie (rewriteTarget env clusterURL r)
        (valuesGet (rewriteTarget env clusterURL r).Vars "clusterName".toList) =
          Except.ok token →
      token ≠ [] →
        (rewriteRequest env clusterURL r).Header.Get "Authorization".toList =
          "Bearer ".toList ++ token) ∧
    ((∀ token,
        env.GetTokenFromCookie (rewriteTarget env clusterURL r)
          (valuesGet (rewriteTarget env clusterURL r).Vars "clusterName".toList) =
            Except.ok token → token = []) →
      r.Header.Get "Authorization".toList ≠ [] →
        (rewriteRequest env clusterURL r).Header.Get "Authorization".toList =
          r.Header.Get "Authorization".toList) ∧
    (∀ (q : Request) (protocol tokenPrefix : GoString),
      q.Header.Get "Authorization".toList ≠ [] →
        processTokenProtocol env q protocol tokenPrefix = q) ∧
    (∀ q : Request, q.Header.Get "Authorization".toList ≠ [] →
      (processWebSocketProtocolHeader env q).Header.Get "Authorization".toList =
        q.Header.Get "Authorization".toList) := by
  refine ⟨?_, ?_, ?_, ?_⟩
  · intro token hcookie hne
    rw [rewriteRequest_steps]
    have hset : setCookieCredential env (rewriteTarget env clusterURL r) =
        { rewriteTarget env clusterURL r with
          Header := (rewriteTarget env clusterURL r).Header.Set "Authorization".toList
            ("Bearer ".toList ++ token) } := by
      unfold setCookieCredential
      have hb : (token != []) = true := by simpa using hne
      simp only [hcookie, hb, if_true]
    have hget : (setCookieCredential env (rewriteTarget env clusterURL r)).Header.Get
        "Authorization".toList = "Bearer ".toList ++ token := by
      rw [hset]
      exact Header_Get_Set _ _ _ _ rfl
    rw [processWebSocketProtocolHeader_auth env _ (by rw [hget]; simp), hget]
  · intro hcookie hin
    rw [rewriteRequest_steps]
    have hset : setCookieCredential env (rewriteTarget env clusterURL r) =
        rewriteTarget env clusterURL r := by
      unfold setCookieCredential
      cases hc : env.GetTokenFromCookie (rewriteTarget env clusterURL r)
          (valuesGet (rewriteTarget env clusterURL r).Vars "clusterName".toList) with
      | error e => rfl
      | ok token =>
        have ht := hcookie token hc
        subst ht
        rfl
    rw [hset, processWebSocketProtocolHeader_auth env _
      (by rw [rewriteTarget_auth]; exact hin), rewriteTarget_auth]
  · intro q protocol tokenPrefix h
    exact processTokenProtocol_of_auth env q protocol tokenPrefix h
  · intro q h
    exact processWebSocketProtocolHeader_auth env q h

/-- Witness of C14: the inbound request carries `Authorization: Basic abc` and a
token sub-protocol, and there is no auth cookie; the outbound header is the
inbound one. -/
theorem credential_precedence_witness :
    (rewriteRequest (base64RouterEnv asciiString)
        { Scheme := "https".toList, Host := "k8s.example:6443".toList, Path := [] }
        { sampleWebSocketRequest with
          Header := sampleWebSocketRequest.Header.Set "Authorization".toList
            "Basic abc".toList }).Header.Get "Authorization".toList =
      ({ sampleWebSocketRequest with
          Header := sampleWebSocketRequest.Header.Set "Authorization".toList
            "Basic abc".toList } : Request).Header.Get "Authorization".toList :=
  (credential_precedence (base64RouterEnv asciiString)
    { Scheme := "https".toList, Host := "k8s.example:6443".toList, Path := [] }
    { sampleWebSocketRequest with
      Header := sampleWebSocketRequest.Header.Set "Authorization".toList
        "Basic abc".toList }).2.1
    (fun token h => by cases h) (by decide)

/-! ## Base64 round trips -/

theorem URLEncoding_val_char : ∀ i < 64, URLEncoding.val (URLEncoding.char i) = some i := by
  decide

theorem RawStdEncoding_val_char :
    ∀ i < 64, RawStdEncoding.val (RawStdEncoding.char i) = some i := by
  decide

theorem URLEncoding_char_plain : ∀ i < 64,
    (URLEncoding.char i == '\r' || URLEncoding.char i == '\n') = false := by
  decide

theorem RawStdEncoding_char_plain : ∀ i < 64,
    (RawStdEncoding.char i == '\r' || RawStdEncoding.char i == '\n') = false := by
  decide

theorem RawStdEncoding_char_in_URLEncoding : ∀ i < 64,
    (URLEncoding.val (RawStdEncoding.char i) = some i ∨
      URLEncoding.val (RawStdEncoding.char i) = none) ∧
    (RawStdEncoding.char i == '=') = false := by
  decide

theorem decodeQuanta_EncodeToString (e : Encoding)
    (hval : ∀ i < 64, e.val (e.char i) = some i) (hpad : e.val '=' = none) :
    ∀ bs : List Nat, (∀ b ∈ bs, b < 256) → e.decodeQuanta (e.EncodeToString bs) = some bs
  | [], _ => rfl
  | [a], h => by
    have ha : a < 256 := h a (List.mem_singleton.mpr rfl)
    have h0 := hval (a / 4) (by omega)
    have h1 := hval ((a % 4) * 16) (by omega)
    cases hp : e.padded with
    | true =>
      simp [Encoding.EncodeToString, Encoding.decodeQuanta, hp, h0, h1, hpad]
      omega
    | false =>
      simp [Encoding.EncodeToString, Encoding.decodeQuanta, hp, h0, h1]
      omega
  | [a, b], h => by
    have ha : a < 256 := h a (List.mem_cons_self _ _)
    have hb : b < 256 := h b (List.mem_cons_of_mem _ (List.mem_singleton.mpr rfl))
    have h0 := hval (a / 4) (by omega)
    have h1 := hval ((a % 4) * 16 + b / 16) (by omega)
    have h2 := hval ((b % 16) * 4) (by omega)
    cases hp : e.padded with
    | true =>
      simp [Encoding.EncodeToString, Encoding.decodeQuanta, hp, h0, h1, h2, hpad]
      omega
    | false =>
      simp [Encoding.EncodeToString, Encoding.decodeQuanta, hp, h0, h1, h2]
      omega
  | a :: b :: c :: rest, h => by
    have ha : a < 256 := h a (List.mem_cons_self _ _)
    have hb : b < 256 := h b (List.mem_cons_of_mem _ (List.mem_cons_self _ _))
    have hc : c < 256 :=
      h c (List.mem_cons_of_mem _ (List.mem_cons_of_mem _ (List.mem_cons_self _ _)))
    have hrest : ∀ x ∈ rest, x < 256 := fun x hx =>
      h x (List.mem_cons_of_mem _ (List.mem_cons_of_mem _ (List.mem_cons_of_mem _ hx)))
    have h0 := hval (a / 4) (by omega)
    have h1 := hval ((a % 4) * 16 + b / 16) (by omega)
    have h2 := hval ((b % 16) * 4 + c / 64) (by omega)
    have h3 := hval (c % 64) (by omega)
    have hb0 : a / 4 * 4 + (a % 4 * 16 + b / 16) / 16 = a := by omega
    have hb1 : (a % 4 * 16 + b / 16) % 16 * 16 + (b % 16 * 4 + c / 64) / 4 = b := by omega
    have hb2 : (b % 16 * 4 + c / 64) % 4 * 64 + c % 64 = c := by omega
    have ih := decodeQuanta_EncodeToString e hval hpad rest hrest
    simp only [Encoding.EncodeToString, Encoding.decodeQuanta, h0, h1, h2, h3, ih, hb0, hb1,
      hb2, Option.map_some']

theorem EncodeToString_mem (e : Encoding) :
    ∀ bs : List Nat, (∀ b ∈ bs, b < 256) → ∀ x ∈ e.EncodeToString bs,
      (∃ i < 64, x = e.char i) ∨ x = '='
  | [], _, x, hx => by cases hx
  | [a], h, x, hx => by
    have ha : a < 256 := h a (List.mem_singleton.mpr rfl)
    unfold Encoding.EncodeToString at hx
    rcases List.mem_append.mp hx with hx | hx
    · rcases List.mem_cons.mp hx with rfl | hx
      · exact Or.inl ⟨a / 4, by omega, rfl⟩
      · rcases List.mem_cons.mp hx with rfl | hx
        · exact Or.inl ⟨(a % 4) * 16, by omega, rfl⟩
        · cases hx
    · right
      split at hx
      · simpa using hx
      · cases hx
  | [a, b], h, x, hx => by
    have ha : a < 256 := h a (List.mem_cons_self _ _)
    have hb : b < 256 := h b (List.mem_cons_of_mem _ (List.mem_singleton.mpr rfl))
    unfold Encoding.EncodeToString at hx
    rcases List.mem_append.mp hx with hx | hx
    · rcases List.mem_cons.mp hx with rfl | hx
      · exact Or.inl ⟨a / 4, by omega, rfl⟩
      · rcases List.mem_cons.mp hx with rfl | hx
        · exact Or.inl ⟨(a % 4) * 16 + b / 16, by omega, rfl⟩
        · rcases List.mem_cons.mp hx with rfl | hx
          · exact Or.inl ⟨(b % 16) * 4, by omega, rfl⟩
          · cases hx
    · right
      split at hx
      · simpa using hx
      · cases hx
  | a :: b :: c :: rest, h, x, hx => by
    have ha : a < 256 := h a (List.mem_cons_self _ _)
    have hb : b < 256 := h b (List.mem_cons_of_mem _ (List.mem_cons_self _ _))
    have hc : c < 256 :=
      h c (List.mem_cons_of_mem _ (List.mem_cons_of_mem _ (List.mem_cons_self _ _)))
    have hrest : ∀ y ∈ rest, y < 256 := fun y hy =>
      h y (List.mem_cons_of_mem _ (List.mem_cons_of_mem _ (List.mem_cons_of_mem _ hy)))
    unfold Encoding.EncodeToString at hx
    rcases List.mem_cons.mp hx with rfl | hx
    · exact Or.inl ⟨a / 4, by omega, rfl⟩
    · rcases List.mem_cons.mp hx with rfl | hx
      · exact Or.inl ⟨(a % 4) * 16 + b / 16, by omega, rfl⟩
      · rcases List.mem_cons.mp hx with rfl | hx
        · exact Or.inl ⟨(b % 16) * 4 + c / 64, by omega, rfl⟩
        · rcases List.mem_cons.mp hx with rfl | hx
          · exact Or.inl ⟨c % 64, by omega, rfl⟩
          · exact EncodeToString_mem e rest hrest x hx

theorem EncodeToString_filter (e : Encoding)
    (hplain : ∀ i < 64, (e.char i == '\r' || e.char i == '\n') = false)
    (bs : List Nat) (h : ∀ b ∈ bs, b < 256) :
    (e.EncodeToString bs).filter (fun c => !(c == '\r' || c == '\n')) = e.EncodeToString bs := by
  rw [List.filter_eq_self]
  intro x hx
  rcases EncodeToString_mem e bs h x hx with ⟨i, hi, rfl⟩ | rfl
  · rw [hplain i hi]
    rfl
  · decide

theorem DecodeString_EncodeToString (e : Encoding)
    (hval : ∀ i < 64, e.val (e.char i) = some i) (hpad : e.val '=' = none)
    (hplain : ∀ i < 64, (e.char i == '\r' || e.char i == '\n') = false)
    (bs : List Nat) (h : ∀ b ∈ bs, b < 256) :
    e.DecodeString (e.EncodeToString bs) = some bs := by
  unfold Encoding.DecodeString
  rw [EncodeToString_filter e hplain bs h]
  exact decodeQuanta_EncodeToString e hval hpad bs h

theorem URLEncoding_decodeQuanta_RawStd :
    ∀ bs : List Nat, (∀ b ∈ bs, b < 256) →
      URLEncoding.decodeQuanta (RawStdEncoding.EncodeToString bs) = none ∨
      URLEncoding.decodeQuanta (RawStdEncoding.EncodeToString bs) = some bs
  | [], _ => Or.inr rfl
  | [a], _ => Or.inl rfl
  | [a, b], _ => Or.inl rfl
  | a :: b :: c :: rest, h => by
    have ha : a < 256 := h a (List.mem_cons_self _ _)
    have hb : b < 256 := h b (List.mem_cons_of_mem _ (List.mem_cons_self _ _))
    have hc : c < 256 :=
      h c (List.mem_cons_of_mem _ (List.mem_cons_of_mem _ (List.mem_cons_self _ _)))
    have hrest : ∀ x ∈ rest, x < 256 := fun x hx =>
      h x (List.mem_cons_of_mem _ (List.mem_cons_of_mem _ (List.mem_cons_of_mem _ hx)))
    obtain ⟨h0, _⟩ := RawStdEncoding_char_in_URLEncoding (a / 4) (by omega)
    obtain ⟨h1, _⟩ := RawStdEncoding_char_in_URLEncoding ((a % 4) * 16 + b / 16) (by omega)
    obtain ⟨h2, e2⟩ := RawStdEncoding_char_in_URLEncoding ((b % 16) * 4 + c / 64) (by omega)
    obtain ⟨h3, e3⟩ := RawStdEncoding_char_in_URLEncoding (c % 64) (by omega)
    have hb0 : a / 4 * 4 + (a % 4 * 16 + b / 16) / 16 = a := by omega
    have hb1 : (a % 4 * 16 + b / 16) % 16 * 16 + (b % 16 * 4 + c / 64) / 4 = b := by omega
    have hb2 : (b % 16 * 4 + c / 64) % 4 * 64 + c % 64 = c := by omega
    have ih := URLEncoding_decodeQuanta_RawStd rest hrest
    unfold Encoding.EncodeToString Encoding.decodeQuanta
    rcases h0 with h0 | h0
    · rcases h1 with h1 | h1
      · rcases h2 with h2 | h2
        · rcases h3 with h3 | h3
          · simp only [h0, h1, h2, h3, hb0, hb1, hb2]
            rcases ih with ih | ih
            · left
              rw [ih]
              rfl
            · right
              rw [ih]
              rfl
          · left
            simp only [h0, h1, h2, h3, e3, Bool.and_false, Bool.false_and, Bool.false_eq_true,
              if_false]
        · left
          simp only [h0, h1, h2, e2, Bool.and_false, Bool.false_and, Bool.false_eq_true,
            if_false]
      · left
        simp only [h0, h1]
    · left
      simp only [h0]

theorem URLEncoding_DecodeString_RawStd (bs : List Nat) (h : ∀ b ∈ bs, b < 256) :
    URLEncoding.DecodeString (RawStdEncoding.EncodeToString bs) = none ∨
    URLEncoding.DecodeString (RawStdEncoding.EncodeToString bs) = some bs := by
  unfold Encoding.DecodeString
  rw [EncodeToString_filter RawStdEncoding RawStdEncoding_char_plain bs h]
  exact URLEncoding_decodeQuanta_RawStd bs h

theorem EncodeToString_ne_nil (e : Encoding) :
    ∀ bs : List Nat, bs ≠ [] → e.EncodeToString bs ≠ []
  | [], h => absurd rfl h
  | [_], _ => by simp [Encoding.EncodeToString]
  | [_, _], _ => by simp [Encoding.EncodeToString]
  | _ :: _ :: _ :: _, _ => by simp [Encoding.EncodeToString]

theorem TrimPrefix_append (pre s : GoString) : TrimPrefix (pre ++ s) pre = s := by
  unfold TrimPrefix HasPrefix
  simp

theorem processTokenProtocol_token (env : RouterEnv) (r : Request)
    (payload decoded : GoString)
    (hauth : r.Header.Get "Authorization".toList = []) (hne : payload ≠ [])
    (hdec : (match env.decodeURLEncoding payload with
      | some d => d
      | none =>
        match env.decodeRawStdEncoding payload with
        | some d => d
        | none => payload) = decoded) :
    (processTokenProtocol env r (bearerTokenPrefix ++ payload)
      bearerTokenPrefix).Header.Get "Authorization".toList = "Bearer ".toList ++ decoded := by
  unfold processTokenProtocol
  simp only [hauth, TrimPrefix_append, bne_self_eq_false, Bool.false_eq_true, if_false, hne]
  rw [Header_Get_Set _ _ _ _ rfl, hdec]

/-- C13, as the code has it: for every non-empty byte string `bs`, with
`toStr bs` the token it spells, when no `Authorization` header is set and the
sub-protocol is the token prefix followed by the padded URL-safe encoding of
`bs` (`base64.URLEncoding`), or by its unpadded encoding in the standard
alphabet (`base64.RawStdEncoding`), `processTokenProtocol` sets `Authorization`
to `Bearer ` followed by the token. -/
theorem processTokenProtocol_decodes (toStr : List Nat → GoString) (env : RouterEnv)
    (hurl : env.decodeURLEncoding = fun s => (URLEncoding.DecodeString s).map toStr)
    (hraw : env.decodeRawStdEncoding = fun s => (RawStdEncoding.DecodeString s).map toStr)
    (r : Request) (hauth : r.Header.Get "Authorization".toList = [])
    (bs : List Nat) (hbytes : ∀ b ∈ bs, b < 256) (hne : bs ≠ []) :
    (processTokenProtocol env r (bearerTokenPrefix ++ URLEncoding.EncodeToString bs)
      bearerTokenPrefix).Header.Get "Authorization".toList = "Bearer ".toList ++ toStr bs ∧
    (processTokenProtocol env r (bearerTokenPrefix ++ RawStdEncoding.EncodeToString bs)
      bearerTokenPrefix).Header.Get "Authorization".toList = "Bearer ".toList ++ toStr bs := by
  constructor
  · apply processTokenProtocol_token env r _ _ hauth (EncodeToString_ne_nil _ bs hne)
    rw [hurl]
    simp only [DecodeString_EncodeToString URLEncoding URLEncoding_val_char (by decide)
      URLEncoding_char_plain bs hbytes, Option.map_some']
  · apply processTokenProtocol_token env r _ _ hauth (EncodeToString_ne_nil _ bs hne)
    rw [hurl, hraw]
    have hfall := DecodeString_EncodeToString RawStdEncoding RawStdEncoding_val_char
      (by decide) RawStdEncoding_char_plain bs hbytes
    rcases URLEncoding_DecodeString_RawStd bs hbytes with h | h
    · simp only [h, Option.map_none', hfall, Option.map_some']
    · simp only [h, Option.map_some']

/-- Witness of C13: the token `ab>c`, whose unpadded standard encoding is
`YWI+Yw`, reaches `Authorization` through the fallback. -/
theorem processTokenProtocol_decodes_witness :
    RawStdEncoding.EncodeToString [97, 98, 62, 99] = "YWI+Yw".toList ∧
    (processTokenProtocol (base64RouterEnv asciiString) sampleRequest
      (bearerTokenPrefix ++ RawStdEncoding.EncodeToString [97, 98, 62, 99])
      bearerTokenPrefix).Header.Get "Authorization".toList =
      "Bearer ".toList ++ asciiString [97, 98, 62, 99] :=
  ⟨by decide,
   (processTokenProtocol_decodes asciiString (base64RouterEnv asciiString) rfl rfl
      sampleRequest (by decide) [97, 98, 62, 99] (by decide) (by decide)).2⟩

/-- Counterexample to C13 as stated: the token `ab>c` in the standard padded
encoding, `YWI+Yw==`. The URL-safe decoder rejects `+`, the raw decoder rejects
`=`, and `Authorization` receives the undecoded text. And for the empty token
the sub-protocol is the bare prefix, and no header is set at all. -/
theorem processTokenProtocol_standard_padded :
    asciiString [97, 98, 62, 99] = "ab>c".toList ∧
    StdEncoding.EncodeToString [97, 98, 62, 99] = "YWI+Yw==".toList ∧
    sampleRequest.Header.Get "Authorization".toList = [] ∧
    (processTokenProtocol (base64RouterEnv asciiString) sampleRequest
      (bearerTokenPrefix ++ StdEncoding.EncodeToString [97, 98, 62, 99])
      bearerTokenPrefix).Header.Get "Authorization".toList = "Bearer YWI+Yw==".toList ∧
    (processTokenProtocol (base64RouterEnv asciiString) sampleRequest
      (bearerTokenPrefix ++ StdEncoding.EncodeToString [97, 98, 62, 99])
      bearerTokenPrefix).Header.Get "Authorization".toList ≠ "Bearer ab>c".toList ∧
    (processTokenProtocol (base64RouterEnv asciiString) sampleRequest
      (bearerTokenPrefix ++ StdEncoding.EncodeToString [])
      bearerTokenPrefix).Header.Get "Authorization".toList = [] := by
  refine ⟨by decide, by decide, by decide, by decide, by decide, by decide⟩

/-! ## Further evaluations -/

/-- Witness of C11: a request outside `/clusters/` is handed to `next` and
nothing else happens. -/
theorem OIDCTokenRefreshMiddleware_refresh_iff_witness :
    OIDCTokenRefreshMiddleware sampleConfig (sampleMiddlewareEnv (none, none))
        (sampleCallback "s1".toList) = { log := [Effect.next], panicked := false } ∧
    (OIDCTokenRefreshMiddleware sampleConfig (sampleMiddlewareEnv (none, none))
        (sampleCallback "s1".toList)).log.any Effect.isSetTokenCookie = false ∧
    (OIDCTokenRefreshMiddleware sampleConfig (sampleMiddlewareEnv (none, none))
        (sampleCallback "s1".toList)).log.any Effect.isCacheSet = false :=
  (OIDCTokenRefreshMiddleware_refresh_iff sampleConfig (sampleMiddlewareEnv (none, none))
    (sampleCallback "s1".toList)).2 (fun h => absurd h.1 (by decide))

/-- Witness of C15: with the secret `s3cret` and the header value `wrong` the
check writes 403 `access denied`. -/
theorem checkHeadlampBackendToken_nil_iff_witness :
    (checkHeadlampBackendToken sampleConfig "s3cret".toList
      (sampleAdminRequest "POST".toList [] "wrong".toList)).1 =
      [Effect.httpError "access denied".toList StatusForbidden] :=
  (checkHeadlampBackendToken_nil_iff sampleConfig "s3cret".toList
    (sampleAdminRequest "POST".toList [] "wrong".toList)).2.2.1 (by decide)

/-! ## Internal contexts in the cluster list -/

theorem getClustersLoop_mem (env : AdminEnv) (x : Cluster) :
    ∀ (contexts : List Context) (clusters : List Cluster),
      x ∈ getClustersLoop env contexts clusters →
        x ∈ clusters ∨
        ∃ ctx ∈ contexts,
          (ctx.Error ≠ [] ∧ x = { Name := ctx.Name, Error := ctx.Error }) ∨
          (ctx.Error = [] ∧ ctx.Internal = false ∧ x.Name = ctx.Name ∧ x.Error = [])
  | [], _, h => Or.inl h
  | context :: rest, clusters, h => by
    unfold getClustersLoop at h
    have lift : (x ∈ clusters ∨ ∃ ctx ∈ rest,
          (ctx.Error ≠ [] ∧ x = { Name := ctx.Name, Error := ctx.Error }) ∨
          (ctx.Error = [] ∧ ctx.Internal = false ∧ x.Name = ctx.Name ∧ x.Error = [])) →
        (x ∈ clusters ∨ ∃ ctx ∈ context :: rest,
          (ctx.Error ≠ [] ∧ x = { Name := ctx.Name, Error := ctx.Error }) ∨
          (ctx.Error = [] ∧ ctx.Internal = false ∧ x.Name = ctx.Name ∧ x.Error = [])) := by
      rintro (h1 | ⟨ctx, hctx, h2⟩)
      · exact Or.inl h1
      · exact Or.inr ⟨ctx, List.mem_cons_of_mem _ hctx, h2⟩
    by_cases herr : (context.Error != []) = true
    · simp only [herr, if_true] at h
      rcases getClustersLoop_mem env x rest _ h with h1 | h1
      · rcases List.mem_append.mp h1 with h2 | h2
        · exact Or.inl h2
        · rw [List.mem_singleton] at h2
          exact Or.inr ⟨context, List.mem_cons_self _ _, Or.inl ⟨by simpa using herr, h2⟩⟩
      · exact lift (Or.inr h1)
    · have herr2 : context.Error = [] := by simpa using herr
      simp only [herr, if_false, Bool.false_eq_true] at h
      by_cases hint : context.Internal = true
      · simp only [hint, if_true] at h
        exact lift (getClustersLoop_mem env x rest _ h)
      · have hint2 : context.Internal = false := Bool.eq_false_iff.mpr hint
        simp only [hint2, Bool.false_eq_true, if_false] at h
        cases hk : context.KubeContext with
        | none =>
          simp only [hk] at h
          exact lift (getClustersLoop_mem env x rest _ h)
        | some kubeContext =>
          simp only [hk] at h
          rcases getClustersLoop_mem env x rest _ h with h1 | h1
          · rcases List.mem_append.mp h1 with h2 | h2
            · exact Or.inl h2
            · rw [List.mem_singleton] at h2
              exact Or.inr ⟨context, List.mem_cons_self _ _,
                Or.inr ⟨herr2, hint2, by rw [h2], by rw [h2]⟩⟩
          · exact lift (Or.inr h1)

/-- The entries of the cluster list: every entry of the result of `getClusters`
comes
from a context of the store, and either it is the name and the non-empty `Error`
of that context, whatever its `Internal` flag, or the context has no error and
`Internal = false`. An internal context without error never appears. -/
theorem getClusters_entries {σ : Type} (K : StoreOps σ) (env : AdminEnv) (store : σ)
    (x : Cluster) (hx : x ∈ getClusters K env store) :
    ∃ contexts, K.GetContexts store = Except.ok contexts ∧
      ∃ ctx ∈ contexts,
        (ctx.Error ≠ [] ∧ x = { Name := ctx.Name, Error := ctx.Error }) ∨
        (ctx.Error = [] ∧ ctx.Internal = false ∧ x.Name = ctx.Name ∧ x.Error = []) := by
  unfold getClusters at hx
  cases hget : K.GetContexts store with
  | error e =>
    rw [hget] at hx
    cases hx
  | ok contexts =>
    rw [hget] at hx
    refine ⟨contexts, rfl, ?_⟩
    rcases getClustersLoop_mem env x contexts [] hx with h | h
    · cases h
    · exact h

/-- The entries of the cluster list of a usable context and an internal one
that failed: the entry of the usable one comes from a context without error
that is not internal. -/
theorem getClusters_entries_witness :
    ∃ contexts,
      specStore.GetContexts [sampleUsableContext, sampleInternalFailedContext] =
        Except.ok contexts ∧
      ∃ ctx ∈ contexts,
        (ctx.Error ≠ [] ∧ sampleUsableCluster = { Name := ctx.Name, Error := ctx.Error }) ∨
        (ctx.Error = [] ∧ ctx.Internal = false ∧ sampleUsableCluster.Name = ctx.Name ∧
          sampleUsableCluster.Error = []) :=
  getClusters_entries specStore
    (sampleAdminEnv { NewClusterName := [], Source := [], Stateless := false })
    [sampleUsableContext, sampleInternalFailedContext] sampleUsableCluster (by decide)

/-- C21 fails on the code: the store holds one context, internal and with a
setup error, and `getClusters` lists it. In a store that holds a usable context
`dev`, an internal context `hidden` without error and the internal context
`private` that failed, the list has the entry of `dev` and the entry of
`private`, and none of `hidden`. -/
theorem getClusters_lists_internal_failed :
    sampleInternalFailedContext.Internal = true ∧
    getClusters specStore
      (sampleAdminEnv { NewClusterName := [], Source := [], Stateless := false })
      [sampleInternalFailedContext] =
      [{ Name := "private".toList, Error := "no such host".toList }] ∧
    sampleInternalContext.Internal = true ∧
    getClusters specStore
      (sampleAdminEnv { NewClusterName := [], Source := [], Stateless := false })
      [sampleUsableContext, sampleInternalContext, sampleInternalFailedContext] =
      [sampleUsableCluster, { Name := "private".toList, Error := "no such host".toList }] := by
  refine ⟨by decide, by decide, by decide, by decide⟩

/-! ## Unresolved cluster requests -/

/-- C22, as the code has it: when the context key cannot be derived from the
request the router answers 400, and when the store has no context under the key
it answers 404; in both cases this is its only action and nothing is handed to
an upstream. -/
theorem clusterRequestHandler_unresolved (env : RouterEnv) (r : Request) :
    (∀ err, env.getContextKeyForRequest r = Except.error err →
      clusterRequestHandler env r =
        { log := [Effect.httpError err StatusBadRequest], outbound := none,
          recorded := none }) ∧
    (∀ key err, env.getContextKeyForRequest r = Except.ok key →
      env.GetContext key = Except.error err →
      clusterRequestHandler env r =
        { log := [Effect.httpError err StatusNotFound], outbound := none,
          recorded := none }) := by
  constructor
  · intro err hkey
    unfold clusterRequestHandler
    simp only [hkey]
    rfl
  · intro key err hkey hctx
    unfold clusterRequestHandler
    simp only [hkey, hctx]
    rfl

/-- Witness of C22: a request whose context key cannot be derived. -/
theorem clusterRequestHandler_unresolved_witness :
    clusterRequestHandler sampleNoKeyRouterEnv sampleRequest =
      { log := [Effect.httpError "cluster name is missing".toList StatusBadRequest],
        outbound := none, recorded := none } :=
  (clusterRequestHandler_unresolved sampleNoKeyRouterEnv sampleRequest).1
    "cluster name is missing".toList rfl

/-- Counterexample to C22 as stated: the context key cannot be derived from the
request, and the answer is 400, not 404. -/
theorem clusterRequestHandler_key_error_is_400 :
    (clusterRequestHandler sampleNoKeyRouterEnv sampleRequest).log =
      [Effect.httpError "cluster name is missing".toList 400] ∧
    (clusterRequestHandler sampleNoKeyRouterEnv sampleRequest).log ≠
      [Effect.httpError "cluster name is missing".toList 404] ∧
    (clusterRequestHandler sampleNoKeyRouterEnv sampleRequest).outbound = none := by
  refine ⟨by decide, by decide, by decide⟩

/-! ## The forwarded host -/

theorem processTokenProtocol_other (env : RouterEnv) (r : Request)
    (protocol tokenPrefix key : GoString)
    (hk : CanonicalMIMEHeaderKey "Authorization".toList ≠ CanonicalMIMEHeaderKey key) :
    (processTokenProtocol env r protocol tokenPrefix).Header.Get key = r.Header.Get key ∧
    (processTokenProtocol env r protocol tokenPrefix).Host = r.Host ∧
    (processTokenProtocol env r protocol tokenPrefix).URL = r.URL := by
  unfold processTokenProtocol
  split
  · exact ⟨rfl, rfl, rfl⟩
  · simp only []
    split
    · exact ⟨rfl, rfl, rfl⟩
    · exact ⟨Header_Get_Set_ne _ _ _ _ hk, rfl, rfl⟩

theorem processProtocols_other (env : RouterEnv) (key : GoString)
    (hk : CanonicalMIMEHeaderKey "Authorization".toList ≠ CanonicalMIMEHeaderKey key) :
    ∀ (protocols : List GoString) (r : Request) (validProtocols : List GoString),
      (processProtocols env r validProtocols protocols).1.Header.Get key = r.Header.Get key ∧
      (processProtocols env r validProtocols protocols).1.Host = r.Host ∧
      (processProtocols env r validProtocols protocols).1.URL = r.URL
  | [], _, _ => ⟨rfl, rfl, rfl⟩
  | protocol :: rest, r, validProtocols => by
    unfold processProtocols
    simp only []
    split
    · have ih := processProtocols_other env key hk rest
        (processTokenProtocol env r (TrimSpace protocol) bearerTokenPrefix) validProtocols
      have hs := processTokenProtocol_other env r (TrimSpace protocol) bearerTokenPrefix key hk
      exact ⟨ih.1.trans hs.1, ih.2.1.trans hs.2.1, ih.2.2.trans hs.2.2⟩
    · exact processProtocols_other env key hk rest r _

theorem processWebSocketProtocolHeader_other (env : RouterEnv) (r : Request) (key : GoString)
    (hk : CanonicalMIMEHeaderKey "Authorization".toList ≠ CanonicalMIMEHeaderKey key)
    (hs : CanonicalMIMEHeaderKey "Sec-WebSocket-Protocol".toList ≠
      CanonicalMIMEHeaderKey key) :
    (processWebSocketProtocolHeader env r).Header.Get key = r.Header.Get key ∧
    (processWebSocketProtocolHeader env r).Host = r.Host ∧
    (processWebSocketProtocolHeader env r).URL = r.URL := by
  unfold processWebSocketProtocolHeader
  simp only []
  split
  · exact ⟨rfl, rfl, rfl⟩
  · have hp := processProtocols_other env key hk
      (splitComma (r.Header.Get "Sec-Websocket-Protocol".toList)) r []
    split
    · exact ⟨(Header_Get_Set_ne _ _ _ _ hs).trans hp.1, hp.2.1, hp.2.2⟩
    · exact ⟨(Header_Get_Del_ne _ _ _ hs).trans hp.1, hp.2.1, hp.2.2⟩

theorem setCookieCredential_other (env : RouterEnv) (r : Request) (key : GoString)
    (hk : CanonicalMIMEHeaderKey "Authorization".toList ≠ CanonicalMIMEHeaderKey key) :
    (setCookieCredential env r).Header.Get key = r.Header.Get key ∧
    (setCookieCredential env r).Host = r.Host ∧
    (setCookieCredential env r).URL = r.URL := by
  unfold setCookieCredential
  split
  · split
    · exact ⟨Header_Get_Set_ne _ _ _ _ hk, rfl, rfl⟩
    · exact ⟨rfl, rfl, rfl⟩
  · exact ⟨rfl, rfl, rfl⟩

theorem rewriteTarget_host (env : RouterEnv) (clusterURL : URL) (r : Request) :
    (rewriteTarget env clusterURL r).Header.Get "X-Forwarded-Host".toList = clusterURL.Host ∧
    (rewriteTarget env clusterURL r).Host = clusterURL.Host ∧
    (rewriteTarget env clusterURL r).URL.Host = clusterURL.Host := by
  have h2 : CanonicalMIMEHeaderKey "User-Agent".toList ≠
      CanonicalMIMEHeaderKey "X-Forwarded-Host".toList := by decide
  unfold rewriteTarget
  simp only []
  split
  · refine ⟨(Header_Get_Del_ne _ _ _ h2).trans (Header_Get_Set _ _ _ _ rfl), ?_, ?_⟩ <;>
      first | rfl | trivial
  · refine ⟨Header_Get_Set _ _ _ _ rfl, ?_, ?_⟩ <;> first | rfl | trivial

/-- C27: after the rewrite of the router the header `X-Forwarded-Host`, the
field `Host` and `URL.Host` of the outbound request are all the host of the
upstream cluster; when the inbound host is another one, `X-Forwarded-Host` is
not the inbound host. -/
theorem rewriteRequest_forwarded_host (env : RouterEnv) (clusterURL : URL) (r : Request) :
    (rewriteRequest env clusterURL r).Header.Get "X-Forwarded-Host".toList = clusterURL.Host ∧
    (rewriteRequest env clusterURL r).Host = clusterURL.Host ∧
    (rewriteRequest env clusterURL r).URL.Host = clusterURL.Host ∧
    (r.Host ≠ clusterURL.Host →
      (rewriteRequest env clusterURL r).Header.Get "X-Forwarded-Host".toList ≠ r.Host) := by
  have hk : CanonicalMIMEHeaderKey "Authorization".toList ≠
      CanonicalMIMEHeaderKey "X-Forwarded-Host".toList := by decide
  have hs : CanonicalMIMEHeaderKey "Sec-WebSocket-Protocol".toList ≠
      CanonicalMIMEHeaderKey "X-Forwarded-Host".toList := by decide
  have hw := processWebSocketProtocolHeader_other env
    (setCookieCredential env (rewriteTarget env clusterURL r)) "X-Forwarded-Host".toList hk hs
  have hc := setCookieCredential_other env (rewriteTarget env clusterURL r)
    "X-Forwarded-Host".toList hk
  have ht := rewriteTarget_host env clusterURL r
  rw [rewriteRequest_steps]
  have h1 : (processWebSocketProtocolHeader env
      (setCookieCredential env (rewriteTarget env clusterURL r))).Header.Get
        "X-Forwarded-Host".toList = clusterURL.Host := by
    rw [hw.1, hc.1, ht.1]
  refine ⟨h1, ?_, ?_, ?_⟩
  · rw [hw.2.1, hc.2.1, ht.2.1]
  · rw [hw.2.2, hc.2.2, ht.2.2]
  · intro hne
    rw [h1]
    exact fun h => hne h.symm

/-- Witness of C27: the sample request arrives for the host `headlamp.example`
and leaves with `X-Forwarded-Host: k8s.example:6443`. -/
theorem rewriteRequest_forwarded_host_witness :
    (rewriteRequest (sampleRouterEnv 200)
      { Scheme := "https".toList, Host := "k8s.example:6443".toList, Path := [] }
      sampleRequest).Header.Get "X-Forwarded-Host".toList ≠ sampleRequest.Host :=
  (rewriteRequest_forwarded_host (sampleRouterEnv 200)
    { Scheme := "https".toList, Host := "k8s.example:6443".toList, Path := [] }
    sampleRequest).2.2.2 (by decide)

/-! ## Bearer values built by the router -/

theorem asciiToLower_isSpace_upper : ∀ n < 91, 65 ≤ n →
    isSpace (asciiToLower (Char.ofNat n)) = isSpace (Char.ofNat n) := by
  decide

theorem unicodeToLower_isSpace_eq (tbl : Char → Char)
    (htbl : ∀ c : Char, 128 ≤ c.toNat → isSpace (tbl c) = isSpace c) (c : Char) :
    isSpace (unicodeToLower tbl c) = isSpace c := by
  unfold unicodeToLower
  by_cases hc : c.toNat < 128
  · rw [if_pos hc]
    by_cases hu : 65 ≤ c.toNat ∧ c.toNat ≤ 90
    · have h := asciiToLower_isSpace_upper c.toNat (by omega) hu.1
      rw [Char.ofNat_toNat] at h
      exact h
    · unfold asciiToLower
      rw [if_neg hu]
  · rw [if_neg hc]
    exact htbl c (by omega)

theorem ToLower_any_nonspace (tbl : Char → Char)
    (htbl : ∀ c : Char, 128 ≤ c.toNat → isSpace (tbl c) = isSpace c) (t : GoString) :
    (ToLower tbl t).any (fun c => !isSpace c) = t.any (fun c => !isSpace c) := by
  unfold ToLower
  induction t with
  | nil => rfl
  | cons c cs ih =>
    simp only [List.map_cons, List.any_cons, ih, unicodeToLower_isSpace_eq tbl htbl c]

theorem trimRightSpace_concat_space (x : GoString) (c : Char) (h : isSpace c = true) :
    trimRightSpace (x ++ [c]) = trimRightSpace x := by
  unfold trimRightSpace
  rw [List.reverse_append, List.reverse_singleton, List.singleton_append,
    List.dropWhile_cons_of_pos h]

theorem trimRightSpace_concat_other (x : GoString) (c : Char) (h : isSpace c = false) :
    trimRightSpace (x ++ [c]) = x ++ [c] := by
  unfold trimRightSpace
  rw [List.reverse_append, List.reverse_singleton, List.singleton_append,
    List.dropWhile_cons_of_neg (by simp [h]), List.reverse_cons, List.reverse_reverse]

theorem HasPrefix_append (pre s : GoString) : HasPrefix (pre ++ s) pre = true := by
  unfold HasPrefix
  simp

theorem HasPrefix_trimRight_bearer (u : GoString) :
    HasPrefix (trimRightSpace ("bearer ".toList ++ u)) "bearer ".toList =
      u.any (fun c => !isSpace c) := by
  induction u using List.reverseRecOn with
  | nil => decide
  | append_singleton v c ih =>
    rw [← List.append_assoc, List.any_append]
    by_cases hc : isSpace c = true
    · rw [trimRightSpace_concat_space _ c hc, ih]
      simp [hc]
    · have hc2 : isSpace c = false := Bool.eq_false_iff.mpr hc
      rw [trimRightSpace_concat_other _ c hc2, List.append_assoc, HasPrefix_append]
      simp [hc2]

theorem trimRightSpace_bare_bearer (u : GoString) (hu : u.all isSpace = true) :
    trimRightSpace ("bearer".toList ++ u) = "bearer".toList := by
  induction u using List.reverseRecOn with
  | nil => decide
  | append_singleton v c ih =>
    rw [List.all_append, Bool.and_eq_true] at hu
    have hc : isSpace c = true := by simpa using hu.2
    rw [← List.append_assoc, trimRightSpace_concat_space _ c hc]
    exact ih hu.1

theorem ToLower_append (tbl : Char → Char) (a b : GoString) :
    ToLower tbl (a ++ b) = ToLower tbl a ++ ToLower tbl b := by
  unfold ToLower
  exact List.map_append _ _ _

theorem ToLower_Bearer (tbl : Char → Char) :
    ToLower tbl "Bearer ".toList = "bearer ".toList ∧
    ToLower tbl "Bearer".toList = "bearer".toList := by
  constructor <;> simp [ToLower, unicodeToLower, asciiToLower]

theorem HasBearerToken_Bearer (tbl : Char → Char)
    (htbl : ∀ c : Char, 128 ≤ c.toNat → isSpace (tbl c) = isSpace c) (t : GoString) :
    HasBearerToken tbl ("Bearer ".toList ++ t) = t.any (fun c => !isSpace c) := by
  unfold HasBearerToken TrimSpace
  rw [ToLower_append, (ToLower_Bearer tbl).1]
  have hleft : trimLeftSpace ("bearer ".toList ++ ToLower tbl t) =
      "bearer ".toList ++ ToLower tbl t := rfl
  rw [hleft, HasPrefix_trimRight_bearer, ToLower_any_nonspace tbl htbl]

theorem rewriteRequest_cookie_auth (env : RouterEnv) (clusterURL : URL) (r : Request)
    (token : GoString)
    (hcookie : env.GetTokenFromCookie (rewriteTarget env clusterURL r)
      (valuesGet (rewriteTarget env clusterURL r).Vars "clusterName".toList) =
        Except.ok token)
    (hne : token ≠ []) :
    (rewriteRequest env clusterURL r).Header.Get "Authorization".toList =
      "Bearer ".toList ++ token := by
  rw [rewriteRequest_steps]
  have hset : setCookieCredential env (rewriteTarget env clusterURL r) =
      { rewriteTarget env clusterURL r with
        Header := (rewriteTarget env clusterURL r).Header.Set "Authorization".toList
          ("Bearer ".toList ++ token) } := by
    unfold setCookieCredential
    have hb : (token != []) = true := by simpa using hne
    simp only [hcookie, hb, if_true]
  have hget : (setCookieCredential env (rewriteTarget env clusterURL r)).Header.Get
      "Authorization".toList = "Bearer ".toList ++ token := by
    rw [hset]
    exact Header_Get_Set _ _ _ _ rfl
  rw [processWebSocketProtocolHeader_auth env _ (by rw [hget]; simp), hget]

/-- C28: `HasBearerToken` of `Bearer ` followed by `t` is true exactly when `t`
has a rune that is not white space. So the `Authorization` value that the router
builds from a cookie token or from a WebSocket token with such a rune is seen as
a bearer token, and `Bearer` followed by white space only is not. The case table
of the non-ASCII runes is any table that maps white space to white space and
other runes to other runes, as the Unicode table does. -/
theorem HasBearerToken_Bearer_iff (tbl : Char → Char)
    (htbl : ∀ c : Char, 128 ≤ c.toNat → isSpace (tbl c) = isSpace c) :
    (∀ t : GoString,
      HasBearerToken tbl ("Bearer ".toList ++ t) = true ↔ ∃ c ∈ t, isSpace c = false) ∧
    (∀ (env : RouterEnv) (clusterURL : URL) (r : Request) (token : GoString),
      env.GetTokenFromCookie (rewriteTarget env clusterURL r)
        (valuesGet (rewriteTarget env clusterURL r).Vars "clusterName".toList) =
          Except.ok token →
      (∃ c ∈ token, isSpace c = false) →
        HasBearerToken tbl
          ((rewriteRequest env clusterURL r).Header.Get "Authorization".toList) = true) ∧
    (∀ (env : RouterEnv) (r : Request) (payload decoded : GoString),
      r.Header.Get "Authorization".toList = [] → payload ≠ [] →
      (match env.decodeURLEncoding payload with
        | some d => d
        | none =>
          match env.decodeRawStdEncoding payload with
          | some d => d
          | none => payload) = decoded →
      (∃ c ∈ decoded, isSpace c = false) →
        HasBearerToken tbl
          ((processTokenProtocol env r (bearerTokenPrefix ++ payload)
            bearerTokenPrefix).Header.Get "Authorization".toList) = true) ∧
    (∀ ws : GoString, ws.all isSpace = true →
      HasBearerToken tbl ("Bearer".toList ++ ws) = false) := by
  have hiff : ∀ t : GoString,
      HasBearerToken tbl ("Bearer ".toList ++ t) = true ↔ ∃ c ∈ t, isSpace c = false := by
    intro t
    rw [HasBearerToken_Bearer tbl htbl, List.any_eq_true]
    constructor
    · rintro ⟨c, hc, h⟩
      exact ⟨c, hc, by simpa using h⟩
    · rintro ⟨c, hc, h⟩
      exact ⟨c, hc, by simp [h]⟩
  refine ⟨hiff, ?_, ?_, ?_⟩
  · intro env clusterURL r token hcookie hnb
    have hne : token ≠ [] := by
      rintro rfl
      obtain ⟨c, hc, _⟩ := hnb
      cases hc
    rw [rewriteRequest_cookie_auth env clusterURL r token hcookie hne]
    exact (hiff token).mpr hnb
  · intro env r payload decoded hauth hne hdec hnb
    rw [processTokenProtocol_token env r payload decoded hauth hne hdec]
    exact (hiff decoded).mpr hnb
  · intro ws hws
    have hlow : (ToLower tbl ws).all isSpace = true := by
      unfold ToLower
      rw [List.all_eq_true] at hws ⊢
      intro x hx
      rw [List.mem_map] at hx
      obtain ⟨c, hc, rfl⟩ := hx
      rw [unicodeToLower_isSpace_eq tbl htbl c]
      exact hws c hc
    unfold HasBearerToken TrimSpace
    rw [ToLower_append, (ToLower_Bearer tbl).2]
    have hleft : trimLeftSpace ("bearer".toList ++ ToLower tbl ws) =
        "bearer".toList ++ ToLower tbl ws := rfl
    rw [hleft, trimRightSpace_bare_bearer _ hlow]
    decide

/-- Witness of C28: `Bearer ` followed by a blank and a tab is not a bearer
token, and `Bearer tok` is one. -/
theorem HasBearerToken_Bearer_iff_witness :
    HasBearerToken id ("Bearer".toList ++ "  \t".toList) = false ∧
    HasBearerToken id ("Bearer ".toList ++ "tok".toList) = true :=
  ⟨(HasBearerToken_Bearer_iff id (fun _ _ => rfl)).2.2.2 "  \t".toList (by decide),
   ((HasBearerToken_Bearer_iff id (fun _ _ => rfl)).1 "tok".toList).mpr
     ⟨'t', by decide, by decide⟩⟩

/-! ## Payloads that neither decoder accepts -/

theorem decodeQuanta_padded_length (e : Encoding) (hp : e.padded = true) :
    ∀ s : List Char, s.length % 4 ≠ 0 → e.decodeQuanta s = none
  | [], h => by simp at h
  | [_], _ => rfl
  | [_, _], _ => by simp [Encoding.decodeQuanta, hp]
  | [_, _, _], _ => by simp [Encoding.decodeQuanta, hp]
  | c0 :: c1 :: c2 :: c3 :: rest, h => by
    have hrest : rest.length % 4 ≠ 0 := by
      simp only [List.length_cons] at h
      omega
    have hne : rest.isEmpty = false := by
      cases rest with
      | nil => simp at hrest
      | cons _ _ => rfl
    have ih := decodeQuanta_padded_length e hp rest hrest
    unfold Encoding.decodeQuanta
    cases h0 : e.val c0 <;> cases h1 : e.val c1 <;> cases h2 : e.val c2 <;>
      cases h3 : e.val c3 <;> simp [ih, hne]

theorem decodeQuanta_raw_outside (e : Encoding) (hp : e.padded = false) :
    ∀ s : List Char, (∃ c ∈ s, e.val c = none) → e.decodeQuanta s = none
  | [], h => by
    obtain ⟨c, hc, _⟩ := h
    cases hc
  | [_], _ => rfl
  | [c0, c1], h => by
    obtain ⟨c, hc, hv⟩ := h
    unfold Encoding.decodeQuanta
    simp only [List.mem_cons, List.mem_singleton, List.not_mem_nil, or_false] at hc
    rcases hc with hc | hc <;> rw [hc] at hv <;> cases h0 : e.val c0 <;>
      cases h1 : e.val c1 <;> simp_all
  | [c0, c1, c2], h => by
    obtain ⟨c, hc, hv⟩ := h
    unfold Encoding.decodeQuanta
    simp only [List.mem_cons, List.mem_singleton, List.not_mem_nil, or_false] at hc
    rcases hc with hc | hc | hc <;> rw [hc] at hv <;> cases h0 : e.val c0 <;>
      cases h1 : e.val c1 <;> cases h2 : e.val c2 <;> simp_all
  | c0 :: c1 :: c2 :: c3 :: rest, h => by
    obtain ⟨c, hc, hv⟩ := h
    unfold Encoding.decodeQuanta
    simp only [List.mem_cons] at hc
    rcases hc with hc | hc | hc | hc | hc
    · rw [hc] at hv
      simp [hv]
    · rw [hc] at hv
      cases h0 : e.val c0 <;> simp [hv]
    · rw [hc] at hv
      cases h0 : e.val c0 <;> cases h1 : e.val c1 <;> simp [hv, hp]
    · rw [hc] at hv
      cases h0 : e.val c0 <;> cases h1 : e.val c1 <;> cases h2 : e.val c2 <;> simp [hv, hp]
    · have ih := decodeQuanta_raw_outside e hp rest ⟨c, hc, hv⟩
      cases h0 : e.val c0 <;> cases h1 : e.val c1 <;> cases h2 : e.val c2 <;>
        cases h3 : e.val c3 <;> simp [ih, hp]

theorem URLEncoding_DecodeString_length (s : GoString)
    (hlen : (s.filter (fun c => !(c == '\r' || c == '\n'))).length % 4 ≠ 0) :
    URLEncoding.DecodeString s = none :=
  decodeQuanta_padded_length URLEncoding rfl _ hlen

theorem RawStdEncoding_DecodeString_outside (s : GoString)
    (hc : '-' ∈ s ∨ '_' ∈ s) : RawStdEncoding.DecodeString s = none := by
  unfold Encoding.DecodeString
  apply decodeQuanta_raw_outside RawStdEncoding rfl
  rcases hc with hc | hc
  · exact ⟨'-', List.mem_filter.mpr ⟨hc, by decide⟩, by decide⟩
  · exact ⟨'_', List.mem_filter.mpr ⟨hc, by decide⟩, by decide⟩

/-- C26: with no `Authorization` header set, a token protocol whose payload is
not empty and is rejected by both decoders makes `processTokenProtocol` set
`Authorization` to `Bearer ` followed by the payload as it came. With the
decoders of `encoding/base64`, this is the case of every payload that has a `-`
or a `_` and whose length, line breaks apart, is not a multiple of four. -/
theorem processTokenProtocol_verbatim :
    (∀ (env : RouterEnv) (r : Request) (payload : GoString),
      r.Header.Get "Authorization".toList = [] → payload ≠ [] →
      env.decodeURLEncoding payload = none → env.decodeRawStdEncoding payload = none →
        (processTokenProtocol env r (bearerTokenPrefix ++ payload)
          bearerTokenPrefix).Header.Get "Authorization".toList =
            "Bearer ".toList ++ payload) ∧
    (∀ (toStr : List Nat → GoString) (r : Request) (payload : GoString),
      r.Header.Get "Authorization".toList = [] →
      ('-' ∈ payload ∨ '_' ∈ payload) →
      (payload.filter (fun c => !(c == '\r' || c == '\n'))).length % 4 ≠ 0 →
        (processTokenProtocol (base64RouterEnv toStr) r (bearerTokenPrefix ++ payload)
          bearerTokenPrefix).Header.Get "Authorization".toList =
            "Bearer ".toList ++ payload) := by
  have hgen : ∀ (env : RouterEnv) (r : Request) (payload : GoString),
      r.Header.Get "Authorization".toList = [] → payload ≠ [] →
      env.decodeURLEncoding payload = none → env.decodeRawStdEncoding payload = none →
        (processTokenProtocol env r (bearerTokenPrefix ++ payload)
          bearerTokenPrefix).Header.Get "Authorization".toList =
            "Bearer ".toList ++ payload := by
    intro env r payload hauth hne hurl hraw
    exact processTokenProtocol_token env r payload payload hauth hne (by rw [hurl, hraw])
  refine ⟨hgen, ?_⟩
  intro toStr r payload hauth hc hlen
  have hne : payload ≠ [] := by
    rintro rfl
    rcases hc with hc | hc <;> cases hc
  apply hgen (base64RouterEnv toStr) r payload hauth hne
  · show (URLEncoding.DecodeString payload).map toStr = none
    rw [URLEncoding_DecodeString_length payload hlen]
    rfl
  · show (RawStdEncoding.DecodeString payload).map toStr = none
    rw [RawStdEncoding_DecodeString_outside payload hc]
    rfl

/-- Witness of C26: the payload `-_8`, the unpadded URL-safe encoding of the
bytes 251 and 255, is forwarded as it came. -/
theorem processTokenProtocol_verbatim_witness :
    (processTokenProtocol (base64RouterEnv asciiString) sampleRequest
      (bearerTokenPrefix ++ "-_8".toList) bearerTokenPrefix).Header.Get
        "Authorization".toList = "Bearer -_8".toList :=
  processTokenProtocol_verbatim.2 asciiString sampleRequest "-_8".toList
    (by decide) (by decide) (by decide)

/-! ## The state of the `/oidc` redirect -/

theorem RawURLEncoding_val_char :
    ∀ i < 64, RawURLEncoding.val (RawURLEncoding.char i) = some i := by
  decide

theorem RawURLEncoding_char_rune :
    ∀ i < 64, isBase64URLRune (RawURLEncoding.char i) = true := by
  decide

theorem EncodeToString_raw_length (e : Encoding) (hp : e.padded = false) :
    ∀ bs : List Nat, (e.EncodeToString bs).length = (4 * bs.length + 2) / 3
  | [] => rfl
  | [_] => by simp [Encoding.EncodeToString, hp]
  | [_, _] => by simp [Encoding.EncodeToString, hp]
  | _ :: _ :: _ :: rest => by
    have ih := EncodeToString_raw_length e hp rest
    simp only [Encoding.EncodeToString, List.length_cons, ih]
    omega

theorem EncodeToString_raw_mem (e : Encoding) (hp : e.padded = false)
    (hval : ∀ i < 64, e.val (e.char i) = some i) (hpad : e.val '=' = none)
    (bs : List Nat) (h : ∀ b ∈ bs, b < 256) (x : Char) (hx : x ∈ e.EncodeToString bs) :
    ∃ i < 64, x = e.char i := by
  rcases EncodeToString_mem e bs h x hx with hi | rfl
  · exact hi
  · have hnone := decodeQuanta_raw_outside e hp (e.EncodeToString bs) ⟨'=', hx, hpad⟩
    rw [decodeQuanta_EncodeToString e hval hpad bs h] at hnone
    cases hnone

theorem OauthMap_get_put_self (m : OauthMap) (s : GoString) (e : OauthConfig) :
    (m.put s e).get s = some e := by
  simp [OauthMap.put, OauthMap.get]

/-- C23: the state that the `/oidc` handler makes of 32 random bytes has 43
runes, all of them among `A-Z`, `a-z`, `0-9`, `-` and `_`; other bytes give
another state; the state is not empty, and the callback that carries it after
the redirect stored it passes the empty-state check, finds the stored entry and
goes on to the token exchange. -/
theorem oidcState_shape (b : List Nat) (hlen : b.length = 32) (hb : ∀ x ∈ b, x < 256) :
    (oidcState b).length = 43 ∧
    (∀ c ∈ oidcState b, isBase64URLRune c = true) ∧
    (∀ b2 : List Nat, (∀ x ∈ b2, x < 256) → oidcState b2 = oidcState b → b2 = b) ∧
    oidcState b ≠ [] ∧
    (∀ (config : HeadlampConfig) (env : CallbackEnv) (m : OauthMap) (entry : OauthConfig)
      (r : Request), valuesGet r.Query "state".toList = oidcState b →
        oidcCallback config env (oidcRedirectStore m (oidcState b) entry) r =
          ((oidcRedirectStore m (oidcState b) entry).delete (oidcState b),
            oidcCallbackExchange config env entry r)) := by
  have hl : (oidcState b).length = 43 := by
    unfold oidcState
    rw [EncodeToString_raw_length RawURLEncoding rfl, hlen]
  have hne : oidcState b ≠ [] := by
    intro h
    rw [h] at hl
    cases hl
  refine ⟨hl, ?_, ?_, hne, ?_⟩
  · intro c hc
    obtain ⟨i, hi, rfl⟩ := EncodeToString_raw_mem RawURLEncoding rfl RawURLEncoding_val_char
      (by decide) b hb c hc
    exact RawURLEncoding_char_rune i hi
  · intro b2 hb2 heq
    unfold oidcState at heq
    have h1 := decodeQuanta_EncodeToString RawURLEncoding RawURLEncoding_val_char
      (by decide) b hb
    have h2 := decodeQuanta_EncodeToString RawURLEncoding RawURLEncoding_val_char
      (by decide) b2 hb2
    rw [heq, h1] at h2
    exact (Option.some.inj h2).symm
  · intro config env m entry r hstate
    unfold oidcCallback
    simp only [hstate, if_neg hne]
    unfold oidcRedirectStore
    rw [OauthMap_get_put_self]

/-- Witness of C23: the state of 32 bytes of value 7. -/
theorem oidcState_shape_witness :
    (oidcState (List.replicate 32 7)).length = 43 ∧ oidcState (List.replicate 32 7) ≠ [] :=
  ⟨(oidcState_shape (List.replicate 32 7) (by decide)
      (fun x hx => by rw [List.eq_of_mem_replicate hx]; decide)).1,
   (oidcState_shape (List.replicate 32 7) (by decide)
      (fun x hx => by rw [List.eq_of_mem_replicate hx]; decide)).2.2.2.1⟩

/-! ## The callback URL of the OIDC flow -/

theorem head?_dropWhile_slash (l : GoString) :
    (l.dropWhile (fun c => c == '/')).head? ≠ some '/' := by
  intro h
  have hn := List.head?_dropWhile_not (fun c => c == '/') l
  rw [h] at hn
  simp at hn

theorem trimSlash_slashesRemoved (s : GoString) : slashesRemoved s (trimSlash s) := by
  have hs := (List.takeWhile_append_dropWhile (fun c => c == '/') s).symm
  have hd := (List.takeWhile_append_dropWhile (fun c => c == '/')
    (s.dropWhile (fun c => c == '/')).reverse).symm
  have hd2 : s.dropWhile (fun c => c == '/') = trimSlash s ++
      ((s.dropWhile (fun c => c == '/')).reverse.takeWhile (fun c => c == '/')).reverse := by
    unfold trimSlash
    rw [← List.reverse_append, ← hd, List.reverse_reverse]
  refine ⟨⟨s.takeWhile (fun c => c == '/'),
    ((s.dropWhile (fun c => c == '/')).reverse.takeWhile (fun c => c == '/')).reverse,
    ?_, ?_, ?_⟩, ?_, ?_⟩
  · rw [List.append_assoc, ← hd2]
    exact hs
  · intro c hc
    simpa using List.mem_takeWhile_imp hc
  · intro c hc
    rw [List.mem_reverse] at hc
    simpa using List.mem_takeWhile_imp hc
  · intro h
    apply head?_dropWhile_slash s
    rw [hd2]
    cases ht : trimSlash s with
    | nil => rw [ht] at h; cases h
    | cons a as =>
      rw [ht] at h
      simpa using h
  · intro h
    apply head?_dropWhile_slash (s.dropWhile (fun c => c == '/')).reverse
    rw [← List.getLast?_reverse, ← h]
    rfl

/-- C24: `getOidcCallbackURL` returns the configured callback URL when there is
one; otherwise the scheme, `://`, the host, the base after a `/` when the base
is not empty, and `/oidc-callback`, where the host and the base are the request
host and the configured base URL with their leading and trailing `/` removed,
and the scheme is that of the request URL if set, else the `X-Forwarded-Proto`
header if set, else `http` for a host that starts with `localhost:` or a request
without TLS, else `https`. -/
theorem getOidcCallbackURL_spec (r : Request) (config : HeadlampConfig) :
    ∃ host base : GoString,
      slashesRemoved r.Host host ∧ slashesRemoved config.BaseURL base ∧
      getOidcCallbackURL r config = callbackURLSpec r config host base := by
  refine ⟨trimSlash r.Host, trimSlash config.BaseURL, trimSlash_slashesRemoved _,
    trimSlash_slashesRemoved _, ?_⟩
  unfold getOidcCallbackURL callbackURLSpec callbackSchemeSpec
  by_cases hc : config.OidcCallbackURL = []
  · by_cases hsch : r.URL.Scheme = []
    · by_cases hf : r.Header.Get "X-Forwarded-Proto".toList = []
      · by_cases hb : trimSlash config.BaseURL = []
        · cases hl : HasPrefix r.Host "localhost:".toList <;> cases ht : r.TLS <;>
            simp [hc, hsch, hf, hb, hl, ht]
        · cases hl : HasPrefix r.Host "localhost:".toList <;> cases ht : r.TLS <;>
            simp [hc, hsch, hf, hb, hl, ht]
      · by_cases hb : trimSlash config.BaseURL = []
        · simp [hc, hsch, hf, hb]
        · simp [hc, hsch, hf, hb]
    · by_cases hb : trimSlash config.BaseURL = []
      · simp [hc, hsch, hb]
      · simp [hc, hsch, hb]
  · simp [hc]

/-! ## Node drain -/

theorem podDelete_ttl (pods : List Pod) (g : Int) :
    (pods.map (fun pod => DrainEffect.podDelete pod.Namespace pod.Name g)).filterMap
      DrainEffect.ttl = [] := by
  induction pods with
  | nil => rfl
  | cons p ps ih => simp [List.filterMap_cons, DrainEffect.ttl]

/-- C25: on every path `drainNode` makes one `SetWithTTL` call, and the duration
it passes is `DrainNodeCacheTTL * time.Minute`, 20 minutes, which is 1200
seconds and not 20 seconds. -/
theorem drainNode_ttl_minutes (env : DrainEnv) (nodeName cluster : GoString) :
    (drainNode env nodeName cluster).filterMap DrainEffect.ttl = [20 * Minute] ∧
    20 * Minute = 1200 * Second ∧ 20 * Minute ≠ 20 * Second := by
  refine ⟨?_, by decide, by decide⟩
  have httl : DrainNodeCacheTTL * Minute = 20 * Minute := rfl
  simp only [drainNode, httl]
  cases h1 : env.nodeGet nodeName with
  | some err => rfl
  | none =>
    cases h2 : env.nodeUpdate nodeName with
    | some err => rfl
    | none =>
      cases h3 : env.podList ("spec.nodeName=".toList ++ nodeName) with
      | error err => rfl
      | ok pods =>
        simp only [List.filterMap_append, podDelete_ttl]
        rfl

/-- A run of C25: draining the node `n1` of the cluster `prod` writes the status
`success` with a duration of 1200 seconds. -/
theorem drainNode_sample_ttl :
    (drainNode sampleDrainEnv "n1".toList "prod".toList).getLast? =
      some (DrainEffect.setWithTTL "key-n1prod".toList "success".toList (1200 * Second)) := by
  decide

/-! ## The store calls of a rename -/

theorem updateCustomLoop_errs_ne {σ : Type} (K : StoreOps σ) (clusterName : GoString) :
    ∀ (contexts : List Context) (store : σ) (errs : List GoString) (log : List AdminEffect),
      errs ≠ [] → (updateCustomLoop K clusterName contexts store errs log).2.1 ≠ []
  | [], _, _, _, h => h
  | context :: rest, store, errs, log, h => by
    simp only [updateCustomLoop]
    apply updateCustomLoop_errs_ne K clusterName rest
    cases (K.RemoveContext store clusterName).2 <;>
      cases (K.AddContext (K.RemoveContext store clusterName).1 context).2 <;> simp [h]

theorem updateCustomLoop_log {σ : Type} (K : StoreOps σ) (clusterName : GoString) :
    ∀ (contexts : List Context) (store : σ) (errs : List GoString) (log : List AdminEffect),
      (updateCustomLoop K clusterName contexts store errs log).2.2 =
        log ++ removeAddCalls clusterName contexts
  | [], _, _, log => by simp [updateCustomLoop, removeAddCalls]
  | context :: rest, store, errs, log => by
    simp only [updateCustomLoop]
    rw [updateCustomLoop_log K clusterName rest]
    simp [removeAddCalls]

theorem removeAddCalls_count (clusterName : GoString) (contexts : List Context) :
    (removeAddCalls clusterName contexts).count (AdminEffect.removeContext clusterName) =
      contexts.length := by
  induction contexts with
  | nil => rfl
  | cons c cs ih => simp [removeAddCalls, ih]

theorem updateCustomLoop_absent {σ : Type} (K : StoreOps σ) (clusterName : GoString)
    (hremove : ∀ s : σ, (∃ e, K.GetContext s clusterName = Except.error e) →
      (K.RemoveContext s clusterName).2 ≠ none)
    (context : Context) (rest : List Context) (store : σ) (errs : List GoString)
    (log : List AdminEffect) (habs : ∃ e, K.GetContext store clusterName = Except.error e) :
    (updateCustomLoop K clusterName (context :: rest) store errs log).2.1 ≠ [] := by
  simp only [updateCustomLoop]
  apply updateCustomLoop_errs_ne K clusterName rest
  cases h : (K.RemoveContext store clusterName).2 with
  | none => exact absurd h (hremove store habs)
  | some e =>
    cases (K.AddContext (K.RemoveContext store clusterName).1 context).2 <;> simp

theorem specStore_remove_absent (clusterName : GoString) (s : List Context)
    (h : ∃ e, specStore.GetContext s clusterName = Except.error e) :
    (specStore.RemoveContext s clusterName).2 ≠ none := by
  obtain ⟨e, he⟩ := h
  have hfind : s.find? (fun k => k.Name == clusterName) = none := by
    cases hf : s.find? (fun k => k.Name == clusterName) with
    | none => rfl
    | some k =>
      simp only [specStore, hf] at he
      cases he
  have hany : s.any (fun k => k.Name == clusterName) = false := by
    rw [List.find?_eq_none] at hfind
    rw [List.any_eq_false]
    exact hfind
  simp only [specStore, hany]
  simp

theorem specStore_removed_absent (clusterName : GoString) (s : List Context)
    (_h : (specStore.RemoveContext s clusterName).2 = none) :
    ∃ e, specStore.GetContext (specStore.RemoveContext s clusterName).1 clusterName =
      Except.error e := by
  refine ⟨"context not found".toList, ?_⟩
  have hfind : ∀ l : List Context, (∀ k ∈ l, (k.Name == clusterName) = false) →
      specStore.GetContext l clusterName = Except.error "context not found".toList := by
    intro l hl
    have : l.find? (fun k => k.Name == clusterName) = none := by
      rw [List.find?_eq_none]
      intro k hk
      simp [hl k hk]
    simp only [specStore, this]
  apply hfind
  intro k hk
  by_cases hany : s.any (fun k => k.Name == clusterName) = true
  · simp only [specStore, hany, if_true] at hk
    rw [List.mem_filter] at hk
    simpa using hk.2
  · simp only [specStore, hany] at hk
    rw [Bool.not_eq_true, List.any_eq_false] at hany
    simpa using hany k hk

theorem specStore_add_absent (clusterName : GoString) (s : List Context) (context : Context)
    (hname : context.Name ≠ clusterName)
    (h : ∃ e, specStore.GetContext s clusterName = Except.error e) :
    ∃ e, specStore.GetContext (specStore.AddContext s context).1 clusterName =
      Except.error e := by
  obtain ⟨e, he⟩ := h
  have hfind : s.find? (fun k => k.Name == clusterName) = none := by
    cases hf : s.find? (fun k => k.Name == clusterName) with
    | none => rfl
    | some k =>
      simp only [specStore, hf] at he
      cases he
  refine ⟨"context not found".toList, ?_⟩
  have hnone : ((specStore.AddContext s context).1).find? (fun k => k.Name == clusterName) =
      none := by
    rw [List.find?_eq_none] at hfind ⊢
    intro k hk
    by_cases hany : s.any (fun k => k.Name == context.Name && !k.Internal) = true
    · simp only [specStore, hany, if_true] at hk
      exact hfind k hk
    · simp only [specStore, hany, Bool.false_eq_true, if_false] at hk
      rw [List.mem_append, List.mem_filter, List.mem_singleton] at hk
      rcases hk with hk | rfl
      · exact hfind k hk.1
      · simpa using hname
  simp only [specStore] at hnone ⊢
  simp only [hnone]

/-- C29: `updateCustomContextToCache` calls `RemoveContext(clusterName)` once
for each context that the kubeconfig loads. Over a store in which removing an
absent name fails, in which a removed name is absent, and in which adding a
context under another name leaves an absent name absent, a kubeconfig that loads
two or more contexts, none of them named `clusterName`, makes the function
return a list of errors that is not empty. -/
theorem updateCustomContextToCache_removes_per_context {σ : Type} (K : StoreOps σ)
    (env : AdminEnv) (store : σ) (config : ApiConfig) (clusterName : GoString)
    (c1 c2 : Context) (rest : List Context) (errs0 : List GoString)
    (hremove : ∀ s : σ, (∃ e, K.GetContext s clusterName = Except.error e) →
      (K.RemoveContext s clusterName).2 ≠ none)
    (hremoved : ∀ s : σ, (K.RemoveContext s clusterName).2 = none →
      ∃ e, K.GetContext (K.RemoveContext s clusterName).1 clusterName = Except.error e)
    (hadd : ∀ (s : σ) (context : Context), context.Name ≠ clusterName →
      (∃ e, K.GetContext s clusterName = Except.error e) →
      ∃ e, K.GetContext (K.AddContext s context).1 clusterName = Except.error e)
    (hload : env.LoadContextsFromAPIConfig config = (c1 :: c2 :: rest, errs0))
    (hnames : ∀ context ∈ c1 :: c2 :: rest, context.Name ≠ clusterName) :
    (updateCustomContextToCache K env store config clusterName).2.1 ≠ [] ∧
    (updateCustomContextToCache K env store config clusterName).2.2 =
      removeAddCalls clusterName (c1 :: c2 :: rest) ∧
    ((updateCustomContextToCache K env store config clusterName).2.2.count
      (AdminEffect.removeContext clusterName) = (c1 :: c2 :: rest).length) := by
  have hlog : (updateCustomContextToCache K env store config clusterName).2.2 =
      removeAddCalls clusterName (c1 :: c2 :: rest) := by
    simp only [updateCustomContextToCache, hload, List.length_cons]
    rw [if_neg (by omega), updateCustomLoop_log]
    rfl
  refine ⟨?_, hlog, ?_⟩
  · simp only [updateCustomContextToCache, hload, List.length_cons]
    rw [if_neg (by omega)]
    cases h1 : (K.RemoveContext store clusterName).2 with
    | some e =>
      simp only [updateCustomLoop, h1]
      apply updateCustomLoop_errs_ne K clusterName rest
      cases (K.AddContext (K.RemoveContext store clusterName).1 c1).2 <;>
        cases (K.RemoveContext (K.AddContext (K.RemoveContext store clusterName).1 c1).1
          clusterName).2 <;>
        cases (K.AddContext (K.RemoveContext (K.AddContext
          (K.RemoveContext store clusterName).1 c1).1 clusterName).1 c2).2 <;> simp
    | none =>
      have habs := hadd _ c1 (hnames c1 (List.mem_cons_self _ _)) (hremoved store h1)
      have hstep : updateCustomLoop K clusterName (c1 :: c2 :: rest) store errs0 [] =
          updateCustomLoop K clusterName (c2 :: rest)
            (K.AddContext (K.RemoveContext store clusterName).1 c1).1
            (match (K.AddContext (K.RemoveContext store clusterName).1 c1).2 with
              | some err => errs0 ++ [err]
              | none => errs0)
            ([] ++ [AdminEffect.removeContext clusterName, AdminEffect.addContext c1]) := by
        conv => lhs; unfold updateCustomLoop
        simp only [h1]
      rw [hstep]
      exact updateCustomLoop_absent K clusterName hremove c2 rest _ _ _ habs
  · rw [hlog, removeAddCalls_count]

/-- Witness of C29: the store holds `old`, and the kubeconfig of the rename of
`old` loads as `prod` and `ghost`. The first removal takes `old` out, both
contexts are added, and the second removal fails. -/
theorem updateCustomContextToCache_removes_per_context_witness :
    updateCustomContextToCache specStore
      (sampleTwoContextsEnv { NewClusterName := "blue".toList,
                              Source := "kubeconfig".toList, Stateless := false })
      [sampleOldContext] sampleApiConfig "old".toList =
        ([sampleOidcContext, sampleGhostContext], ["context not found".toList],
          [AdminEffect.removeContext "old".toList, AdminEffect.addContext sampleOidcContext,
           AdminEffect.removeContext "old".toList, AdminEffect.addContext sampleGhostContext]) ∧
    (updateCustomContextToCache specStore
      (sampleTwoContextsEnv { NewClusterName := "blue".toList,
                              Source := "kubeconfig".toList, Stateless := false })
      [sampleOldContext] sampleApiConfig "old".toList).2.1 ≠ [] :=
  ⟨by decide,
   (updateCustomContextToCache_removes_per_context specStore
      (sampleTwoContextsEnv { NewClusterName := "blue".toList,
                              Source := "kubeconfig".toList, Stateless := false })
      [sampleOldContext] sampleApiConfig "old".toList sampleOidcContext sampleGhostContext []
      [] (specStore_remove_absent "old".toList) (specStore_removed_absent "old".toList)
      (specStore_add_absent "old".toList) rfl (by decide)).1⟩

/-! ## A rename whose store update reports errors -/

theorem handleClusterRename_update_errors {σ : Type} (K : StoreOps σ) (c : HeadlampConfig)
    (env : AdminEnv) (store : σ) (clusterName : GoString) (reqBody : RenameClusterRequest)
    (path : GoString) (config : ApiConfig)
    (hload : getPathAndLoadKubeconfig c env reqBody.Source = Except.ok (path, config))
    (huniq : CheckUniqueName env config.Contexts clusterName reqBody.NewClusterName = true)
    (hwrite : (customNameToExtenstions env config
      (findMatchingContextName env config clusterName) reqBody.NewClusterName path).2.2 = none)
    (herrs : (updateCustomContextToCache K env store
      (customNameToExtenstions env config (findMatchingContextName env config clusterName)
        reqBody.NewClusterName path).1 clusterName).2.1 ≠ []) :
    (handleClusterRename K c env store clusterName reqBody).run.panicked = true ∧
    (handleClusterRename K c env store clusterName reqBody).run.log.any
      AdminEffect.isResponse = false := by
  have hlen : (updateCustomContextToCache K env store
      (customNameToExtenstions env config (findMatchingContextName env config clusterName)
        reqBody.NewClusterName path).1 clusterName).2.1.length > 0 :=
    List.length_pos.mpr herrs
  unfold handleClusterRename
  simp only [hload, huniq, Bool.not_true, Bool.false_eq_true, if_false, hwrite, hlen, if_true]
  refine ⟨rfl, ?_⟩
  simp only [handleErrorValue, List.map_nil, List.append_nil, List.any_append]
  have h1 : (customNameToExtenstions env config (findMatchingContextName env config clusterName)
      reqBody.NewClusterName path).2.1.any AdminEffect.isResponse = false := by
    unfold customNameToExtenstions
    split <;> rfl
  have h2 : (updateCustomContextToCache K env store
      (customNameToExtenstions env config (findMatchingContextName env config clusterName)
        reqBody.NewClusterName path).1 clusterName).2.2.any AdminEffect.isResponse = false := by
    unfold updateCustomContextToCache
    simp only []
    split
    · rfl
    · rw [updateCustomLoop_log, List.nil_append]
      generalize (env.LoadContextsFromAPIConfig _).1 = contexts
      induction contexts with
      | nil => rfl
      | cons x xs ih => simpa [removeAddCalls, AdminEffect.isResponse] using ih
  rw [h1, h2]
  rfl

/-- C30 fails on the code: the store holds `prod` and `ghost`, the kubeconfig
lists both, and `prod` is renamed to `blue`. The kubeconfig is written, the
store update removes `prod`, adds `blue`, fails to remove `prod` a second time
and fails to add `ghost`, and reports the two errors. `handleClusterRename` then
passes its own variable `err`, which is nil, to `handleError`, whose
`err.Error()` panics: no response is written, and no error is returned. -/
theorem handleClusterRename_update_errors_panic :
    (updateCustomContextToCache specStore (sampleRenameEnv sampleRename)
      [sampleOidcContext, sampleGhostContext] sampleTwoApiConfig "prod".toList).2.1 =
        ["context not found".toList, "context already exists".toList] ∧
    (handleClusterRename specStore sampleConfig (sampleRenameEnv sampleRename)
      [sampleOidcContext, sampleGhostContext] "prod".toList sampleRename).run.panicked = true ∧
    (handleClusterRename specStore sampleConfig (sampleRenameEnv sampleRename)
      [sampleOidcContext, sampleGhostContext] "prod".toList sampleRename).run.log.any
        AdminEffect.isResponse = false ∧
    (handleClusterRename specStore sampleConfig (sampleRenameEnv sampleRename)
      [sampleOidcContext, sampleGhostContext] "prod".toList sampleRename).run.log.filter
        AdminEffect.isStoreWrite =
      [AdminEffect.removeContext "prod".toList, AdminEffect.addContext sampleBlueContext,
       AdminEffect.removeContext "prod".toList, AdminEffect.addContext sampleGhostContext] ∧
    handleErrorValue none StatusInternalServerError = ([], true) := by
  refine ⟨by decide, by decide, by decide, by decide, rfl⟩

/-! ## The mismatch mark and the response -/

theorem ResponseState_apply_sent (s : ResponseState) (e : Effect) (x : Int × Header)
    (h : s.sent = some x) : (s.apply e).sent = some x := by
  cases e with
  | upstream call =>
    cases call <;>
      simp [ResponseState.apply, ResponseState.WriteHeader, ResponseState.Write, h]
  | _ =>
    simp [ResponseState.apply, ResponseState.WriteHeader, ResponseState.Write,
      ResponseState.Error, h]

theorem ResponseState_foldl_sent (x : Int × Header) :
    ∀ (l : List Effect) (s : ResponseState), s.sent = some x →
      (l.foldl ResponseState.apply s).sent = some x
  | [], _, h => h
  | e :: l, s, h => by
    rw [List.foldl_cons]
    exact ResponseState_foldl_sent x l _ (ResponseState_apply_sent s e x h)

theorem ResponseState_WriteHeader_sent (s : ResponseState) (c : Int)
    (hc : ¬ (100 ≤ c ∧ c ≤ 199)) : (s.WriteHeader c).sent.isSome = true := by
  unfold ResponseState.WriteHeader
  cases h : s.sent with
  | some x => simp [h]
  | none => simp [hc]

theorem captureResponseWriter_recorded_sent (c : Int) (hc : ¬ (100 ≤ c ∧ c ≤ 199)) :
    ∀ (calls : List ProxyCall) (w : captureResponseWriter) (s : ResponseState),
      (calls.foldl captureResponseWriter.record w).statusCode = c →
        w.statusCode = c ∨
        (((calls.map Effect.upstream).foldl ResponseState.apply s).sent).isSome = true
  | [], _, _, h => Or.inl h
  | call :: rest, w, s, h => by
    rw [List.foldl_cons] at h
    rw [List.map_cons, List.foldl_cons]
    rcases captureResponseWriter_recorded_sent c hc rest _
      (s.apply (Effect.upstream call)) h with h1 | h1
    · cases call with
      | headerSet k v => exact Or.inl h1
      | write b => exact Or.inl h1
      | writeHeader code =>
        right
        have hcode : code = c := h1
        subst hcode
        have hs : ((s.apply (Effect.upstream (ProxyCall.writeHeader code))).sent).isSome =
            true := ResponseState_WriteHeader_sent s code hc
        obtain ⟨x, hx⟩ := Option.isSome_iff_exists.mp hs
        rw [ResponseState_foldl_sent x (rest.map Effect.upstream) _ hx]
        rfl
    · exact Or.inr h1

theorem clusterRequestHandler_log_shape (env : RouterEnv) (r : Request) :
    mismatchHeader ∉ (clusterRequestHandler env r).log ∨
    ∃ base : List Effect, (clusterRequestHandler env r).log = base ++ [mismatchHeader] ∧
      mismatchHeader ∉ base ∧ ((responseOf base).sent).isSome = true := by
  unfold clusterRequestHandler
  cases hkey : env.getContextKeyForRequest r with
  | error e =>
    left
    simp [handleError, mismatchHeader]
  | ok key =>
    simp only []
    cases hctx : env.GetContext key with
    | error e =>
      left
      simp [handleError, mismatchHeader]
    | ok kContext =>
      simp only []
      by_cases hE : (kContext.Error != []) = true
      · left
        simp only [hE, if_true]
        simp [handleError, mismatchHeader]
      · simp only [hE, Bool.false_eq_true, if_false]
        cases hU : env.urlParse kContext.Server with
        | error e =>
          left
          simp [handleError, mismatchHeader]
        | ok clusterURL =>
          simp only []
          generalize rewriteRequest env clusterURL r = r2
          rcases hP : env.ProxyRequest kContext r2 with ⟨calls, err⟩
          cases err with
          | some e =>
            left
            simp [handleError, mismatchHeader]
          | none =>
            simp only []
            by_cases hc : (kContext.OidcConf.isSome &&
                ((List.foldl captureResponseWriter.record
                    { statusCode := StatusOK, hadBody := false } calls).statusCode ==
                      StatusUnauthorized ||
                  (List.foldl captureResponseWriter.record
                    { statusCode := StatusOK, hadBody := false } calls).statusCode ==
                      StatusForbidden)) = true
            · right
              simp only [hc, if_true]
              refine ⟨[Effect.handlePluginReload, Effect.proxyRequest r2] ++
                calls.map Effect.upstream, rfl, by simp [mismatchHeader], ?_⟩
              simp only [Bool.and_eq_true, Bool.or_eq_true, beq_iff_eq] at hc
              unfold responseOf
              rw [List.foldl_append]
              rcases hc.2 with h401 | h403
              · rcases captureResponseWriter_recorded_sent StatusUnauthorized (by decide)
                  calls _ (List.foldl ResponseState.apply { header := [], sent := none }
                    [Effect.handlePluginReload, Effect.proxyRequest r2]) h401 with h | h
                · exact absurd h (by decide)
                · exact h
              · rcases captureResponseWriter_recorded_sent StatusForbidden (by decide)
                  calls _ (List.foldl ResponseState.apply { header := [], sent := none }
                    [Effect.handlePluginReload, Effect.proxyRequest r2]) h403 with h | h
                · exact absurd h (by decide)
                · exact h
            · left
              simp only [hc, Bool.false_eq_true, if_false]
              simp [mismatchHeader]

/-- C5 fails on the code: the header call of the router comes after the status
line. In every run the client receives the status and the header it would have
received had the router not made the call `w.Header().Set("X-Headlamp-Error",
"OIDC_CONFIG_MISMATCH")`: whenever the call is made, the upstream has already
passed a 401 or a 403 through `wrappedWriter.WriteHeader` to `w`. In the run of
the sample request with a bearer token, answered 401 by the upstream of an OIDC
cluster, the detector reports a mismatch, the call is made, and the response
goes out with status 401 and without the header. -/
theorem clusterRequestHandler_mark_after_status :
    (∀ (env : RouterEnv) (r : Request),
      (responseOf (clusterRequestHandler env r).log).delivered =
        (responseOf ((clusterRequestHandler env r).log.filter
          (fun e => e != mismatchHeader))).delivered) ∧
    (clusterRequestHandler (sampleRouterEnv 401) sampleBearerRequest).recorded = some 401 ∧
    (∃ out : Request,
      (clusterRequestHandler (sampleRouterEnv 401) sampleBearerRequest).outbound = some out ∧
      out.Header.Get "Authorization".toList = "Bearer tok".toList ∧
      (NewOIDCMismatchDetector sampleOidcContext.OidcConf.isSome
        sampleOidcContext.Name).DetectMismatch 401
          (HasBearerToken id (out.Header.Get "Authorization".toList)) = true) ∧
    (clusterRequestHandler (sampleRouterEnv 401) sampleBearerRequest).log.getLast? =
      some mismatchHeader ∧
    (responseOf (clusterRequestHandler (sampleRouterEnv 401)
      sampleBearerRequest).log).delivered = (401, []) ∧
    (responseOf (clusterRequestHandler (sampleRouterEnv 401)
      sampleBearerRequest).log).delivered.2.Get "X-Headlamp-Error".toList = [] := by
  refine ⟨?_, by decide, ⟨rewriteRequest (sampleRouterEnv 401)
    { Scheme := "https".toList, Host := "k8s.example:6443".toList, Path := [] }
    sampleBearerRequest, by decide, by decide, by decide⟩, by decide, by decide, by decide⟩
  intro env r
  rcases clusterRequestHandler_log_shape env r with h | ⟨base, hlog, hbase, hsent⟩
  · have hf : (clusterRequestHandler env r).log.filter (fun e => e != mismatchHeader) =
        (clusterRequestHandler env r).log := by
      rw [List.filter_eq_self]
      intro e he
      have hne : e ≠ mismatchHeader := fun heq => h (heq ▸ he)
      simpa using hne
    rw [hf]
  · have hf : base.filter (fun e => e != mismatchHeader) = base := by
      rw [List.filter_eq_self]
      intro e he
      have hne : e ≠ mismatchHeader := fun heq => hbase (heq ▸ he)
      simpa using hne
    obtain ⟨x, hx⟩ := Option.isSome_iff_exists.mp hsent
    have hlast : (responseOf (base ++ [mismatchHeader])).sent = some x := by
      unfold responseOf at hx ⊢
      rw [List.foldl_append]
      exact ResponseState_foldl_sent x _ _ hx
    rw [hlog, List.filter_append, hf]
    have hnil : [mismatchHeader].filter (fun e => e != mismatchHeader) = [] := by decide
    rw [hnil, List.append_nil]
    unfold ResponseState.delivered
    rw [hlast, hx]

end Headlamp
